import Mathlib

set_option maxRecDepth 10000

/-!
Shallow embedding of the recursive-descent parser in `src/parser.cpp`.

The parser is a single mutable object (source buffer, cursor index, current
character, line number, a queue of captured comments, and a mutable list of
type names).  We model it as a state-passing interpreter: `PM α` is a function
from the parser state to a result that is either a normal return (with the new
state), a thrown `runtime_error` (with the state at the moment of the throw;
C++ exceptions propagate unchanged, which `PM.bind` mirrors), or fuel
exhaustion.  Every function of the C++ class becomes a field of a record `Fns`;
`fnsAux (fuel+1)` builds each function body on top of the functions at `fuel`,
so each dynamic call or loop iteration descends one fuel level.  Termination of
the C++ code on an input is `∃ fuel` with a non-fuel outcome; divergence is
`∀ fuel, fuel exhaustion`.

The JSON trees the parser emits are modelled by the inductive `J`.  The tree
helpers mirror the nlohmann-json operations the source uses: `push_back` on a
null value turns it into a one-element array, `empty()` is true on null, etc.

`parser.hpp` is not part of the sources; the character classifiers
(`isSpace`, `isHex`, ...), the configuration tables (`typeModifiers`,
`typeNames`, `operators`, `precedence`, `escapes`) and `isIdentifier` are
modelled from the specification (marked `Modelled from the spec:` below).
-/

/-- JSON-like tagged tree values, as produced by the parser. -/
inductive J where
  | null : J
  | s (v : String) : J
  | n (v : Nat) : J
  | arr (xs : List J) : J
  | obj (fields : List (String × J)) : J
deriving Repr

/-- nlohmann-json `push_back`: pushing onto a null value makes a singleton
array; pushing onto an array appends.  Other cases do not occur in the
parser (the C++ library would throw). -/
def jpush (j x : J) : J :=
  match j with
  | .null => .arr [x]
  | .arr xs => .arr (xs ++ [x])
  | j => j

/-- nlohmann-json `empty()`: true on null and on empty arrays (the parser only
calls it on those). -/
def jempty (j : J) : Bool :=
  match j with
  | .null => true
  | .arr xs => xs.isEmpty
  | _ => false

/-- nlohmann-json `is_null()`. -/
def jIsNull (j : J) : Bool :=
  match j with
  | .null => true
  | _ => false

/-- Object field lookup, `j["k"]` (read). -/
def jget (j : J) (k : String) : J :=
  match j with
  | .obj kvs => ((kvs.lookup k).getD .null)
  | _ => .null

/-- Read a string out of a json value (`string kind = init["kind"]`). -/
def jstr (j : J) : String :=
  match j with
  | .s v => v
  | _ => ""

/-- Object field update `j["kind"] = v` (only used for the `kind` field in
`parseStatement`'s `for` branch). -/
def jsetKind (j : J) (v : String) : J :=
  match j with
  | .obj kvs => .obj (kvs.map (fun kv => if kv.1 = "kind" then (kv.1, J.s v) else kv))
  | j => j

/-- The `Type` struct: a type name plus collected modifiers. -/
structure CType where
  position : Nat
  name : String
  modifiers : List String
deriving Repr

/-- The `Declaration` struct returned by `parseDeclaration`. -/
structure Decl where
  kind : String
  position : Nat
  identifier : J
  type : CType
deriving Repr

/-- Serialization of `Type`. -/
def typeToJ (t : CType) : J :=
  .obj [("kind", .s "Type"), ("position", .n t.position), ("name", .s t.name),
        ("modifiers", .arr (t.modifiers.map J.s))]

/-- Serialization of `Declaration`. -/
def declToJ (d : Decl) : J :=
  .obj [("kind", .s d.kind), ("position", .n d.position),
        ("identifier", d.identifier), ("type", typeToJ d.type)]

/-- The NUL sentinel returned by `std::string::operator[]` at the end of the
buffer.  Reads past the end are modelled as NUL as well. -/
def nul : Char := Char.ofNat 0

/-- `source[i]` with the NUL sentinel out of bounds. -/
def getc (src : List Char) (i : Int) : Char :=
  if i < 0 then nul else src.getD i.toNat nul

/-- Parser state: the mutable members of the C++ `Parser` object. -/
structure PState where
  source : List Char
  index : Int
  curr : Char
  lineNumber : Nat
  comments : List J
  typeNames : List String
deriving Repr

/-- Result of running a parser computation: normal return, a thrown
`runtime_error` (carrying the state at the throw site), or fuel exhaustion. -/
inductive PResult (α : Type) where
  | ok (a : α) (s : PState)
  | err (msg : String) (s : PState)
  | fuel
deriving Repr

/-- Parser computations as state transformers. -/
def PM (α : Type) : Type := PState → PResult α

/-- Sequencing: a thrown error or fuel exhaustion aborts the rest of the
computation (no error is ever caught inside the parser). -/
def PM.bind {α β : Type} (x : PM α) (f : α → PM β) : PM β := fun st =>
  match x st with
  | .ok a st' => f a st'
  | .err e st' => .err e st'
  | .fuel => .fuel

def PM.pure {α : Type} (a : α) : PM α := fun st => .ok a st

instance : Monad PM where
  pure := PM.pure
  bind := PM.bind

/-- Read the whole state. -/
def getS : PM PState := fun st => .ok st st

/-- Replace the whole state. -/
def setS (st' : PState) : PM Unit := fun _ => .ok () st'

/-- Apply a state transformer. -/
def modifyS (f : PState → PState) : PM Unit := fun st => .ok () (f st)

/-- `Parser::unexpected`: throw `runtime_error("Line number N: Expect X")`
with the line number at the moment of failure. -/
def unexpected {α : Type} (expected : String) : PM α := fun st =>
  .err ("Line number " ++ toString st.lineNumber ++ ": Expect " ++ expected) st

/-- A `runtime_error` with a free-form message (`struct` / `enum`). -/
def throwMsg {α : Type} (msg : String) : PM α := fun st => .err msg st

/-- The computation that has run out of fuel. -/
def fuelOut {α : Type} : PM α := fun _ => .fuel

/-- Modelled from the spec: whitespace characters. -/
def isSpace (c : Char) : Bool := c = ' ' || c = '\t' || c = '\n' || c = '\r'

/-- Modelled from the spec: characters a base-10 number may contain
("any float digit or `.`"). -/
def isFloat (c : Char) : Bool := c.isDigit || c = '.'

/-- Modelled from the spec: hexadecimal digits. -/
def isHex (c : Char) : Bool := c.isDigit || ('a' ≤ c.toLower && c.toLower ≤ 'f')

/-- Modelled from the spec: octal digits. -/
def isOct (c : Char) : Bool := '0' ≤ c && c ≤ '7'

/-- Modelled from the spec: identifier start characters `[A-Za-z_]`. -/
def isIdentifierStart (c : Char) : Bool := c.isAlpha || c = '_'

/-- Modelled from the spec: identifier body characters `[A-Za-z0-9_]`. -/
def isIdentifierBody (c : Char) : Bool := c.isAlphanum || c = '_'

/-- Modelled from the spec: an illegal character is non-printable, non-space,
non-ASCII.  The NUL sentinel at end of buffer must be legal (the parser always
runs the check at end of input). -/
def isIllegal (c : Char) : Bool :=
  !(c = nul) && !(isSpace c) && (c.toNat < 32 || c.toNat > 126)

/-- Modelled from the spec: a string is an identifier lexeme when it starts
with an identifier start character and continues with identifier body
characters. -/
def isIdentifier (str : String) : Bool :=
  match str.data with
  | [] => false
  | c :: cs => isIdentifierStart c && cs.all isIdentifierBody

/-- Modelled from the spec: the qualifier keyword set. -/
def typeModifiers : List String :=
  ["const", "static", "extern", "unsigned", "signed", "long", "short", "volatile"]

/-- Modelled from the spec: built-in type names (the initial contents of the
mutable `typeNames` member). -/
def typeNamesInit : List String := ["void", "char", "int", "float", "double"]

/-- Modelled from the spec: the ordered, longest-first binary operator list. -/
def operators : List String :=
  ["<<=", ">>=", "==", "!=", "<=", ">=", "&&", "||",
   "+=", "-=", "*=", "/=", "%=", "&=", "|=", "^=",
   "<<", ">>", "<", ">", "+", "-", "*", "/", "%", "&", "|", "^", "="]

/-- Modelled from the spec: integer precedence per operator lexeme (higher
binds tighter); `map::operator[]` yields 0 for missing keys. -/
def precedence (op : String) : Nat :=
  if op = "=" || op = "+=" || op = "-=" || op = "*=" || op = "/=" || op = "%=" ||
     op = "&=" || op = "|=" || op = "^=" || op = "<<=" || op = ">>=" then 1
  else if op = "||" then 2
  else if op = "&&" then 3
  else if op = "|" then 4
  else if op = "^" then 5
  else if op = "&" then 6
  else if op = "==" || op = "!=" then 7
  else if op = "<" || op = ">" || op = "<=" || op = ">=" then 8
  else if op = "<<" || op = ">>" then 9
  else if op = "+" || op = "-" then 10
  else if op = "*" || op = "/" || op = "%" then 11
  else 0

/-- Modelled from the spec: the recognized escape letters. -/
def escapes : List Char := ['n', 't', 'r', 'a', 'b', 'f', 'v', '\\', '\'', '"', '0']

/-- Value of a hex digit, `string("0123456789abcdef").find(tolower(c))`. -/
def hexVal (c : Char) : Nat :=
  (("0123456789abcdef".data.findIdx? (fun d => d = c.toLower)).getD 0)

/-- Value of an octal digit. -/
def octVal (c : Char) : Nat :=
  (("01234567".data.findIdx? (fun d => d = c.toLower)).getD 0)

/-- The constructor `Parser::Parser(string src)`. -/
def initState (src : String) : PState :=
  { source := src.data, index := -1, curr := nul, lineNumber := 1,
    comments := [], typeNames := typeNamesInit }

/-- Node builders (canonical field order). -/
def mkIdent (pos : Nat) (name : String) : J :=
  .obj [("kind", .s "Identifier"), ("position", .n pos), ("name", .s name)]

def mkLit (kind : String) (pos : Nat) (value : J) : J :=
  .obj [("kind", .s kind), ("position", .n pos), ("value", value)]

def mkBin (pos : Nat) (op : String) (left right : J) : J :=
  .obj [("kind", .s "BinaryExpression"), ("position", .n pos), ("op", .s op),
        ("left", left), ("right", right)]

def mkComment (kind : String) (pos : Nat) (content : String) : J :=
  .obj [("kind", .s kind), ("position", .n pos), ("content", .s content)]

/-- The record of all parser functions at a given fuel level.  `parse`,
`parseStatement`, ... mirror the C++ member functions; the `...Go` / `...Loop`
fields are the unbounded `while` / `do-while` loops of the corresponding
functions, with their accumulators made explicit. -/
structure Fns where
  next : Bool → Bool → PM Unit
  nextLoop : Bool → Bool → PM Unit
  spacesRun : PM Unit
  skipSpaces : PM Unit
  lookahead : String → Bool → PM Bool
  consume : String → PM Unit
  parseComment : PM J
  cBlockLoop : List Char → PM (List Char)
  cLineLoop : List Char → PM (List Char)
  parseIdentifier : Bool → PM J
  identLoop : List Char → PM (List Char)
  parseNumber : Nat → PM J
  numLoop : Nat → List Char → String → PM (List Char × String)
  parseEscape : PM String
  parseString : Bool → PM String
  strLoop : List Char → PM (List Char)
  parseLiteral : PM J
  commaExprGo : J → PM J
  idxGo : J → PM J
  parseUnary : PM J
  scanBinaryOperator : PM String
  parseBinary : J → Nat → PM J
  binOuter : J → Nat → String → PM J
  binInner : J → String → String → PM (J × String)
  parseExpression : String → PM J
  declarationIncoming : PM Bool
  parseDeclaration : String → PM Decl
  modsLoop : List String → PM (List String)
  parseDefinition : Decl → Bool → PM J
  bracketGo : J → Bool → PM (J × Bool)
  parseParameters : PM J
  paramsGo : J → PM J
  parseFunction : Decl → PM J
  parseBody : Bool → PM J
  blockGo : List J → PM (List J)
  parseStatement : PM J
  parseInclude : PM J
  incLoop1 : List Char → PM (List Char)
  incLoop2 : List Char → PM (List Char)
  parsePredefine : PM J
  parse : PM J
  parseGo : J → PM J

/-- Advance the cursor by one raw character, tracking line numbers
(the common `if (curr == '\n') lineNumber++; index++; curr = source[index];`
step). -/
def advance1 (st : PState) : PState :=
  { st with lineNumber := if st.curr = '\n' then st.lineNumber + 1 else st.lineNumber,
            index := st.index + 1,
            curr := getc st.source (st.index + 1) }

/-- The character-by-character matching loop of `Parser::lookahead`
(structural over the characters of the matched string). -/
def lookGo (F : Fns) (saved : Int) (chars : List Char) : PM Bool :=
  List.rec (PM.pure true)
    (fun ch _ ih => do
      let st ← getS
      if st.curr == ch then do
        F.next true false
        ih
      else do
        modifyS (fun st2 => { st2 with index := saved, curr := getc st2.source saved })
        PM.pure false)
    chars

/-- `Parser::lookahead`. -/
def lookaheadBody (F : Fns) (str : String) (keepBlanks : Bool) : PM Bool := do
  let st0 ← getS
  let b ← lookGo F st0.index str.data
  if b then do
    let st ← getS
    if isIdentifierStart st.curr && isIdentifier str then do
      modifyS (fun st2 => { st2 with index := st0.index, curr := getc st2.source st0.index })
      PM.pure false
    else do
      if !keepBlanks then F.skipSpaces else PM.pure ()
      PM.pure true
  else PM.pure false

/-- The loop of `Parser::consume` (structural over the consumed string). -/
def consumeGo (F : Fns) (str : String) (chars : List Char) : PM Unit :=
  List.rec (PM.pure ())
    (fun ch _ ih => do
      let st ← getS
      if st.curr == ch then do
        F.next false false
        ih
      else unexpected str)
    chars

/-- `Parser::consume`. -/
def consumeBody (F : Fns) (str : String) : PM Unit :=
  consumeGo F str str.data

/-- `Parser::next`: one raw advance followed by the `do { ... } while (skipped)`
drainage loop. -/
def nextBody (F : Fns) (withSpaces withComment : Bool) : PM Unit := do
  modifyS advance1
  F.nextLoop withSpaces withComment

/-- The inner `while (curr && isSpace(curr))` run of `Parser::next`. -/
def spacesRunBody (F : Fns) : PM Unit := do
  let st ← getS
  if st.curr != nul && isSpace st.curr then do
    modifyS advance1
    F.spacesRun
  else PM.pure ()

/-- One iteration of the `do { ... } while (skipped)` loop of `Parser::next`. -/
def nextLoopBody (F : Fns) (withSpaces withComment : Bool) : PM Unit := do
  let st ← getS
  let skipped1 ←
    if !withSpaces && isSpace st.curr then do
      F.spacesRun
      PM.pure true
    else PM.pure false
  let skipped2 ←
    if !withComment then do
      let comment ← F.parseComment
      let sk ←
        if !(jIsNull comment) then do
          modifyS (fun st2 => { st2 with comments := st2.comments ++ [comment] })
          PM.pure true
        else PM.pure false
      let st2 ← getS
      if isIllegal st2.curr then unexpected "legal character"
      else PM.pure sk
    else PM.pure false
  if skipped1 || skipped2 then F.nextLoop withSpaces withComment
  else PM.pure ()

/-- `Parser::skipSpaces`. -/
def skipSpacesBody (F : Fns) : PM Unit := do
  let st ← getS
  if isSpace st.curr then F.next false false else PM.pure ()

/-- The `while (curr != '*' || source[index + 1] != '/')` content loop of a
block comment. -/
def cBlockLoopBody (F : Fns) (acc : List Char) : PM (List Char) := do
  let st ← getS
  if st.curr != '*' || getc st.source (st.index + 1) != '/' then do
    F.next true true
    F.cBlockLoop (acc ++ [st.curr])
  else PM.pure acc

/-- The `while (curr != '\n')` content loop of an inline comment. -/
def cLineLoopBody (F : Fns) (acc : List Char) : PM (List Char) := do
  let st ← getS
  if st.curr != '\n' then do
    F.next true true
    F.cLineLoop (acc ++ [st.curr])
  else PM.pure acc

/-- `Parser::parseComment`. -/
def parseCommentBody (F : Fns) : PM J := do
  let b ← F.lookahead "/*" false
  if b then do
    let st ← getS
    let content ← F.cBlockLoop []
    modifyS (fun st2 => { st2 with index := st2.index + 2,
                                   curr := getc st2.source (st2.index + 2) })
    PM.pure (mkComment "BlockComment" st.lineNumber (String.mk content))
  else do
    let b2 ← F.lookahead "//" false
    if b2 then do
      let st ← getS
      let content ← F.cLineLoop []
      PM.pure (mkComment "InlineComment" st.lineNumber (String.mk content))
    else PM.pure J.null

/-- The `while (curr && isIdentifierBody(curr))` loop of `parseIdentifier`. -/
def identLoopBody (F : Fns) (acc : List Char) : PM (List Char) := do
  let st ← getS
  if st.curr != nul && isIdentifierBody st.curr then do
    F.next true false
    F.identLoop (acc ++ [st.curr])
  else PM.pure acc

/-- `Parser::parseIdentifier`. -/
def parseIdentifierBody (F : Fns) (keepBlanks : Bool) : PM J := do
  let st ← getS
  if !(isIdentifierStart st.curr) then unexpected "Identifier"
  else do
    let pos := st.lineNumber
    F.next true false
    let name ← F.identLoop [st.curr]
    if !keepBlanks then F.skipSpaces else PM.pure ()
    PM.pure (mkIdent pos (String.mk name))

/-- The accumulation loop of `Parser::parseNumber`. -/
def numLoopBody (F : Fns) (digits : Nat) (value : List Char) (type : String) :
    PM (List Char × String) := do
  let st ← getS
  if (st.curr != nul && (if digits == 16 then isHex st.curr else isFloat st.curr))
      || (digits != 16 && st.curr.toLower == 'e')
      || (st.curr == '-' && digits != 16 && (getc st.source (st.index - 1)).toLower == 'e') then do
    let type1 := if st.curr == '.' then "FloatNumberLiteral" else type
    F.next true false
    F.numLoop digits (value ++ [st.curr]) type1
  else PM.pure (value, type)

/-- `Parser::parseNumber`. -/
def parseNumberBody (F : Fns) (digits : Nat) : PM J := do
  let st ← getS
  if digits == 16 && !(isHex st.curr) then unexpected "Number"
  else do
    let pos := st.lineNumber
    let type0 := if digits == 16 then "HexNumberLiteral" else "NumberLiteral"
    let type1 := if st.curr == '.' then "FloatNumberLiteral" else type0
    F.next true false
    let vt ← F.numLoop digits [st.curr] type1
    let value := vt.1
    let type3 := if value.head? == some '0' && vt.2 != "FloatNumberLiteral"
                 then "OctNumberLiteral" else vt.2
    let st2 ← getS
    let vt4 ←
      if st2.curr.toLower == 'l' then do
        F.next true false
        PM.pure (value ++ [st2.curr], "Long" ++ type3)
      else PM.pure (value, type3)
    let st3 ← getS
    let vt5 ←
      if st3.curr.toLower == 'u' then do
        F.next true false
        PM.pure (vt4.1 ++ [st3.curr], "Unsigned" ++ vt4.2)
      else PM.pure vt4
    let st4 ← getS
    if digits == 16 && st4.curr == '.' then unexpected "hex number"
    else do
      let value4 := if digits == 16 then '0' :: 'x' :: vt5.1 else vt5.1
      F.skipSpaces
      PM.pure (mkLit vt5.2 pos (J.s (String.mk value4)))

/-- `Parser::parseEscape` (the two bounded digit loops are unrolled). -/
def parseEscapeBody (F : Fns) : PM String := do
  modifyS (fun st => { st with index := st.index + 1,
                               curr := getc st.source (st.index + 1) })
  let st ← getS
  if st.curr == 'x' then do
    F.next true true
    let st1 ← getS
    let code1 ← if isHex st1.curr then do
        F.next true true
        PM.pure (hexVal st1.curr)
      else PM.pure 0
    let st2 ← getS
    let code2 ← if isHex st2.curr then do
        F.next true true
        PM.pure (code1 * 16 + hexVal st2.curr)
      else PM.pure code1
    PM.pure (String.mk [Char.ofNat (code2 % 256)])
  else if isOct st.curr then do
    let c1 ←  if isOct st.curr then do
        F.next true true
        PM.pure (octVal st.curr)
      else PM.pure 0
    let stb ← getS
    let c2 ← if isOct stb.curr then do
        F.next true true
        PM.pure (c1 * 8 + octVal stb.curr)
      else PM.pure c1
    let stc ← getS
    let c3 ← if isOct stc.curr then do
        F.next true true
        PM.pure (c2 * 8 + octVal stc.curr)
      else PM.pure c2
    PM.pure (String.mk [Char.ofNat (c3 % 256)])
  else if escapes.contains st.curr then do
    F.next true true
    PM.pure (String.mk ['\\', st.curr])
  else unexpected "escape sequence"

/-- The content loop of `Parser::parseString`. -/
def strLoopBody (F : Fns) (acc : List Char) : PM (List Char) := do
  let st ← getS
  if st.curr != nul && st.curr != '"' then
    if st.curr == '\\' then do
      let e ← F.parseEscape
      F.strLoop (acc ++ e.data)
    else do
      F.next true true
      F.strLoop (acc ++ [st.curr])
  else PM.pure acc

/-- `Parser::parseString`. -/
def parseStringBody (F : Fns) (keepBlanks : Bool) : PM String := do
  F.next true true
  let content ← F.strLoop []
  let b ← F.lookahead "\"" keepBlanks
  if b then PM.pure (String.mk content) else unexpected "double quote"

/-- Prepend `-` to the `value` field of a literal (the `-0x` branch of
`parseLiteral`). -/
def jPrependMinus (j : J) : J :=
  match j with
  | .obj kvs =>
      .obj (kvs.map (fun kv => if kv.1 = "value" then (kv.1, J.s ("-" ++ jstr kv.2)) else kv))
  | j => j

/-- `Parser::parseLiteral`. -/
def parseLiteralBody (F : Fns) : PM J := do
  let b ← F.lookahead "\x7b" false
  if b then do
    let st ← getS
    let entries ← F.commaExprGo J.null
    F.consume "\x7d"
    PM.pure (mkLit "ArrayLiteral" st.lineNumber entries)
  else do
    let st ← getS
    if st.curr == '\'' then do
      F.next true true
      let st1 ← getS
      let ch ←
        if st1.curr == '\\' then F.parseEscape
        else do
          F.next true true
          PM.pure (String.mk [st1.curr])
      F.consume "\x27"
      PM.pure (mkLit "CharLiteral" st1.lineNumber (J.s ch))
    else if st.curr == '"' then do
      let v ← F.parseString false
      PM.pure (mkLit "StringLiteral" st.lineNumber (J.s v))
    else do
      let b0 ← F.lookahead "0x" false
      if b0 then F.parseNumber 16
      else do
        let b1 ← F.lookahead "-0x" false
        if b1 then do
          let lit ← F.parseNumber 16
          PM.pure (jPrependMinus lit)
        else do
          let st2 ← getS
          if isFloat st2.curr || st2.curr == '-' then F.parseNumber 10
          else if isIdentifierStart st2.curr then F.parseIdentifier false
          else PM.pure J.null

/-- The `while (curr) { push(parseExpression()); if (!lookahead(",")) break; }`
loop shared by call arguments, array literal entries, and `#define`
arguments. -/
def commaExprGoBody (F : Fns) (acc : J) : PM J := do
  let st ← getS
  if st.curr != nul then do
    let e ← F.parseExpression ""
    let acc1 := jpush acc e
    let b ← F.lookahead "," false
    if b then F.commaExprGo acc1 else PM.pure acc1
  else PM.pure acc

/-- The `while (lookahead("[")) { ... }` subscript loop of `parseUnary`. -/
def idxGoBody (F : Fns) (acc : J) : PM J := do
  let b ← F.lookahead "[" false
  if b then do
    let e ← F.parseExpression ""
    F.consume "]"
    F.idxGo (jpush acc e)
  else PM.pure acc

/-- `Parser::parseUnary`. -/
def parseUnaryBody (F : Fns) : PM J := do
  let literal ← F.parseLiteral
  let indexes ← F.idxGo J.null
  if !(jempty indexes) then do
    let st ← getS
    PM.pure (.obj [("kind", .s "IndexExpression"), ("position", .n st.lineNumber),
                   ("array", literal), ("indexes", indexes)])
  else do
    let b ← F.lookahead "(" false
    if b then
      if !(jIsNull literal) then do
        let st ← getS
        let args ← F.commaExprGo J.null
        F.consume ")"
        PM.pure (.obj [("kind", .s "CallExpression"), ("position", .n st.lineNumber),
                       ("callee", literal), ("arguments", args)])
      else do
        let st ← getS
        let e ← F.parseExpression ""
        F.consume ")"
        PM.pure (.obj [("kind", .s "ParenthesesExpression"), ("position", .n st.lineNumber),
                       ("expression", e)])
    else PM.pure literal

/-- The operator scan of `Parser::scanBinaryOperator` (structural over the
configured operator list; restores the cursor after a hit). -/
def scanGo (F : Fns) (saved : Int) (ops : List String) : PM String :=
  List.rec (PM.pure "")
    (fun op _ ih => do
      let b ← F.lookahead op false
      if b then do
        modifyS (fun st2 => { st2 with index := saved, curr := getc st2.source saved })
        PM.pure op
      else ih)
    ops

/-- `Parser::scanBinaryOperator`. -/
def scanBinaryOperatorBody (F : Fns) : PM String := do
  let st ← getS
  scanGo F st.index operators

/-- `Parser::parseBinary`. -/
def parseBinaryBody (F : Fns) (left : J) (minPrec : Nat) : PM J := do
  let ahead ← F.scanBinaryOperator
  F.binOuter left minPrec ahead

/-- The outer `while` loop of `parseBinary`. -/
def binOuterBody (F : Fns) (left : J) (minPrec : Nat) (ahead : String) : PM J := do
  if ahead ≠ "" ∧ minPrec ≤ precedence ahead then do
    let op := ahead
    let st ← getS
    let pos := st.lineNumber
    F.consume op
    let right ← F.parseUnary
    if jIsNull right then unexpected "right value"
    else do
      let ahead2 ← F.scanBinaryOperator
      let ra ← F.binInner right op ahead2
      F.binOuter (mkBin pos op left ra.1) minPrec ra.2
  else PM.pure left

/-- The inner strictly-higher-precedence `while` loop of `parseBinary`. -/
def binInnerBody (F : Fns) (right : J) (op : String) (ahead : String) :
    PM (J × String) := do
  if ahead ≠ "" ∧ precedence op < precedence ahead then do
    let right2 ← F.parseBinary right (precedence ahead)
    if jIsNull right2 then unexpected "right value"
    else do
      let ahead2 ← F.scanBinaryOperator
      F.binInner right2 op ahead2
  else PM.pure (right, ahead)

/-- `Parser::parseExpression`. -/
def parseExpressionBody (F : Fns) (endStr : String) : PM J := do
  let u ← F.parseUnary
  let e ← F.parseBinary u 0
  if endStr ≠ "" then do
    F.consume endStr
    PM.pure e
  else PM.pure e

/-- The restore-on-hit scan of `Parser::declarationIncoming` (structural over
the scanned keyword list). -/
def declIncGo (F : Fns) (saved : Int) (kws : List String) : PM Bool :=
  List.rec (PM.pure false)
    (fun kw _ ih => do
      let b ← F.lookahead kw false
      if b then do
        modifyS (fun st2 => { st2 with index := saved, curr := getc st2.source saved })
        PM.pure true
      else ih)
    kws

/-- `Parser::declarationIncoming`. -/
def declarationIncomingBody (F : Fns) : PM Bool := do
  let st ← getS
  let b ← declIncGo F st.index typeModifiers
  if b then PM.pure true
  else declIncGo F st.index st.typeNames

/-- One pass of the modifier `for` loop of `parseDeclaration` (structural over
the modifier table). -/
def modsPass (F : Fns) (table : List String) : List String → Bool → PM (List String × Bool)
  :=
  List.rec (fun mods has => PM.pure (mods, has))
    (fun m _ ih => fun mods has => do
      let b ← F.lookahead m false
      if b then ih (mods ++ [m]) true
      else ih mods has)
    table

/-- The `do { ... } while (hasModifier)` loop of `parseDeclaration`. -/
def modsLoopBody (F : Fns) (mods : List String) : PM (List String) := do
  let mh ← modsPass F typeModifiers mods false
  if mh.2 then F.modsLoop mh.1 else PM.pure mh.1

/-- The type-name scan of `parseDeclaration` (structural over the current
`typeNames`). -/
def namesGo (F : Fns) (names : List String) : PM (Option String) :=
  List.rec (PM.pure none)
    (fun nme _ ih => do
      let b ← F.lookahead nme false
      if b then PM.pure (some nme)
      else ih)
    names

/-- `Parser::parseDeclaration`. -/
def parseDeclarationBody (F : Fns) (kind : String) : PM Decl := do
  let st0 ← getS
  let typePos := st0.lineNumber
  let modifiers ← F.modsLoop []
  let st1 ← getS
  let nameOpt ← namesGo F st1.typeNames
  match nameOpt with
  | some nme => do
      let st2 ← getS
      let ident ← F.parseIdentifier false
      PM.pure { kind := kind, position := st2.lineNumber, identifier := ident,
                type := { position := typePos, name := nme, modifiers := modifiers } }
  | none =>
      if modifiers ≠ [] then do
        let st2 ← getS
        let ident ← F.parseIdentifier false
        PM.pure { kind := kind, position := st2.lineNumber, identifier := ident,
                  type := { position := typePos, name := modifiers.getLastD "",
                            modifiers := modifiers.dropLast } }
      else unexpected "correct type name"

/-- The `while (lookahead("["))` array-bracket loop of `parseDefinition`. -/
def bracketGoBody (F : Fns) (length : J) (isArray : Bool) : PM (J × Bool) := do
  let b ← F.lookahead "[" false
  if b then do
    let b2 ← F.lookahead "]" false
    if !b2 then do
      let e ← F.parseExpression ""
      F.consume "]"
      F.bracketGo (jpush length e) true
    else F.bracketGo (jpush length J.null) true
  else PM.pure (length, isArray)

/-- `Parser::parseDefinition`.  When the declarator list continues with `,`,
the comma in the source buffer is overwritten with the declaration's type
string (modifiers and name joined by spaces); note that `curr` is left
untouched by the rewrite, exactly as in the source. -/
def parseDefinitionBody (F : Fns) (declaration : Decl) (isGlobal : Bool) : PM J := do
  let la ← F.bracketGo J.null false
  let isArray := la.2
  let b ← F.lookahead "=" false
  let kv ←
    if b then do
      let v ← F.parseExpression ""
      PM.pure ((if isArray then "ArrayDefinition" else "VariableDefinition"), some v)
    else
      PM.pure ((if isArray then "ArrayDeclaration" else "VariableDeclaration"),
               (none : Option J))
  let kind := if isGlobal then "Global" ++ kv.1 else kv.1
  let defJ := J.obj ([("kind", J.s kind), ("position", .n declaration.position),
                      ("identifier", declaration.identifier), ("type", typeToJ declaration.type)]
                     ++ (if isArray then [("length", la.1)] else [])
                     ++ (match kv.2 with | some v => [("value", v)] | none => []))
  let st ← getS
  if st.curr == ',' then do
    let nameStr := (declaration.type.modifiers.foldl (fun acc m => acc ++ m ++ " ") "")
                   ++ declaration.type.name
    modifyS (fun st2 =>
      { st2 with source := st2.source.take st2.index.toNat ++ nameStr.data
                             ++ st2.source.drop (st2.index.toNat + 1) })
    PM.pure defJ
  else do
    F.consume ";"
    PM.pure defJ

/-- The parameter loop of `Parser::parseParameters`. -/
def paramsGoBody (F : Fns) (params : J) : PM J := do
  let inc ← F.declarationIncoming
  if inc then do
    let d ← F.parseDeclaration "ParameterDeclaration"
    let params1 := jpush params (declToJ d)
    let b ← F.lookahead ")" false
    if b then PM.pure params1
    else do
      F.consume ","
      F.paramsGo params1
  else do
    F.consume ")"
    PM.pure params

/-- `Parser::parseParameters` (starts from `json::array()`). -/
def parseParametersBody (F : Fns) : PM J :=
  F.paramsGo (J.arr [])

/-- `Parser::parseFunction`. -/
def parseFunctionBody (F : Fns) (declaration : Decl) : PM J := do
  let parameters ← F.parseParameters
  let b ← F.lookahead ";" false
  if b then
    PM.pure (.obj [("kind", .s "FunctionDeclaration"), ("position", .n declaration.position),
                   ("identifier", declaration.identifier), ("type", typeToJ declaration.type),
                   ("parameters", parameters)])
  else do
    let body ← F.parseBody true
    PM.pure (.obj [("kind", .s "FunctionDefinition"), ("position", .n declaration.position),
                   ("identifier", declaration.identifier), ("type", typeToJ declaration.type),
                   ("parameters", parameters), ("body", body)])

/-- Flush the pending comment queue onto a statement list
(`if (!comments.empty()) { for push; clear; }`). -/
def flushComments (statements : List J) : PM (List J) := do
  let st ← getS
  if !st.comments.isEmpty then do
    setS { st with comments := [] }
    PM.pure (statements ++ st.comments)
  else PM.pure statements

/-- Flush the pending comment queue onto a json value via `push_back`. -/
def flushCommentsJ (statements : J) : PM J := do
  let st ← getS
  if !st.comments.isEmpty then do
    setS { st with comments := [] }
    PM.pure (st.comments.foldl jpush statements)
  else PM.pure statements

/-- The statement loop of a block body. -/
def blockGoBody (F : Fns) (statements : List J) : PM (List J) := do
  let st ← getS
  if st.curr != nul && st.curr != '}' then do
    let s ← F.parseStatement
    let statements1 ← flushComments (statements ++ [s])
    F.blockGo statements1
  else PM.pure statements

/-- `Parser::parseBody`. -/
def parseBodyBody (F : Fns) (shouldBeBlock : Bool) : PM J := do
  let st ← getS
  if st.curr == '{' || shouldBeBlock then do
    let pos := st.lineNumber
    F.consume "\x7b"
    let statements ← flushComments []
    let statements2 ← F.blockGo statements
    F.consume "\x7d"
    PM.pure (.obj [("kind", .s "BlockStatement"), ("position", .n pos),
                   ("body", .arr statements2)])
  else do
    let pos := st.lineNumber
    let statements ← flushComments []
    let b ← F.lookahead ";" false
    let statements2 ←
      if !b then do
        let s ← F.parseStatement
        PM.pure (statements ++ [s])
      else PM.pure statements
    PM.pure (.obj [("kind", .s "InlineStatement"), ("position", .n pos),
                   ("body", .arr statements2)])

/-- `Parser::parseStatement`. -/
def parseStatementBody (F : Fns) : PM J := do
  let bIf ← F.lookahead "if" false
  if bIf then do
    let st ← getS
    F.consume "("
    let condition ← F.parseExpression ")"
    if jIsNull condition then unexpected "if condition"
    else do
      let bElse ← F.lookahead "else" false
      if bElse then unexpected "if body statement"
      else do
        let body ← F.parseBody false
        let bElse2 ← F.lookahead "else" false
        let elseBody ← if bElse2 then F.parseBody false else PM.pure J.null
        PM.pure (.obj [("kind", .s "IfStatement"), ("position", .n st.lineNumber),
                       ("condition", condition), ("body", body), ("elseBody", elseBody)])
  else do
    let bWhile ← F.lookahead "while" false
    if bWhile then do
      let st ← getS
      F.consume "("
      let condition ← F.parseExpression ")"
      if jIsNull condition then unexpected "while condition"
      else do
        let body ← F.parseBody false
        PM.pure (.obj [("kind", .s "WhileStatement"), ("position", .n st.lineNumber),
                       ("condition", condition), ("body", body)])
    else do
      let bDo ← F.lookahead "do" false
      if bDo then do
        let st ← getS
        let body ← F.parseBody false
        F.consume "while"
        F.consume "("
        let condition ← F.parseExpression ")"
        if jIsNull condition then unexpected "while condition"
        else do
          F.consume ";"
          PM.pure (.obj [("kind", .s "DoWhileStatement"), ("position", .n st.lineNumber),
                         ("condition", condition), ("body", body)])
      else do
        let bFor ← F.lookahead "for" false
        if bFor then do
          let st ← getS
          F.consume "("
          let init ← F.parseStatement
          let k := jstr (jget init "kind")
          let init1 := if k == "VariableDefinition" || k == "VariableDeclaration"
                       then jsetKind init ("For" ++ k) else init
          let condition ← F.parseExpression ";"
          let step ← F.parseExpression ")"
          let body ← F.parseBody false
          PM.pure (.obj [("kind", .s "ForStatement"), ("position", .n st.lineNumber),
                         ("init", init1), ("condition", condition), ("step", step),
                         ("body", body)])
        else do
          let bRet ← F.lookahead "return" false
          if bRet then do
            let st ← getS
            let value ← F.parseExpression ";"
            PM.pure (.obj [("kind", .s "ReturnStatement"), ("position", .n st.lineNumber),
                           ("value", value)])
          else do
            let bBreak ← F.lookahead "break" false
            if bBreak then do
              let st ← getS
              let label ← F.parseExpression ";"
              PM.pure (.obj [("kind", .s "BreakStatement"), ("position", .n st.lineNumber),
                             ("label", label)])
            else do
              let bCont ← F.lookahead "continue" false
              if bCont then do
                let st ← getS
                let label ← F.parseExpression ";"
                PM.pure (.obj [("kind", .s "ContinueStatement"), ("position", .n st.lineNumber),
                               ("label", label)])
              else do
                let inc ← F.declarationIncoming
                if inc then do
                  let d ← F.parseDeclaration ""
                  F.parseDefinition d false
                else do
                  let st ← getS
                  let expression ← F.parseExpression ";"
                  PM.pure (.obj [("kind", .s "ExpressionStatement"),
                                 ("position", .n st.lineNumber),
                                 ("expression", expression)])

/-- The `while (curr && curr != '>')` loop of `parseInclude`. -/
def incLoop1Body (F : Fns) (acc : List Char) : PM (List Char) := do
  let st ← getS
  if st.curr != nul && st.curr != '>' then do
    F.next true false
    F.incLoop1 (acc ++ [st.curr])
  else PM.pure acc

/-- The `do { ... } while (curr && curr != '"')` loop of `parseInclude`. -/
def incLoop2Body (F : Fns) (acc : List Char) : PM (List Char) := do
  let st ← getS
  F.next true false
  let st2 ← getS
  if st2.curr != nul && st2.curr != '"' then F.incLoop2 (acc ++ [st.curr])
  else PM.pure (acc ++ [st.curr])

/-- `Parser::parseInclude`. -/
def parseIncludeBody (F : Fns) : PM J := do
  let st ← getS
  let str ←
    if st.curr == '<' then F.incLoop1 []
    else if st.curr == '"' then F.incLoop2 []
    else unexpected "\" or <"
  let st2 ← getS
  F.next true false
  PM.pure (.obj [("kind", .s "IncludeStatement"), ("position", .n st.lineNumber),
                 ("file", .s (String.mk (str ++ [st2.curr])))])

/-- `Parser::parsePredefine`. -/
def parsePredefineBody (F : Fns) : PM J := do
  let st ← getS
  let identifier ← F.parseIdentifier false
  let b ← F.lookahead "(" false
  let arguments ←
    if b then do
      let args ← F.commaExprGo J.null
      F.consume ")"
      PM.pure args
    else PM.pure J.null
  let st2 ← getS
  if !(jIsNull arguments) && st2.curr != '(' then unexpected "("
  else do
    let value ← F.parseExpression ""
    PM.pure (.obj [("kind", .s "PredefineStatement"), ("position", .n st.lineNumber),
                   ("identifier", identifier), ("arguments", arguments), ("value", value)])

/-- The top-level `while (curr)` loop of `Parser::parse`. -/
def parseGoBody (F : Fns) (statements : J) : PM J := do
  let st ← getS
  if st.curr != nul then do
    F.skipSpaces
    let s1 ← flushCommentsJ statements
    let bInc ← F.lookahead "#include" false
    let s2 ←
      if bInc then do
        let j ← F.parseInclude
        PM.pure (jpush s1 j)
      else do
        let bDef ← F.lookahead "#define" false
        if bDef then do
          let j ← F.parsePredefine
          PM.pure (jpush s1 j)
        else do
          let inc ← F.declarationIncoming
          if inc then do
            let d ← F.parseDeclaration ""
            let bParen ← F.lookahead "(" false
            if bParen then do
              let j ← F.parseFunction d
              PM.pure (jpush s1 j)
            else do
              let j ← F.parseDefinition d true
              PM.pure (jpush s1 j)
          else do
            let bTd ← F.lookahead "typedef" false
            if bTd then do
              let d ← F.parseDeclaration "TypeDefinition"
              modifyS (fun st2 => { st2 with typeNames :=
                st2.typeNames ++ [jstr (jget d.identifier "name")] })
              F.consume ";"
              PM.pure (jpush s1 (declToJ d))
            else do
              let bStruct ← F.lookahead "struct" false
              if bStruct then throwMsg "struct is not supported"
              else do
                let bEnum ← F.lookahead "enum" false
                if bEnum then throwMsg "enum is not supported"
                else unexpected "definition"
    let s3 ← flushCommentsJ s2
    F.skipSpaces
    F.parseGo s3
  else PM.pure statements

/-- `Parser::parse`. -/
def parseTopBody (F : Fns) : PM J := do
  F.next false false
  let statements ← F.parseGo J.null
  PM.pure (.obj [("kind", .s "Program"), ("body", statements)])

/-- The out-of-fuel record: every function has exhausted its fuel. -/
def Fns.bottom : Fns where
  next := fun _ _ => fuelOut
  nextLoop := fun _ _ => fuelOut
  spacesRun := fuelOut
  skipSpaces := fuelOut
  lookahead := fun _ _ => fuelOut
  consume := fun _ => fuelOut
  parseComment := fuelOut
  cBlockLoop := fun _ => fuelOut
  cLineLoop := fun _ => fuelOut
  parseIdentifier := fun _ => fuelOut
  identLoop := fun _ => fuelOut
  parseNumber := fun _ => fuelOut
  numLoop := fun _ _ _ => fuelOut
  parseEscape := fuelOut
  parseString := fun _ => fuelOut
  strLoop := fun _ => fuelOut
  parseLiteral := fuelOut
  commaExprGo := fun _ => fuelOut
  idxGo := fun _ => fuelOut
  parseUnary := fuelOut
  scanBinaryOperator := fuelOut
  parseBinary := fun _ _ => fuelOut
  binOuter := fun _ _ _ => fuelOut
  binInner := fun _ _ _ => fuelOut
  parseExpression := fun _ => fuelOut
  declarationIncoming := fuelOut
  parseDeclaration := fun _ => fuelOut
  modsLoop := fun _ => fuelOut
  parseDefinition := fun _ _ => fuelOut
  bracketGo := fun _ _ => fuelOut
  parseParameters := fuelOut
  paramsGo := fun _ => fuelOut
  parseFunction := fun _ => fuelOut
  parseBody := fun _ => fuelOut
  blockGo := fun _ => fuelOut
  parseStatement := fuelOut
  parseInclude := fuelOut
  incLoop1 := fun _ => fuelOut
  incLoop2 := fun _ => fuelOut
  parsePredefine := fuelOut
  parse := fuelOut
  parseGo := fun _ => fuelOut

/-- Build the parser functions at the next fuel level from those at the
previous one: each dynamic call and each loop iteration descends one level. -/
def mkFns (F : Fns) : Fns where
  next := nextBody F
  nextLoop := nextLoopBody F
  spacesRun := spacesRunBody F
  skipSpaces := skipSpacesBody F
  lookahead := lookaheadBody F
  consume := consumeBody F
  parseComment := parseCommentBody F
  cBlockLoop := cBlockLoopBody F
  cLineLoop := cLineLoopBody F
  parseIdentifier := parseIdentifierBody F
  identLoop := identLoopBody F
  parseNumber := parseNumberBody F
  numLoop := numLoopBody F
  parseEscape := parseEscapeBody F
  parseString := parseStringBody F
  strLoop := strLoopBody F
  parseLiteral := parseLiteralBody F
  commaExprGo := commaExprGoBody F
  idxGo := idxGoBody F
  parseUnary := parseUnaryBody F
  scanBinaryOperator := scanBinaryOperatorBody F
  parseBinary := parseBinaryBody F
  binOuter := binOuterBody F
  binInner := binInnerBody F
  parseExpression := parseExpressionBody F
  declarationIncoming := declarationIncomingBody F
  parseDeclaration := parseDeclarationBody F
  modsLoop := modsLoopBody F
  parseDefinition := parseDefinitionBody F
  bracketGo := bracketGoBody F
  parseParameters := parseParametersBody F
  paramsGo := paramsGoBody F
  parseFunction := parseFunctionBody F
  parseBody := parseBodyBody F
  blockGo := blockGoBody F
  parseStatement := parseStatementBody F
  parseInclude := parseIncludeBody F
  incLoop1 := incLoop1Body F
  incLoop2 := incLoop2Body F
  parsePredefine := parsePredefineBody F
  parse := parseTopBody F
  parseGo := parseGoBody F

/-- The parser functions with the given amount of fuel (defined by bare
`Nat.rec` so that unfolding one fuel level is a single reduction step). -/
def fnsAux (fuel : Nat) : Fns :=
  Nat.rec Fns.bottom (fun _ F => mkFns F) fuel

/-- `Parser(src).parse()` with the given fuel. -/
def parseRun (fuel : Nat) (src : String) : PResult J :=
  (fnsAux fuel).parse (initState src)

/-- Extract the returned tree of a run, if any. -/
def runJ (r : PResult J) : Option J :=
  match r with
  | .ok j _ => some j
  | _ => none

/-- Extract the error message of a run, if any. -/
def runErr {α : Type} (r : PResult α) : Option String :=
  match r with
  | .err e _ => some e
  | _ => none

/-- The tree returned by `parse()` on the given source, if the run returns. -/
def parseProgram (fuel : Nat) (src : String) : Option J :=
  runJ (parseRun fuel src)

/-- Prime the cursor as `parse()` does, then run one `parseStatement()`. -/
def runStatement (fuel : Nat) (src : String) : Option J :=
  runJ (PM.bind ((fnsAux fuel).next false false)
          (fun _ => (fnsAux fuel).parseStatement) (initState src))

/-- Prime the cursor, then run one `parseExpression("")`. -/
def runExpression (fuel : Nat) (src : String) : Option J :=
  runJ (PM.bind ((fnsAux fuel).next false false)
          (fun _ => (fnsAux fuel).parseExpression "") (initState src))

/-- Prime the cursor, then run one `parseLiteral()`. -/
def runLiteral (fuel : Nat) (src : String) : Option J :=
  runJ (PM.bind ((fnsAux fuel).next false false)
          (fun _ => (fnsAux fuel).parseLiteral) (initState src))

/-- Array element access (for stating facts about emitted trees). -/
def jat (j : J) (i : Nat) : J :=
  match j with
  | .arr xs => xs.getD i J.null
  | _ => J.null

/-- Prime the cursor, then run one `lookahead(s)` and report the returned
Boolean. -/
def runLookahead (fuel : Nat) (src s : String) : Option Bool :=
  match PM.bind ((fnsAux fuel).next false false)
      (fun _ => (fnsAux fuel).lookahead s false) (initState src) with
  | .ok b _ => some b
  | _ => none

/-- The first iteration of `parse()`'s top-level loop on a source that starts
with a global variable declaration: prime the cursor, skip spaces, fail the
`#include` and `#define` lookaheads, recognize a declaration, parse it, fail
the `(` lookahead, and run `parseDefinition(declaration, true)`.  Used to
observe the parser state right after the first declarator of a multi-declarator
statement. -/
def firstTopItem (fuel : Nat) (src : String) : PResult J :=
  (PM.bind ((fnsAux fuel).next false false) (fun _ =>
   PM.bind ((fnsAux fuel).skipSpaces) (fun _ =>
   PM.bind ((fnsAux fuel).lookahead "#include" false) (fun _ =>
   PM.bind ((fnsAux fuel).lookahead "#define" false) (fun _ =>
   PM.bind ((fnsAux fuel).declarationIncoming) (fun _ =>
   PM.bind ((fnsAux fuel).parseDeclaration "") (fun d =>
   PM.bind ((fnsAux fuel).lookahead "(" false) (fun _ =>
   (fnsAux fuel).parseDefinition d true)))))))) (initState src)

/-- The source buffer after `firstTopItem`. -/
def firstTopItemSource (fuel : Nat) (src : String) : Option (List Char) :=
  match firstTopItem fuel src with
  | .ok _ st => some st.source
  | _ => none

/-- Observation for the failed-lookahead cursor-restoration claim: run the
first top-level item of `int a, b;` (which rewrites the comma and leaves
`curr` stale), then run the failed `lookahead("#include")` that `parse()`'s
next loop iteration performs, and record the Booleans and cursor fields
before and after. -/
def c10observation : Option (Bool × Char × Int × Char × Int) :=
  match firstTopItem 300 "int a, b;" with
  | .ok _ st =>
      match (fnsAux 100).lookahead "#include" false st with
      | .ok b st2 => some (b, st.curr, st.index, st2.curr, st2.index)
      | _ => none
  | _ => none

/-- The error messages the parser can throw: the `unexpected` format
`"Line number N: Expect X"` with `N` the line number recorded in the state
carried by the error (the state at the moment of the throw), or one of the two
unsupported-construct messages of `parse()`. -/
def goodErrFmt (e : String) (st : PState) : Prop :=
  (∃ x, e = "Line number " ++ toString st.lineNumber ++ ": Expect " ++ x) ∨
    e = "struct is not supported" ∨ e = "enum is not supported"

/-- Result invariant for the error-format / line-monotonicity induction:
errors carry the throw-site state and are well-formatted, and the line number
never decreases. -/
def Ok1 {α : Type} (st0 : PState) (r : PResult α) : Prop :=
  match r with
  | .ok _ st => st0.lineNumber ≤ st.lineNumber
  | .err e st => goodErrFmt e st ∧ st0.lineNumber ≤ st.lineNumber
  | .fuel => True

/-- A parser computation all of whose outcomes satisfy `Ok1`. -/
def MOk {α : Type} (m : PM α) : Prop := ∀ st, Ok1 st (m st)

/-- `Ok1` holds of every function in a fuel level. -/
structure FnsOk (F : Fns) : Prop where
  next : ∀ ws wc, MOk (F.next ws wc)
  nextLoop : ∀ ws wc, MOk (F.nextLoop ws wc)
  spacesRun : MOk F.spacesRun
  skipSpaces : MOk F.skipSpaces
  lookahead : ∀ s k, MOk (F.lookahead s k)
  consume : ∀ s, MOk (F.consume s)
  parseComment : MOk F.parseComment
  cBlockLoop : ∀ a, MOk (F.cBlockLoop a)
  cLineLoop : ∀ a, MOk (F.cLineLoop a)
  parseIdentifier : ∀ k, MOk (F.parseIdentifier k)
  identLoop : ∀ a, MOk (F.identLoop a)
  parseNumber : ∀ d, MOk (F.parseNumber d)
  numLoop : ∀ d v t, MOk (F.numLoop d v t)
  parseEscape : MOk F.parseEscape
  parseString : ∀ k, MOk (F.parseString k)
  strLoop : ∀ a, MOk (F.strLoop a)
  parseLiteral : MOk F.parseLiteral
  commaExprGo : ∀ a, MOk (F.commaExprGo a)
  idxGo : ∀ a, MOk (F.idxGo a)
  parseUnary : MOk F.parseUnary
  scanBinaryOperator : MOk F.scanBinaryOperator
  parseBinary : ∀ l p, MOk (F.parseBinary l p)
  binOuter : ∀ l p a, MOk (F.binOuter l p a)
  binInner : ∀ r o a, MOk (F.binInner r o a)
  parseExpression : ∀ e, MOk (F.parseExpression e)
  declarationIncoming : MOk F.declarationIncoming
  parseDeclaration : ∀ k, MOk (F.parseDeclaration k)
  modsLoop : ∀ m, MOk (F.modsLoop m)
  parseDefinition : ∀ d g, MOk (F.parseDefinition d g)
  bracketGo : ∀ l a, MOk (F.bracketGo l a)
  parseParameters : MOk F.parseParameters
  paramsGo : ∀ p, MOk (F.paramsGo p)
  parseFunction : ∀ d, MOk (F.parseFunction d)
  parseBody : ∀ b, MOk (F.parseBody b)
  blockGo : ∀ s, MOk (F.blockGo s)
  parseStatement : MOk F.parseStatement
  parseInclude : MOk F.parseInclude
  incLoop1 : ∀ a, MOk (F.incLoop1 a)
  incLoop2 : ∀ a, MOk (F.incLoop2 a)
  parsePredefine : MOk F.parsePredefine
  parse : MOk F.parse
  parseGo : ∀ s, MOk (F.parseGo s)

/-- Frame facts about the pure cursor layer: the source buffer and the type
names are untouched, anything enqueued on the comment queue stays (the old
queue is a prefix of the new), and the line number never decreases. -/
def Frame (st st' : PState) : Prop :=
  st'.source = st.source ∧ st'.typeNames = st.typeNames ∧
    (∃ t, st'.comments = st.comments ++ t) ∧ st.lineNumber ≤ st'.lineNumber

/-- A parser computation all of whose returning outcomes satisfy `Frame`. -/
def CM {α : Type} (m : PM α) : Prop := ∀ st,
  match m st with
  | .ok _ st' => Frame st st'
  | .err _ st' => Frame st st'
  | .fuel => True

/-- `Frame` holds of the cursor-layer functions of a fuel level (the subset of
functions reachable from `lookahead`). -/
structure CurOk (F : Fns) : Prop where
  next : ∀ ws wc, CM (F.next ws wc)
  nextLoop : ∀ ws wc, CM (F.nextLoop ws wc)
  spacesRun : CM F.spacesRun
  skipSpaces : CM F.skipSpaces
  lookahead : ∀ s k, CM (F.lookahead s k)
  parseComment : CM F.parseComment
  cBlockLoop : ∀ a, CM (F.cBlockLoop a)
  cLineLoop : ∀ a, CM (F.cLineLoop a)

/-- The characters of the buffer starting at offset `i` (for stating that a
lexeme occurs literally at the cursor). -/
def charsAt (src : List Char) (i : Int) (n : Nat) : List Char :=
  (List.range n).map (fun (k : Nat) => getc src (i + (k : Int)))

/-- The optional one-character `l`/`u` suffix recorded by `parseNumber`. -/
def SuffixShape (flag : Bool) (suf : List Char) (letter : Char) : Prop :=
  if flag then ∃ c, suf = [c] ∧ c.toLower = letter else suf = []

/-- Shape of the literal returned by the `0x` / `-0x` branches of
`parseLiteral`: kind `[Unsigned][Long](Hex|Oct)NumberLiteral` with `Unsigned`
outermost and `Oct` exactly when the first consumed hex digit is `0`, and
value `0x` followed by the consumed digits and suffix characters (with `-`
prepended in the `-0x` case). -/
def HexLitShape (neg : Bool) (lit : J) : Prop :=
  ∃ (u l : Bool) (pos : Nat) (d : Char) (ds lsuf usuf : List Char),
    isHex d = true ∧ ds.all isHex = true ∧
    SuffixShape l lsuf 'l' ∧ SuffixShape u usuf 'u' ∧
    lit = mkLit ((if u then "Unsigned" else "") ++ (if l then "Long" else "") ++
                 (if d = '0' then "OctNumberLiteral" else "HexNumberLiteral")) pos
            (J.s ((if neg then "-" else "") ++ "0x" ++
                  String.mk (d :: (ds ++ lsuf ++ usuf))))

theorem pmBind_eq {α β : Type} (x : PM α) (f : α → PM β) : x >>= f = PM.bind x f := rfl

theorem pmPure_eq {α : Type} (a : α) : (pure a : PM α) = PM.pure a := rfl

theorem fnsAux_zero : fnsAux 0 = Fns.bottom := rfl

theorem fnsAux_succ (f : Nat) : fnsAux (f + 1) = mkFns (fnsAux f) := rfl

/-- C1 (counterexample): on input `0x0f` the `0x` branch of `parseLiteral` is
taken and a literal is returned, but its kind is `OctNumberLiteral` (the
leading-zero octal check of `parseNumber` fires on the hex digits as well):
the kind is not `HexNumberLiteral`, optionally `Long`/`Unsigned`-prefixed, as
the claim states. -/
theorem c1_counterexample :
    runLiteral 100 "0x0f" = some (mkLit "OctNumberLiteral" 1 (J.s "0x0f")) ∧
      "OctNumberLiteral" ∉ ["HexNumberLiteral", "LongHexNumberLiteral",
        "UnsignedHexNumberLiteral", "UnsignedLongHexNumberLiteral"] :=
  ⟨rfl, by decide⟩

/-- C2 (counterexample): parsing the statement `if (a) b(); else c();`, the
`arguments` list of the call to `b` is `[null]`, not the empty list the claim
states: for an empty argument list, the call loop pushes the null result of
`parseExpression` once. -/
theorem c2_counterexample :
    (runStatement 500 "if (a) b(); else c();").map
        (fun t => jget (jget (jat (jget (jget t "body") "body") 0) "expression")
          "arguments") = some (J.arr [J.null]) ∧
      J.arr [J.null] ≠ J.arr [] := by
  refine ⟨rfl, fun h => ?_⟩
  injection h with h'
  exact List.cons_ne_nil _ _ h'

/-- C2 (amended): parsing `if (a) b(); else c();` yields an `IfStatement`
whose condition is the identifier `a` and whose body and elseBody are inline
statements each holding one `ExpressionStatement` whose expression is a
`CallExpression` with identifier callee (`b` resp. `c`) and an arguments list
containing exactly one null entry (the null produced by parsing the empty
argument position). -/
theorem c2_theorem :
    runStatement 500 "if (a) b(); else c();" =
      some (J.obj [("kind", J.s "IfStatement"), ("position", J.n 1),
        ("condition", mkIdent 1 "a"),
        ("body", J.obj [("kind", J.s "InlineStatement"), ("position", J.n 1),
          ("body", J.arr
            [J.obj [("kind", J.s "ExpressionStatement"), ("position", J.n 1),
              ("expression", J.obj [("kind", J.s "CallExpression"), ("position", J.n 1),
                ("callee", mkIdent 1 "b"), ("arguments", J.arr [J.null])])]])]),
        ("elseBody", J.obj [("kind", J.s "InlineStatement"), ("position", J.n 1),
          ("body", J.arr
            [J.obj [("kind", J.s "ExpressionStatement"), ("position", J.n 1),
              ("expression", J.obj [("kind", J.s "CallExpression"), ("position", J.n 1),
                ("callee", mkIdent 1 "c"), ("arguments", J.arr [J.null])])]])])]) := rfl

/-- C4 (failing input): on the source `/*c*/` — a single block comment —
`parse()` succeeds and returns a `Program` whose body contains no node at all:
the comment is captured by the priming `next()`, the top-level loop never runs
(`curr` is already NUL), and the queued comment is dropped, contradicting the
claim that every comment of the source appears exactly once in the returned
tree. -/
theorem c4_theorem :
    parseProgram 300 "/*c*/" = some (J.obj [("kind", J.s "Program"), ("body", J.null)]) :=
  rfl

/-- C5: parsing `int a, b = 1;` yields exactly a `GlobalVariableDeclaration`
for `a` of type `int` followed by a `GlobalVariableDefinition` for `b` of type
`int` with value `NumberLiteral 1`; and after the first declarator the comma
in the source buffer has been rewritten into the declaration's type string
(modifiers and name joined by spaces), leaving the buffer `int aint b = 1;`. -/
theorem c5_theorem :
    parseProgram 500 "int a, b = 1;" =
      some (J.obj [("kind", J.s "Program"), ("body", J.arr
        [J.obj [("kind", J.s "GlobalVariableDeclaration"), ("position", J.n 1),
                ("identifier", mkIdent 1 "a"),
                ("type", typeToJ { position := 1, name := "int", modifiers := [] })],
         J.obj [("kind", J.s "GlobalVariableDefinition"), ("position", J.n 1),
                ("identifier", mkIdent 1 "b"),
                ("type", typeToJ { position := 1, name := "int", modifiers := [] }),
                ("value", mkLit "NumberLiteral" 1 (J.s "1"))]])]) ∧
      firstTopItemSource 300 "int a, b = 1;" = some ("int aint b = 1;".data) :=
  ⟨rfl, rfl⟩

/-- C6: for every configured binary operator, parsing `a op b op c` yields the
left-associated tree `BinaryExpression(op, BinaryExpression(op, a, b), c)`:
equal-precedence chains group left-associatively, because the recursive
descent into the right operand requires strictly higher precedence. -/
theorem c6_theorem :
    ∀ op ∈ operators,
      runExpression 300 ("a " ++ op ++ " b " ++ op ++ " c") =
        some (mkBin 1 op (mkBin 1 op (mkIdent 1 "a") (mkIdent 1 "b")) (mkIdent 1 "c")) := by
  intro op hop
  fin_cases hop <;> rfl

/-- C6 (witness): the left-association theorem at the concrete operator `+`. -/
theorem c6_witness :
    runExpression 300 ("a " ++ "+" ++ " b " ++ "+" ++ " c") =
      some (mkBin 1 "+" (mkBin 1 "+" (mkIdent 1 "a") (mkIdent 1 "b")) (mkIdent 1 "c")) :=
  c6_theorem "+" (by decide)

/-- C7: parsing `unsigned long x = 1L;` yields a single
`GlobalVariableDefinition` whose type has modifiers `["unsigned"]` and name
`"long"` (the last collected modifier becomes the type name when no known type
name follows), and whose value is a `LongNumberLiteral` with value `"1L"`. -/
theorem c7_theorem :
    parseProgram 500 "unsigned long x = 1L;" =
      some (J.obj [("kind", J.s "Program"), ("body", J.arr
        [J.obj [("kind", J.s "GlobalVariableDefinition"), ("position", J.n 1),
                ("identifier", mkIdent 1 "x"),
                ("type", typeToJ { position := 1, name := "long", modifiers := ["unsigned"] }),
                ("value", mkLit "LongNumberLiteral" 1 (J.s "1L"))]])]) := rfl

/-- C3 (counterexample): `lookahead("if")` on the source `if2;` returns true,
although `if` is an identifier lexeme and the character `2` immediately after
the textual match is an identifier-body character: the code rejects the match
only when the following character is an identifier-START character, so the
claim fails for digits. -/
theorem c3_counterexample :
    runLookahead 100 "if2;" "if" = some true ∧
      isIdentifier "if" = true ∧ isIdentifierBody '2' = true ∧
      isIdentifierStart '2' = false :=
  ⟨rfl, by decide, by decide, by decide⟩

/-- C10 (counterexample): after the first top-level item of `int a, b;` the
comma rewrite has replaced `,` by `int` in the buffer while `curr` still holds
the stale `,`; the failed `lookahead("#include")` performed by the next
iteration of `parse()` then returns false with `index` unchanged but `curr`
re-read from the buffer as `i` — not restored to its pre-call value `,` — so
a failed lookahead does not always restore `curr` exactly. -/
theorem c10_counterexample :
    c10observation = some (false, ',', 5, 'i', 5) ∧ (',' : Char) ≠ 'i' :=
  ⟨rfl, by decide⟩

theorem getc_mem (src : List Char) (i : Int) : getc src i = nul ∨ getc src i ∈ src := by
  unfold getc
  split
  · exact Or.inl rfl
  · rcases Nat.lt_or_ge i.toNat src.length with h | h
    · right
      rw [List.getD_eq_getElem _ _ h]
      exact List.getElem_mem h
    · left
      exact List.getD_eq_default _ _ h

theorem next_tt (f : Nat) (st : PState) :
    (fnsAux (f + 2)).next true true st = .ok () (advance1 st) := by
  show nextBody (fnsAux (f + 1)) true true st = _
  unfold nextBody
  simp only [pmBind_eq, PM.bind, modifyS]
  show nextLoopBody (fnsAux f) true true (advance1 st) = _
  unfold nextLoopBody
  simp [pmBind_eq, PM.bind, getS, pmPure_eq, PM.pure]

theorem nul_ne_newline : nul ≠ '\n' := by decide

theorem cLineLoop_diverges : ∀ (f : Nat) (acc : List Char) (st : PState),
    '\n' ∉ st.source → st.curr ≠ '\n' → (fnsAux f).cLineLoop acc st = .fuel := by
  intro f
  induction f with
  | zero => intro acc st _ _; rfl
  | succ f ih =>
    intro acc st hsrc hcurr
    show cLineLoopBody (fnsAux f) acc st = .fuel
    unfold cLineLoopBody
    simp only [pmBind_eq, PM.bind, getS, pmPure_eq, PM.pure, bne_iff_ne, ne_eq, hcurr,
      not_false_eq_true, if_true]
    obtain _ | _ | g := f
    · rfl
    · rfl
    · have hnext := next_tt g st
      simp only [hnext]
      apply ih
      · exact hsrc
      · show getc st.source (st.index + 1) ≠ '\n'
        rcases getc_mem st.source (st.index + 1) with h | h
        · rw [h]; exact nul_ne_newline
        · intro hc
          exact hsrc (hc ▸ h)

theorem getc_slashstar (i : Int) (h : 2 ≤ i) : getc "/*a".data i ≠ '*' := by
  unfold getc
  rw [if_neg (by omega)]
  rcases Nat.lt_or_ge i.toNat 3 with h3 | h3
  · have h2 : i.toNat = 2 := by omega
    rw [h2]
    decide
  · have hl : ("/*a".data).length = 3 := rfl
    rw [List.getD_eq_default _ _ (hl ▸ h3)]
    decide

theorem cBlockLoop_diverges : ∀ (f : Nat) (acc : List Char) (st : PState),
    st.source = "/*a".data → 2 ≤ st.index → st.curr = getc st.source st.index →
    (fnsAux f).cBlockLoop acc st = .fuel := by
  intro f
  induction f with
  | zero => intro acc st _ _ _; rfl
  | succ f ih =>
    intro acc st hsrc hidx hsync
    show cBlockLoopBody (fnsAux f) acc st = .fuel
    unfold cBlockLoopBody
    have hcond : (st.curr != '*' || getc st.source (st.index + 1) != '/') = true := by
      have : st.curr ≠ '*' := by
        rw [hsync, hsrc]
        exact getc_slashstar st.index hidx
      simp [bne_iff_ne, this]
    simp only [pmBind_eq, PM.bind, getS, pmPure_eq, PM.pure, hcond, if_true]
    obtain _ | _ | g := f
    · rfl
    · rfl
    · have hnext := next_tt g st
      simp only [hnext]
      apply ih
      · exact hsrc
      · show 2 ≤ st.index + 1
        omega
      · show getc st.source (st.index + 1) = getc st.source (st.index + 1)
        rfl


/-- C9: the claim that `next()` and `parse()` terminate on every input is
false on the code: the content loop of an inline comment never exits when no
newline follows before end of input, and the content loop of a block comment
on the buffer `/*a` never exits (for every fuel, both loops and the whole
parse of `//a` and `/*a` exhaust the fuel — the fuel-model rendering of the
infinite loops at parser.cpp:699 and 709). -/
theorem c9_theorem :
    (∀ (f : Nat) (acc : List Char) (st : PState),
        '\n' ∉ st.source → st.curr ≠ '\n' → (fnsAux f).cLineLoop acc st = .fuel) ∧
      (∀ (f : Nat) (acc : List Char) (st : PState),
        st.source = "/*a".data → 2 ≤ st.index → st.curr = getc st.source st.index →
          (fnsAux f).cBlockLoop acc st = .fuel) ∧
      parseRun 200 "//a" = PResult.fuel ∧ parseRun 200 "/*a" = PResult.fuel :=
  ⟨cLineLoop_diverges, cBlockLoop_diverges, rfl, rfl⟩

/-- C9 (witness): the divergence lemmas at concrete loop states. -/
theorem c9_witness :
    (fnsAux 7).cLineLoop []
        { source := "//a".data, index := 3, curr := nul, lineNumber := 1,
          comments := [], typeNames := [] } = .fuel ∧
      (fnsAux 7).cBlockLoop []
        { source := "/*a".data, index := 2, curr := 'a', lineNumber := 1,
          comments := [], typeNames := [] } = .fuel :=
  ⟨c9_theorem.1 7 [] _ (by decide) (by decide),
   c9_theorem.2.1 7 [] _ rfl (by decide) (by decide)⟩

theorem frame_refl (st : PState) : Frame st st :=
  ⟨rfl, rfl, ⟨[], (List.append_nil _).symm⟩, le_refl _⟩

theorem frame_trans {a b c : PState} (h1 : Frame a b) (h2 : Frame b c) : Frame a c := by
  obtain ⟨s1, t1, ⟨u, hu⟩, l1⟩ := h1
  obtain ⟨s2, t2, ⟨v, hv⟩, l2⟩ := h2
  exact ⟨s2.trans s1, t2.trans t1, ⟨u ++ v, by rw [hv, hu, List.append_assoc]⟩,
    le_trans l1 l2⟩

theorem cm_pure {α : Type} (a : α) : CM (PM.pure a) := by
  intro st
  exact frame_refl st

theorem cm_fuelOut {α : Type} : CM (fuelOut : PM α) := by
  intro st
  exact trivial

theorem cm_getS : CM getS := by
  intro st
  exact frame_refl st

theorem cm_unexpected {α : Type} (e : String) : CM (unexpected e : PM α) := by
  intro st
  exact frame_refl st

theorem cm_modify {f : PState → PState} (h : ∀ st, Frame st (f st)) : CM (modifyS f) := by
  intro st
  exact h st

theorem cm_bind {α β : Type} {x : PM α} {f : α → PM β}
    (hx : CM x) (hf : ∀ a, CM (f a)) : CM (PM.bind x f) := by
  intro st
  have h1 := hx st
  show (match (match x st with
    | .ok a st' => f a st'
    | .err e st' => .err e st'
    | .fuel => .fuel) with
    | PResult.ok _ st' => Frame st st'
    | PResult.err _ st' => Frame st st'
    | PResult.fuel => True)
  cases hxs : x st with
  | ok a st1 =>
      rw [hxs] at h1
      have h2 := hf a st1
      cases hfs : f a st1 with
      | ok b st2 => rw [hfs] at h2; simp only [hfs]; exact frame_trans h1 h2
      | err e st2 => rw [hfs] at h2; simp only [hfs]; exact frame_trans h1 h2
      | fuel => simp only [hfs]
  | err e st1 => rw [hxs] at h1; simp only; exact h1
  | fuel => simp only

theorem cm_ite {α : Type} {c : Prop} [Decidable c] {x y : PM α}
    (hx : CM x) (hy : CM y) : CM (if c then x else y) := by
  split
  · exact hx
  · exact hy

theorem cm_lookGo {F : Fns} (hF : ∀ ws wc, CM (F.next ws wc)) (saved : Int) :
    ∀ cs : List Char, CM (lookGo F saved cs) := by
  intro cs
  induction cs with
  | nil => exact cm_pure true
  | cons c rest ih =>
      show CM (lookGo F saved (c :: rest))
      unfold lookGo
      simp only [pmBind_eq]
      refine cm_bind cm_getS (fun st => ?_)
      refine cm_ite ?_ ?_
      · exact cm_bind (hF true false) (fun _ => ih)
      · refine cm_bind (cm_modify (fun st2 => ?_)) (fun _ => cm_pure false)
        exact ⟨rfl, rfl, ⟨[], (List.append_nil _).symm⟩, le_refl _⟩

theorem cm_lookaheadBody {F : Fns} (hF : ∀ ws wc, CM (F.next ws wc))
    (hSk : CM F.skipSpaces) (s : String) (k : Bool) : CM (lookaheadBody F s k) := by
  unfold lookaheadBody
  simp only [pmBind_eq]
  refine cm_bind cm_getS (fun st0 => ?_)
  refine cm_bind (cm_lookGo hF st0.index s.data) (fun b => ?_)
  refine cm_ite ?_ ?_
  · refine cm_bind cm_getS (fun st => ?_)
    refine cm_ite ?_ ?_
    · refine cm_bind (cm_modify (fun st2 => ?_)) (fun _ => cm_pure false)
      exact ⟨rfl, rfl, ⟨[], (List.append_nil _).symm⟩, le_refl _⟩
    · refine cm_ite ?_ ?_
      · exact cm_bind hSk (fun _ => cm_pure true)
      · exact cm_bind (cm_pure ()) (fun _ => cm_pure true)
  · exact cm_pure false

theorem frame_advance1 (st : PState) : Frame st (advance1 st) := by
  refine ⟨rfl, rfl, ⟨[], (List.append_nil _).symm⟩, ?_⟩
  show st.lineNumber ≤ (if st.curr = '\n' then st.lineNumber + 1 else st.lineNumber)
  split
  · exact Nat.le_succ _
  · exact le_refl _

theorem cm_nextBody {F : Fns} (hLoop : ∀ ws wc, CM (F.nextLoop ws wc)) (ws wc : Bool) :
    CM (nextBody F ws wc) := by
  unfold nextBody
  simp only [pmBind_eq]
  exact cm_bind (cm_modify frame_advance1) (fun _ => hLoop ws wc)

theorem cm_spacesRunBody {F : Fns} (hself : CM F.spacesRun) : CM (spacesRunBody F) := by
  unfold spacesRunBody
  simp only [pmBind_eq]
  refine cm_bind cm_getS (fun st => ?_)
  refine cm_ite ?_ ?_
  · exact cm_bind (cm_modify frame_advance1) (fun _ => hself)
  · exact cm_pure ()

theorem cm_skipSpacesBody {F : Fns} (hNext : ∀ ws wc, CM (F.next ws wc)) :
    CM (skipSpacesBody F) := by
  unfold skipSpacesBody
  simp only [pmBind_eq]
  refine cm_bind cm_getS (fun st => ?_)
  refine cm_ite ?_ ?_
  · exact hNext false false
  · exact cm_pure ()

theorem cm_modify_enqueue (comment : J) :
    CM (modifyS (fun st2 => { st2 with comments := st2.comments ++ [comment] })) :=
  cm_modify (fun st => ⟨rfl, rfl, ⟨[comment], rfl⟩, le_refl _⟩)

theorem cm_modify_restore (saved : Int) :
    CM (modifyS (fun st2 => { st2 with index := saved, curr := getc st2.source saved })) :=
  cm_modify (fun st => ⟨rfl, rfl, ⟨[], (List.append_nil _).symm⟩, le_refl _⟩)

theorem cm_modify_skip2 :
    CM (modifyS (fun st2 => { st2 with index := st2.index + 2,
                                       curr := getc st2.source (st2.index + 2) })) :=
  cm_modify (fun st => ⟨rfl, rfl, ⟨[], (List.append_nil _).symm⟩, le_refl _⟩)

theorem cm_nextLoopBody {F : Fns} (hSp : CM F.spacesRun) (hPC : CM F.parseComment)
    (hself : ∀ ws wc, CM (F.nextLoop ws wc)) (ws wc : Bool) : CM (nextLoopBody F ws wc) := by
  unfold nextLoopBody
  simp only [pmBind_eq]
  repeat' first
    | exact hSp
    | exact hPC
    | apply hself
    | exact cm_getS
    | apply cm_modify_enqueue
    | apply cm_unexpected
    | apply cm_pure
    | apply cm_ite
    | apply cm_bind
    | intro _

theorem cm_parseCommentBody {F : Fns} (hLA : ∀ s k, CM (F.lookahead s k))
    (hBlock : ∀ a, CM (F.cBlockLoop a)) (hLine : ∀ a, CM (F.cLineLoop a)) :
    CM (parseCommentBody F) := by
  unfold parseCommentBody
  simp only [pmBind_eq]
  repeat' first
    | apply hLA
    | apply hBlock
    | apply hLine
    | exact cm_getS
    | exact cm_modify_skip2
    | apply cm_unexpected
    | apply cm_pure
    | apply cm_ite
    | apply cm_bind
    | intro _

theorem cm_cBlockLoopBody {F : Fns} (hNext : ∀ ws wc, CM (F.next ws wc))
    (hself : ∀ a, CM (F.cBlockLoop a)) (a : List Char) : CM (cBlockLoopBody F a) := by
  unfold cBlockLoopBody
  simp only [pmBind_eq]
  repeat' first
    | apply hNext
    | apply hself
    | exact cm_getS
    | apply cm_pure
    | apply cm_ite
    | apply cm_bind
    | intro _

theorem cm_cLineLoopBody {F : Fns} (hNext : ∀ ws wc, CM (F.next ws wc))
    (hself : ∀ a, CM (F.cLineLoop a)) (a : List Char) : CM (cLineLoopBody F a) := by
  unfold cLineLoopBody
  simp only [pmBind_eq]
  repeat' first
    | apply hNext
    | apply hself
    | exact cm_getS
    | apply cm_pure
    | apply cm_ite
    | apply cm_bind
    | intro _

theorem curOk : ∀ f : Nat, CurOk (fnsAux f) := by
  intro f
  induction f with
  | zero =>
      exact ⟨fun _ _ => cm_fuelOut, fun _ _ => cm_fuelOut, cm_fuelOut, cm_fuelOut,
        fun _ _ => cm_fuelOut, cm_fuelOut, fun _ => cm_fuelOut, fun _ => cm_fuelOut⟩
  | succ f ih =>
      refine ⟨?_, ?_, ?_, ?_, ?_, ?_, ?_, ?_⟩
      · exact cm_nextBody ih.nextLoop
      · exact cm_nextLoopBody ih.spacesRun ih.parseComment ih.nextLoop
      · exact cm_spacesRunBody ih.spacesRun
      · exact cm_skipSpacesBody ih.next
      · exact fun s k => cm_lookaheadBody ih.next ih.skipSpaces s k
      · exact cm_parseCommentBody ih.lookahead ih.cBlockLoop ih.cLineLoop
      · exact cm_cBlockLoopBody ih.next ih.cBlockLoop
      · exact cm_cLineLoopBody ih.next ih.cLineLoop

theorem lookGo_nil (F : Fns) (saved : Int) : lookGo F saved [] = PM.pure true := rfl

theorem lookGo_cons (F : Fns) (saved : Int) (c : Char) (rest : List Char) :
    lookGo F saved (c :: rest) = PM.bind getS (fun st =>
      if st.curr == c then
        PM.bind (F.next true false) (fun _ => lookGo F saved rest)
      else
        PM.bind (modifyS (fun st2 => { st2 with index := saved, curr := getc st2.source saved }))
          (fun _ => PM.pure false)) := rfl

theorem lookGo_false {F : Fns} (hN : ∀ ws wc, CM (F.next ws wc)) (saved : Int) :
    ∀ (cs : List Char) (st : PState) (b : Bool) (st' : PState),
      lookGo F saved cs st = .ok b st' →
      (b = true ∧ Frame st st') ∨
        (b = false ∧ st'.index = saved ∧ st'.curr = getc st'.source saved ∧ Frame st st') := by
  intro cs
  induction cs with
  | nil =>
      intro st b st' h
      rw [lookGo_nil] at h
      injection h with hb hst
      exact Or.inl ⟨hb.symm, hst ▸ frame_refl st⟩
  | cons c rest ih =>
      intro st b st' h
      rw [lookGo_cons] at h
      simp only [PM.bind, getS] at h
      by_cases hc : (st.curr == c) = true
      · rw [if_pos hc] at h
        cases hn : F.next true false st with
        | ok u st1 =>
            simp only [PM.bind, hn] at h
            have hfr1 : Frame st st1 := by
              have hcm := hN true false st
              rw [hn] at hcm
              exact hcm
            rcases ih st1 b st' h with ⟨hb, hfr⟩ | ⟨hb, hi, hcu, hfr⟩
            · exact Or.inl ⟨hb, frame_trans hfr1 hfr⟩
            · exact Or.inr ⟨hb, hi, hcu, frame_trans hfr1 hfr⟩
        | err e st1 => simp only [PM.bind, hn] at h; exact PResult.noConfusion h
        | fuel => simp only [PM.bind, hn] at h; exact PResult.noConfusion h
      · rw [if_neg hc] at h
        simp only [PM.bind, modifyS, PM.pure] at h
        injection h with hb hst
        refine Or.inr ⟨hb.symm, ?_, ?_, ?_⟩
        · rw [← hst]
        · rw [← hst]
        · rw [← hst]
          exact ⟨rfl, rfl, ⟨[], (List.append_nil _).symm⟩, le_refl _⟩

theorem lookahead_false :
    ∀ (f : Nat) (s : String) (k : Bool) (st : PState) (b : Bool) (st' : PState),
      (fnsAux f).lookahead s k st = .ok b st' → b = false →
      st'.index = st.index ∧ st'.curr = getc st'.source st.index ∧ Frame st st' := by
  intro f s k st b st' h hb
  subst hb
  obtain _ | g := f
  · exact PResult.noConfusion h
  · have hstep : (fnsAux (g + 1)).lookahead s k = lookaheadBody (fnsAux g) s k := rfl
    rw [hstep] at h
    unfold lookaheadBody at h
    simp only [pmBind_eq, PM.bind, getS] at h
    cases hg : lookGo (fnsAux g) st.index s.data st with
    | ok b1 st1 =>
        rw [hg] at h
        simp only at h
        have hlg := lookGo_false (curOk g).next st.index s.data st b1 st1 hg
        cases b1 with
        | true =>
            simp only [if_true] at h
            simp only [PM.bind, getS] at h
            rcases hlg with ⟨_, hfr1⟩ | ⟨hb1, _⟩
            · cases hr : (isIdentifierStart st1.curr && isIdentifier s) with
              | true =>
                  rw [hr, if_pos rfl] at h
                  simp only [PM.bind, modifyS, PM.pure] at h
                  injection h with _ hst
                  subst hst
                  refine ⟨rfl, rfl, frame_trans hfr1 ?_⟩
                  exact ⟨rfl, rfl, ⟨[], (List.append_nil _).symm⟩, le_refl _⟩
              | false =>
                  rw [hr] at h
                  simp only [Bool.false_eq_true, if_false] at h
                  by_cases hk : (!k) = true
                  · rw [if_pos hk] at h
                    cases hs : (fnsAux g).skipSpaces st1 with
                    | ok u st3 =>
                        simp only [PM.bind, hs, PM.pure] at h
                        injection h with hbb
                        exact absurd hbb.symm (by simp)
                    | err e st3 => simp only [PM.bind, hs] at h; exact PResult.noConfusion h
                    | fuel => simp only [PM.bind, hs] at h; exact PResult.noConfusion h
                  · rw [if_neg hk] at h
                    simp only [PM.bind, PM.pure] at h
                    injection h with hbb
                    exact absurd hbb.symm (by simp)
            · exact absurd hb1 (by simp)
        | false =>
            simp only [Bool.false_eq_true, if_false, PM.pure] at h
            injection h with _ hst
            subst hst
            rcases hlg with ⟨hb1, _⟩ | ⟨_, hi, hcu, hfr⟩
            · exact absurd hb1 (by simp)
            · exact ⟨hi, hcu, hfr⟩
    | err e st1 => rw [hg] at h; exact PResult.noConfusion h
    | fuel => rw [hg] at h; exact PResult.noConfusion h

theorem identBody_facts (c : Char) (h : isIdentifierBody c = true) :
    ¬(c = '/') ∧ isIllegal c = false := by
  unfold isIdentifierBody at h
  unfold isIllegal
  simp only [Char.isAlphanum, Char.isAlpha, Char.isDigit, Char.isUpper, Char.isLower,
    Bool.or_eq_true, Bool.and_eq_true, decide_eq_true_eq] at h
  constructor
  · intro hc
    subst hc
    revert h
    decide
  · have hb : ¬(c.toNat < 32 ∨ 126 < c.toNat) := by
      rcases h with ((⟨h1, h2⟩ | ⟨h1, h2⟩) | ⟨h1, h2⟩) | h1
      · have h1n : 65 ≤ c.toNat := h1
        have h2n : c.toNat ≤ 90 := h2
        omega
      · have h1n : 97 ≤ c.toNat := h1
        have h2n : c.toNat ≤ 122 := h2
        omega
      · have h1n : 48 ≤ c.toNat := h1
        have h2n : c.toNat ≤ 57 := h2
        omega
      · subst h1
        decide
    simp only [Bool.and_eq_false_iff]
    right
    simp only [Bool.or_eq_false_iff, decide_eq_false_iff_not]
    omega

theorem identStart_body (c : Char) (h : isIdentifierStart c = true) :
    isIdentifierBody c = true := by
  unfold isIdentifierStart at h
  unfold isIdentifierBody
  simp only [Char.isAlphanum, Bool.or_eq_true] at h ⊢
  rcases h with h | h
  · exact Or.inl (Or.inl h)
  · exact Or.inr h

theorem sync_restore (st : PState) (h : st.curr = getc st.source st.index) :
    ({ st with index := st.index, curr := getc st.source st.index } : PState) = st := by
  cases st
  simp_all

theorem lookahead_mismatch1 (f : Nat) (s : String) (c0 : Char) (rest : List Char)
    (hdata : s.data = c0 :: rest) (k : Bool) (st : PState)
    (h : ¬(st.curr = c0)) (hsync : st.curr = getc st.source st.index) :
    (fnsAux (f + 1)).lookahead s k st = .ok false st := by
  show lookaheadBody (fnsAux f) s k st = _
  unfold lookaheadBody
  simp only [pmBind_eq, PM.bind, getS, hdata]
  rw [lookGo_cons]
  simp only [PM.bind, getS]
  rw [if_neg (by simp [h])]
  simp only [PM.bind, modifyS, PM.pure]
  rw [sync_restore st hsync]
  simp [PM.pure]

theorem parseComment_null (f : Nat) (st : PState) (h : ¬(st.curr = '/'))
    (hsync : st.curr = getc st.source st.index) :
    (fnsAux (f + 2)).parseComment st = .ok J.null st := by
  show parseCommentBody (fnsAux (f + 1)) st = _
  unfold parseCommentBody
  simp only [pmBind_eq, PM.bind]
  rw [lookahead_mismatch1 f "/*" '/' ['*'] rfl false st h hsync]
  simp only [Bool.false_eq_true, if_false, PM.bind]
  rw [lookahead_mismatch1 f "//" '/' ['/'] rfl false st h hsync]
  simp [PM.pure]

theorem advance1_source (st : PState) : (advance1 st).source = st.source := rfl

theorem advance1_index (st : PState) : (advance1 st).index = st.index + 1 := rfl

theorem advance1_curr (st : PState) :
    (advance1 st).curr = getc st.source (st.index + 1) := rfl

theorem advance1_sync (st : PState) :
    (advance1 st).curr = getc (advance1 st).source (advance1 st).index := rfl

theorem next_tf (f : Nat) (st : PState)
    (hslash : ¬(getc st.source (st.index + 1) = '/'))
    (hlegal : isIllegal (getc st.source (st.index + 1)) = false) :
    (fnsAux (f + 4)).next true false st = .ok () (advance1 st) := by
  show nextBody (fnsAux (f + 3)) true false st = _
  unfold nextBody
  simp only [pmBind_eq, PM.bind, modifyS]
  show nextLoopBody (fnsAux (f + 2)) true false (advance1 st) = _
  unfold nextLoopBody
  simp only [pmBind_eq, PM.bind, getS, Bool.not_true, Bool.false_and, Bool.false_eq_true,
    if_false, PM.pure, Bool.not_false, if_true]
  rw [parseComment_null f (advance1 st)
    (by rw [advance1_curr]; exact hslash) (advance1_sync st)]
  simp only [jIsNull, Bool.not_true, Bool.false_eq_true, if_false, PM.pure, PM.bind, getS,
    advance1_curr, hlegal, Bool.or_false]

theorem next_small (f : Nat) (hf : f < 4) (st : PState) :
    (fnsAux f).next true false st = .fuel := by
  interval_cases f
  · rfl
  · rfl
  · rfl
  · rfl

theorem charsAt_zero (src : List Char) (i : Int) : charsAt src i 0 = [] := rfl

theorem charsAt_succ (src : List Char) (i : Int) (n : Nat) :
    charsAt src i (n + 1) = getc src i :: charsAt src (i + 1) n := by
  unfold charsAt
  rw [List.range_succ_eq_map]
  simp only [List.map_cons, List.map_map, Nat.cast_zero, add_zero]
  congr 1
  apply List.map_congr_left
  intro k _
  simp only [Function.comp_apply]
  congr 1
  push_cast
  ring

theorem lookGo_ident :
    ∀ (cs : List Char) (f : Nat) (saved : Int) (st : PState) (b : Bool) (st' : PState),
      st.curr = getc st.source st.index →
      charsAt st.source st.index cs.length = cs →
      (∀ c ∈ cs, isIdentifierBody c = true) →
      isIdentifierBody (getc st.source (st.index + cs.length)) = true →
      lookGo (fnsAux f) saved cs st = .ok b st' →
      b = true ∧ st'.source = st.source ∧ st'.index = st.index + cs.length ∧
        st'.curr = getc st.source (st.index + cs.length) := by
  intro cs
  induction cs with
  | nil =>
      intro f saved st b st' _ _ _ _ h
      rw [lookGo_nil] at h
      injection h with hb hst
      subst hst
      refine ⟨hb.symm, rfl, by simp, by simp [*]⟩
  | cons c cs' ih =>
      intro f saved st b st' hsync hchars hall hafter h
      rw [List.length_cons, charsAt_succ] at hchars
      injection hchars with hc0 hchars'
      rw [lookGo_cons] at h
      simp only [PM.bind, getS] at h
      rw [if_pos (by rw [hsync, hc0]; simp)] at h
      simp only [PM.bind] at h
      rcases Nat.lt_or_ge f 4 with hf | hf
      · rw [next_small f hf st] at h
        exact PResult.noConfusion h
      · obtain ⟨e, rfl⟩ : ∃ e, f = e + 4 := ⟨f - 4, by omega⟩
        have hnextChar : isIdentifierBody (getc st.source (st.index + 1)) = true := by
          cases cs' with
          | nil => simpa using hafter
          | cons c2 cs'' =>
              rw [List.length_cons, charsAt_succ] at hchars'
              injection hchars' with hc2 _
              rw [hc2]
              exact hall c2 (by simp)
        obtain ⟨hslash, hlegal⟩ := identBody_facts _ hnextChar
        rw [next_tf e st hslash hlegal] at h
        simp only at h
        have hidx : st.index + ((cs'.length : Nat) + 1 : Nat) = (st.index + 1) + cs'.length := by
          push_cast; ring
        have ihr := ih (e + 4) saved (advance1 st) b st' (advance1_sync st)
          (by rw [advance1_source, advance1_index]; exact hchars')
          (fun d hd => hall d (by simp [hd]))
          (by rw [advance1_source, advance1_index, ← hidx]; exact hafter) h
        obtain ⟨hb, hsrc, hidx2, hcurr2⟩ := ihr
        refine ⟨hb, by rw [hsrc, advance1_source], ?_, ?_⟩
        · rw [hidx2, advance1_index, List.length_cons, hidx]
        · rw [hcurr2, advance1_source, advance1_index, List.length_cons, hidx]

/-- C3 (amended): `lookahead(s)` on an identifier lexeme `s` whose textual match
in the buffer is followed by an identifier-START character returns `false` and
restores index and curr (the buffer is untouched); concretely, a statement
beginning with the identifier `iffy` parses as an ExpressionStatement, not an
IfStatement. -/
theorem c3_theorem :
    (∀ (f : Nat) (s : String) (k : Bool) (st : PState) (b : Bool) (st' : PState),
        isIdentifier s = true →
        st.curr = getc st.source st.index →
        charsAt st.source st.index s.data.length = s.data →
        isIdentifierStart (getc st.source (st.index + (s.data.length : Int))) = true →
        (fnsAux f).lookahead s k st = .ok b st' →
        b = false ∧ st'.index = st.index ∧ st'.curr = st.curr ∧
          st'.source = st.source) ∧
      runStatement 300 "iffy;" =
        some (J.obj [("kind", J.s "ExpressionStatement"), ("position", J.n 1),
          ("expression", mkIdent 1 "iffy")]) := by
  constructor
  · intro f s k st b st' hid hsync hchars hafter h
    obtain _ | g := f
    · exact PResult.noConfusion h
    · have hstep : (fnsAux (g + 1)).lookahead s k = lookaheadBody (fnsAux g) s k := rfl
      rw [hstep] at h
      unfold lookaheadBody at h
      simp only [pmBind_eq, PM.bind, getS] at h
      have hall : ∀ c ∈ s.data, isIdentifierBody c = true := by
        unfold isIdentifier at hid
        cases hsd : s.data with
        | nil => rw [hsd] at hid; exact absurd hid (by simp)
        | cons c0 cs0 =>
            rw [hsd] at hid
            simp only [Bool.and_eq_true, List.all_eq_true] at hid
            intro d hd
            rcases List.mem_cons.mp hd with rfl | hd2
            · exact identStart_body _ hid.1
            · exact hid.2 d hd2
      cases hg : lookGo (fnsAux g) st.index s.data st with
      | ok b1 st1 =>
          rw [hg] at h
          simp only at h
          obtain ⟨hb1, hsrc1, hidx1, hcurr1⟩ :=
            lookGo_ident s.data g st.index st b1 st1 hsync hchars hall
              (identStart_body _ hafter) hg
          subst hb1
          simp only [if_true, PM.bind, getS] at h
          have hrej : (isIdentifierStart st1.curr && isIdentifier s) = true := by
            rw [hcurr1, hafter, hid]; rfl
          rw [hrej, if_pos rfl] at h
          simp only [PM.bind, modifyS, PM.pure] at h
          injection h with hb2 hst
          subst hst
          exact ⟨hb2.symm, rfl, by rw [PState.curr, hsrc1, hsync], hsrc1⟩
      | err e st1 => rw [hg] at h; exact PResult.noConfusion h
      | fuel => rw [hg] at h; exact PResult.noConfusion h
  · rfl

/-- Witness for `c3_theorem`: `lookahead("if")` at the start of `iffy` is
rejected, restoring the state exactly. -/
theorem c3_witness :
    isIdentifier "if" = true ∧
    ((fnsAux 50).lookahead "if" false
        { source := "iffy".data, index := 0, curr := 'i', lineNumber := 1,
          comments := [], typeNames := [] } =
      PResult.ok false
        { source := "iffy".data, index := 0, curr := 'i', lineNumber := 1,
          comments := [], typeNames := [] }) ∧
    false = false :=
  ⟨by decide, rfl,
    (c3_theorem.1 50 "if" false
      { source := "iffy".data, index := 0, curr := 'i', lineNumber := 1,
        comments := [], typeNames := [] } false
      { source := "iffy".data, index := 0, curr := 'i', lineNumber := 1,
        comments := [], typeNames := [] }
      (by decide) (by decide) (by decide) (by decide) rfl).1⟩

theorem hex_ne_dot (c : Char) (h : isHex c = true) : (c == '.') = false := by
  cases hdot : c == '.' with
  | false => rfl
  | true =>
      have hc : c = '.' := by simpa using hdot
      subst hc
      exact absurd h (by decide)

theorem numLoop16 :
    ∀ (f : Nat) (v : List Char) (t : String) (st : PState)
      (r : List Char × String) (st' : PState),
      (fnsAux f).numLoop 16 v t st = .ok r st' →
      ∃ ds, ds.all isHex = true ∧ r = (v ++ ds, t) := by
  intro f
  induction f with
  | zero =>
      intro v t st r st' h
      exact PResult.noConfusion h
  | succ g ih =>
      intro v t st r st' h
      have hstep : (fnsAux (g + 1)).numLoop 16 v t = numLoopBody (fnsAux g) 16 v t := rfl
      rw [hstep] at h
      unfold numLoopBody at h
      simp only [pmBind_eq, PM.bind, getS] at h
      simp only [show ((16 : Nat) == 16) = true from rfl,
        show ((16 : Nat) != 16) = false from rfl, Bool.false_and, Bool.and_false,
        Bool.or_false, if_true] at h
      cases hc : (st.curr != nul && isHex st.curr) with
      | false =>
          rw [hc] at h
          simp only [Bool.false_eq_true, if_false, PM.pure] at h
          injection h with hr
          exact ⟨[], rfl, by rw [← hr, List.append_nil]⟩
      | true =>
          rw [hc] at h
          simp only [if_true, PM.bind] at h
          have hhex : isHex st.curr = true := by
            have hpair := hc
            simp only [Bool.and_eq_true] at hpair
            exact hpair.2
          rw [hex_ne_dot st.curr hhex] at h
          simp only [Bool.false_eq_true, if_false] at h
          cases hn : (fnsAux g).next true false st with
          | ok u st2 =>
              rw [hn] at h
              simp only at h
              obtain ⟨ds, hds, hr⟩ := ih (v ++ [st.curr]) t st2 r st' h
              exact ⟨st.curr :: ds, by simp [hhex, hds],
                by rw [hr]; simp⟩
          | err e st2 => rw [hn] at h; exact PResult.noConfusion h
          | fuel => rw [hn] at h; exact PResult.noConfusion h

theorem strmk_hexval (l : List Char) :
    ("" : String) ++ "0x" ++ String.mk l = String.mk ('0' :: 'x' :: l) := rfl

theorem parseNumber16 :
    ∀ (f : Nat) (st : PState) (j : J) (st' : PState),
      (fnsAux f).parseNumber 16 st = .ok j st' → HexLitShape false j := by
  intro f st j st' h
  obtain _ | g := f
  · exact PResult.noConfusion h
  have hstep : (fnsAux (g + 1)).parseNumber 16 = parseNumberBody (fnsAux g) 16 := rfl
  rw [hstep] at h
  unfold parseNumberBody at h
  simp only [pmBind_eq, PM.bind, getS] at h
  simp only [show ((16 : Nat) == 16) = true from rfl, Bool.true_and, if_true] at h
  cases hhex : isHex st.curr with
  | false =>
      rw [hhex] at h
      simp only [Bool.not_false, if_true, unexpected] at h
      exact PResult.noConfusion h
  | true =>
      rw [hhex] at h
      simp only [Bool.not_true, Bool.false_eq_true, if_false] at h
      rw [hex_ne_dot st.curr hhex] at h
      simp only [Bool.false_eq_true, if_false, PM.bind] at h
      cases hn1 : (fnsAux g).next true false st with
      | err e stA => rw [hn1] at h; exact PResult.noConfusion h
      | fuel => rw [hn1] at h; exact PResult.noConfusion h
      | ok u1 stA =>
      rw [hn1] at h
      simp only [PM.bind] at h
      cases hnl : (fnsAux g).numLoop 16 [st.curr] "HexNumberLiteral" stA with
      | err e stB => rw [hnl] at h; exact PResult.noConfusion h
      | fuel => rw [hnl] at h; exact PResult.noConfusion h
      | ok vt stB =>
      rw [hnl] at h
      simp only at h
      obtain ⟨ds, hds, hvt⟩ := numLoop16 g [st.curr] "HexNumberLiteral" stA vt stB hnl
      subst hvt
      simp only [List.cons_append, List.nil_append, List.head?_cons,
        show (("HexNumberLiteral" : String) != "FloatNumberLiteral") = true from rfl,
        Bool.and_true, PM.bind, getS] at h
      have htype3 : (if (some st.curr == some ('0' : Char)) = true
          then ("OctNumberLiteral" : String) else "HexNumberLiteral") =
          (if st.curr = '0' then ("OctNumberLiteral" : String) else "HexNumberLiteral") := by
        by_cases hz : st.curr = '0'
        · rw [hz]; decide
        · have hq : (some st.curr == some ('0' : Char)) = false := by
            cases hq2 : some st.curr == some ('0' : Char) with
            | false => rfl
            | true => exact absurd (by simpa using eq_of_beq hq2) hz
          rw [hq, if_neg hz]
          simp
      rw [htype3] at h
      cases hL : stB.curr.toLower == 'l' with
      | true =>
          rw [hL] at h
          simp only [if_true, PM.bind] at h
          cases hn2 : (fnsAux g).next true false stB with
          | err e stC => rw [hn2] at h; exact PResult.noConfusion h
          | fuel => rw [hn2] at h; exact PResult.noConfusion h
          | ok u2 stC =>
          rw [hn2] at h
          simp only [PM.pure, PM.bind, getS] at h
          cases hU : stC.curr.toLower == 'u' with
          | true =>
              rw [hU] at h
              simp only [if_true, PM.bind] at h
              cases hn3 : (fnsAux g).next true false stC with
              | err e stD => rw [hn3] at h; exact PResult.noConfusion h
              | fuel => rw [hn3] at h; exact PResult.noConfusion h
              | ok u3 stD =>
              rw [hn3] at h
              simp only [PM.pure, PM.bind, getS] at h
              cases hdot : stD.curr == '.' with
              | true =>
                  rw [hdot] at h
                  simp only [if_true, unexpected] at h
                  exact PResult.noConfusion h
              | false =>
              rw [hdot] at h
              simp only [Bool.false_eq_true, if_false, PM.bind] at h
              cases hs : (fnsAux g).skipSpaces stD with
              | err e stY => rw [hs] at h; exact PResult.noConfusion h
              | fuel => rw [hs] at h; exact PResult.noConfusion h
              | ok u4 stY =>
              rw [hs] at h
              simp only [PM.pure] at h
              injection h with hj
              refine ⟨true, true, st.lineNumber, st.curr, ds, [stB.curr], [stC.curr],
                hhex, hds, ?_, ?_, ?_⟩
              · simp only [SuffixShape, if_true]
                exact ⟨stB.curr, rfl, eq_of_beq hL⟩
              · simp only [SuffixShape, if_true]
                exact ⟨stC.curr, rfl, eq_of_beq hU⟩
              · rw [← hj]
                simp only [Bool.false_eq_true, if_false]
                rw [strmk_hexval]
                simp [mkLit, ← String.append_assoc, List.append_assoc]
          | false =>
              rw [hU] at h
              simp only [Bool.false_eq_true, if_false, PM.pure, PM.bind, getS] at h
              cases hdot : stC.curr == '.' with
              | true =>
                  rw [hdot] at h
                  simp only [if_true, unexpected] at h
                  exact PResult.noConfusion h
              | false =>
              rw [hdot] at h
              simp only [Bool.false_eq_true, if_false, PM.bind] at h
              cases hs : (fnsAux g).skipSpaces stC with
              | err e stY => rw [hs] at h; exact PResult.noConfusion h
              | fuel => rw [hs] at h; exact PResult.noConfusion h
              | ok u4 stY =>
              rw [hs] at h
              simp only [PM.pure] at h
              injection h with hj
              refine ⟨false, true, st.lineNumber, st.curr, ds, [stB.curr], [],
                hhex, hds, ?_, ?_, ?_⟩
              · simp only [SuffixShape, if_true]
                exact ⟨stB.curr, rfl, eq_of_beq hL⟩
              · simp only [SuffixShape, Bool.false_eq_true, if_false]
              · rw [← hj]
                simp only [Bool.false_eq_true, if_false]
                rw [strmk_hexval]
                simp [mkLit, ← String.append_assoc, List.append_assoc,
                  String.empty_append, String.append_empty]
      | false =>
          rw [hL] at h
          simp only [Bool.false_eq_true, if_false, PM.pure, PM.bind, getS] at h
          cases hU : stB.curr.toLower == 'u' with
          | true =>
              rw [hU] at h
              simp only [if_true, PM.bind] at h
              cases hn3 : (fnsAux g).next true false stB with
              | err e stD => rw [hn3] at h; exact PResult.noConfusion h
              | fuel => rw [hn3] at h; exact PResult.noConfusion h
              | ok u3 stD =>
              rw [hn3] at h
              simp only [PM.pure, PM.bind, getS] at h
              cases hdot : stD.curr == '.' with
              | true =>
                  rw [hdot] at h
                  simp only [if_true, unexpected] at h
                  exact PResult.noConfusion h
              | false =>
              rw [hdot] at h
              simp only [Bool.false_eq_true, if_false, PM.bind] at h
              cases hs : (fnsAux g).skipSpaces stD with
              | err e stY => rw [hs] at h; exact PResult.noConfusion h
              | fuel => rw [hs] at h; exact PResult.noConfusion h
              | ok u4 stY =>
              rw [hs] at h
              simp only [PM.pure] at h
              injection h with hj
              refine ⟨true, false, st.lineNumber, st.curr, ds, [], [stB.curr],
                hhex, hds, ?_, ?_, ?_⟩
              · simp only [SuffixShape, Bool.false_eq_true, if_false]
              · simp only [SuffixShape, if_true]
                exact ⟨stB.curr, rfl, eq_of_beq hU⟩
              · rw [← hj]
                simp only [Bool.false_eq_true, if_false]
                rw [strmk_hexval]
                simp [mkLit, ← String.append_assoc, List.append_assoc,
                  String.empty_append, String.append_empty]
          | false =>
              rw [hU] at h
              simp only [Bool.false_eq_true, if_false, PM.pure, PM.bind, getS] at h
              cases hdot : stB.curr == '.' with
              | true =>
                  rw [hdot] at h
                  simp only [if_true, unexpected] at h
                  exact PResult.noConfusion h
              | false =>
              rw [hdot] at h
              simp only [Bool.false_eq_true, if_false, PM.bind] at h
              cases hs : (fnsAux g).skipSpaces stB with
              | err e stY => rw [hs] at h; exact PResult.noConfusion h
              | fuel => rw [hs] at h; exact PResult.noConfusion h
              | ok u4 stY =>
              rw [hs] at h
              simp only [PM.pure] at h
              injection h with hj
              refine ⟨false, false, st.lineNumber, st.curr, ds, [], [],
                hhex, hds, ?_, ?_, ?_⟩
              · simp only [SuffixShape, Bool.false_eq_true, if_false]
              · simp only [SuffixShape, Bool.false_eq_true, if_false]
              · rw [← hj]
                simp only [Bool.false_eq_true, if_false]
                rw [strmk_hexval]
                simp [mkLit, ← String.append_assoc, List.append_assoc,
                  String.empty_append, String.append_empty]

theorem hexNeg (j : J) (h : HexLitShape false j) : HexLitShape true (jPrependMinus j) := by
  obtain ⟨u, l, pos, d, ds, lsuf, usuf, h1, h2, h3, h4, hj⟩ := h
  subst hj
  refine ⟨u, l, pos, d, ds, lsuf, usuf, h1, h2, h3, h4, ?_⟩
  simp [jPrependMinus, mkLit, jstr, ← String.append_assoc]

/-- C1 (amended): whenever the `0x` branch returns a literal, its kind is
`[Unsigned][Long](Hex|Oct)NumberLiteral` — `Oct` exactly when the first
consumed hex digit is `0`, because `parseNumber`'s leading-zero check also
fires on hex digit strings — and its value is `0x` followed by the consumed
hex digits and suffix characters; the `-0x` branch prepends `-` to the value
and keeps the same kind.  Concretely `0x1f` keeps `HexNumberLiteral` while
`-0x0f` comes back as an `OctNumberLiteral`. -/
theorem c1_theorem :
    (∀ (f : Nat) (st : PState) (j : J) (st' : PState),
        (fnsAux f).parseNumber 16 st = .ok j st' → HexLitShape false j) ∧
    (∀ j, HexLitShape false j → HexLitShape true (jPrependMinus j)) ∧
    runLiteral 100 "0x1f" = some (mkLit "HexNumberLiteral" 1 (J.s "0x1f")) ∧
    runLiteral 100 "-0x0f" = some (mkLit "OctNumberLiteral" 1 (J.s "-0x0f")) :=
  ⟨parseNumber16, hexNeg, rfl, rfl⟩

/-- Witness for `c1_theorem`: a concrete run of `parseNumber(16)` on the tail
of `0x2a`, whose result indeed has the hex-literal shape. -/
theorem c1_witness :
    ((fnsAux 60).parseNumber 16
        { source := "0x2a".data, index := 2, curr := '2', lineNumber := 1,
          comments := [], typeNames := [] } =
      PResult.ok (mkLit "HexNumberLiteral" 1 (J.s "0x2a"))
        { source := "0x2a".data, index := 4, curr := nul, lineNumber := 1,
          comments := [], typeNames := [] }) ∧
    HexLitShape false (mkLit "HexNumberLiteral" 1 (J.s "0x2a")) :=
  ⟨rfl, c1_theorem.1 60
    { source := "0x2a".data, index := 2, curr := '2', lineNumber := 1,
      comments := [], typeNames := [] }
    (mkLit "HexNumberLiteral" 1 (J.s "0x2a"))
    { source := "0x2a".data, index := 4, curr := nul, lineNumber := 1,
      comments := [], typeNames := [] } rfl⟩

theorem mok_pure {α : Type} (a : α) : MOk (PM.pure a) := fun _ => Nat.le_refl _

theorem mok_fuelOut {α : Type} : MOk (fuelOut : PM α) := fun _ => trivial

theorem mok_getS : MOk getS := fun _ => Nat.le_refl _

theorem mok_unexpected {α : Type} (e : String) : MOk (unexpected e : PM α) :=
  fun _ => ⟨Or.inl ⟨e, rfl⟩, Nat.le_refl _⟩

theorem mok_throwStruct {α : Type} : MOk (throwMsg "struct is not supported" : PM α) :=
  fun _ => ⟨Or.inr (Or.inl rfl), Nat.le_refl _⟩

theorem mok_throwEnum {α : Type} : MOk (throwMsg "enum is not supported" : PM α) :=
  fun _ => ⟨Or.inr (Or.inr rfl), Nat.le_refl _⟩

theorem mok_modify {f : PState → PState} (hf : ∀ st, st.lineNumber ≤ (f st).lineNumber) :
    MOk (modifyS f) := fun st => hf st

theorem advance1_line_le (st : PState) : st.lineNumber ≤ (advance1 st).lineNumber := by
  show st.lineNumber ≤ (if st.curr = '\n' then st.lineNumber + 1 else st.lineNumber)
  split
  · exact Nat.le_succ _
  · exact Nat.le_refl _

theorem mok_bind {α β : Type} {x : PM α} {g : α → PM β}
    (hx : MOk x) (hg : ∀ a, MOk (g a)) : MOk (PM.bind x g) := by
  intro st
  have h1 := hx st
  show Ok1 st (match x st with
    | .ok a st' => g a st'
    | .err e st' => .err e st'
    | .fuel => .fuel)
  cases hxs : x st with
  | ok a st1 =>
      rw [hxs] at h1
      have h1b : st.lineNumber ≤ st1.lineNumber := h1
      show Ok1 st (g a st1)
      have h2 := hg a st1
      cases hgs : g a st1 with
      | ok b st2 =>
          rw [hgs] at h2
          have h2b : st1.lineNumber ≤ st2.lineNumber := h2
          exact le_trans h1b h2b
      | err e st2 =>
          rw [hgs] at h2
          have h2b : goodErrFmt e st2 ∧ st1.lineNumber ≤ st2.lineNumber := h2
          exact ⟨h2b.1, le_trans h1b h2b.2⟩
      | fuel => exact trivial
  | err e st1 =>
      rw [hxs] at h1
      exact h1
  | fuel => exact trivial

theorem mok_ite {α : Type} {c : Prop} [Decidable c] {x y : PM α}
    (hx : MOk x) (hy : MOk y) : MOk (if c then x else y) := by
  split
  · exact hx
  · exact hy

theorem mok_flushComments (statements : List J) : MOk (flushComments statements) := by
  intro st
  unfold flushComments
  simp only [pmBind_eq, PM.bind, getS, setS, PM.pure]
  split
  · exact Nat.le_refl _
  · exact Nat.le_refl _

theorem mok_flushCommentsJ (statements : J) : MOk (flushCommentsJ statements) := by
  intro st
  unfold flushCommentsJ
  simp only [pmBind_eq, PM.bind, getS, setS, PM.pure]
  split
  · exact Nat.le_refl _
  · exact Nat.le_refl _

theorem mok_lookGo {F : Fns} (hN : ∀ ws wc, MOk (F.next ws wc)) (saved : Int) :
    ∀ cs : List Char, MOk (lookGo F saved cs) := by
  intro cs
  induction cs with
  | nil => exact mok_pure true
  | cons c rest ih =>
      show MOk (lookGo F saved (c :: rest))
      unfold lookGo
      simp only [pmBind_eq]
      refine mok_bind mok_getS (fun st => ?_)
      refine mok_ite ?_ ?_
      · exact mok_bind (hN true false) (fun _ => ih)
      · exact mok_bind (mok_modify (fun st2 => Nat.le_refl _)) (fun _ => mok_pure false)

theorem mok_consumeGo {F : Fns} (hN : ∀ ws wc, MOk (F.next ws wc)) (str : String) :
    ∀ cs : List Char, MOk (consumeGo F str cs) := by
  intro cs
  induction cs with
  | nil => exact mok_pure ()
  | cons c rest ih =>
      show MOk (consumeGo F str (c :: rest))
      unfold consumeGo
      simp only [pmBind_eq]
      refine mok_bind mok_getS (fun st => ?_)
      refine mok_ite ?_ ?_
      · exact mok_bind (hN false false) (fun _ => ih)
      · exact mok_unexpected str

theorem mok_scanGo {F : Fns} (hLA : ∀ s k, MOk (F.lookahead s k)) (saved : Int) :
    ∀ ops : List String, MOk (scanGo F saved ops) := by
  intro ops
  induction ops with
  | nil => exact mok_pure ""
  | cons op rest ih =>
      show MOk (scanGo F saved (op :: rest))
      unfold scanGo
      simp only [pmBind_eq]
      refine mok_bind (hLA op false) (fun b => ?_)
      refine mok_ite ?_ ?_
      · exact mok_bind (mok_modify (fun st2 => Nat.le_refl _)) (fun _ => mok_pure op)
      · exact ih

theorem mok_declIncGo {F : Fns} (hLA : ∀ s k, MOk (F.lookahead s k)) (saved : Int) :
    ∀ kws : List String, MOk (declIncGo F saved kws) := by
  intro kws
  induction kws with
  | nil => exact mok_pure false
  | cons kw rest ih =>
      show MOk (declIncGo F saved (kw :: rest))
      unfold declIncGo
      simp only [pmBind_eq]
      refine mok_bind (hLA kw false) (fun b => ?_)
      refine mok_ite ?_ ?_
      · exact mok_bind (mok_modify (fun st2 => Nat.le_refl _)) (fun _ => mok_pure true)
      · exact ih

theorem mok_namesGo {F : Fns} (hLA : ∀ s k, MOk (F.lookahead s k)) :
    ∀ names : List String, MOk (namesGo F names) := by
  intro names
  induction names with
  | nil => exact mok_pure none
  | cons nme rest ih =>
      show MOk (namesGo F (nme :: rest))
      unfold namesGo
      simp only [pmBind_eq]
      refine mok_bind (hLA nme false) (fun b => ?_)
      refine mok_ite ?_ ?_
      · exact mok_pure (some nme)
      · exact ih

theorem mok_modsPass {F : Fns} (hLA : ∀ s k, MOk (F.lookahead s k)) :
    ∀ (table mods : List String) (has : Bool), MOk (modsPass F table mods has) := by
  intro table
  induction table with
  | nil => intro mods has; exact mok_pure (mods, has)
  | cons m rest ih =>
      intro mods has
      show MOk (modsPass F (m :: rest) mods has)
      unfold modsPass
      simp only [pmBind_eq]
      refine mok_bind (hLA m false) (fun b => ?_)
      refine mok_ite ?_ ?_
      · exact ih (mods ++ [m]) true
      · exact ih mods has

set_option maxHeartbeats 2000000 in
theorem mok_nextBody {F : Fns} (hF : FnsOk F) (ws : Bool) (wc : Bool) :
    MOk (nextBody F ws wc) := by
  unfold nextBody
  try simp only [pmBind_eq, pmPure_eq]
  repeat' first
    | apply hF.next
    | apply hF.nextLoop
    | exact hF.spacesRun
    | exact hF.skipSpaces
    | apply hF.lookahead
    | apply hF.consume
    | exact hF.parseComment
    | apply hF.cBlockLoop
    | apply hF.cLineLoop
    | apply hF.parseIdentifier
    | apply hF.identLoop
    | apply hF.parseNumber
    | apply hF.numLoop
    | exact hF.parseEscape
    | apply hF.parseString
    | apply hF.strLoop
    | exact hF.parseLiteral
    | apply hF.commaExprGo
    | apply hF.idxGo
    | exact hF.parseUnary
    | exact hF.scanBinaryOperator
    | apply hF.parseBinary
    | apply hF.binOuter
    | apply hF.binInner
    | apply hF.parseExpression
    | exact hF.declarationIncoming
    | apply hF.parseDeclaration
    | apply hF.modsLoop
    | apply hF.parseDefinition
    | apply hF.bracketGo
    | exact hF.parseParameters
    | apply hF.paramsGo
    | apply hF.parseFunction
    | apply hF.parseBody
    | apply hF.blockGo
    | exact hF.parseStatement
    | exact hF.parseInclude
    | apply hF.incLoop1
    | apply hF.incLoop2
    | exact hF.parsePredefine
    | exact hF.parse
    | apply hF.parseGo
    | apply mok_lookGo hF.next
    | apply mok_consumeGo hF.next
    | apply mok_scanGo hF.lookahead
    | apply mok_declIncGo hF.lookahead
    | apply mok_modsPass hF.lookahead
    | apply mok_namesGo hF.lookahead
    | apply mok_flushComments
    | apply mok_flushCommentsJ
    | exact mok_getS
    | exact mok_modify advance1_line_le
    | exact mok_modify (fun st2 => Nat.le_refl st2.lineNumber)
    | apply mok_unexpected
    | exact mok_throwStruct
    | exact mok_throwEnum
    | apply mok_pure
    | apply mok_ite
    | apply mok_bind
    | split
    | intro h2


set_option maxHeartbeats 2000000 in
theorem mok_nextLoopBody {F : Fns} (hF : FnsOk F) (ws : Bool) (wc : Bool) :
    MOk (nextLoopBody F ws wc) := by
  unfold nextLoopBody
  try simp only [pmBind_eq, pmPure_eq]
  repeat' first
    | apply hF.next
    | apply hF.nextLoop
    | exact hF.spacesRun
    | exact hF.skipSpaces
    | apply hF.lookahead
    | apply hF.consume
    | exact hF.parseComment
    | apply hF.cBlockLoop
    | apply hF.cLineLoop
    | apply hF.parseIdentifier
    | apply hF.identLoop
    | apply hF.parseNumber
    | apply hF.numLoop
    | exact hF.parseEscape
    | apply hF.parseString
    | apply hF.strLoop
    | exact hF.parseLiteral
    | apply hF.commaExprGo
    | apply hF.idxGo
    | exact hF.parseUnary
    | exact hF.scanBinaryOperator
    | apply hF.parseBinary
    | apply hF.binOuter
    | apply hF.binInner
    | apply hF.parseExpression
    | exact hF.declarationIncoming
    | apply hF.parseDeclaration
    | apply hF.modsLoop
    | apply hF.parseDefinition
    | apply hF.bracketGo
    | exact hF.parseParameters
    | apply hF.paramsGo
    | apply hF.parseFunction
    | apply hF.parseBody
    | apply hF.blockGo
    | exact hF.parseStatement
    | exact hF.parseInclude
    | apply hF.incLoop1
    | apply hF.incLoop2
    | exact hF.parsePredefine
    | exact hF.parse
    | apply hF.parseGo
    | apply mok_lookGo hF.next
    | apply mok_consumeGo hF.next
    | apply mok_scanGo hF.lookahead
    | apply mok_declIncGo hF.lookahead
    | apply mok_modsPass hF.lookahead
    | apply mok_namesGo hF.lookahead
    | apply mok_flushComments
    | apply mok_flushCommentsJ
    | exact mok_getS
    | exact mok_modify advance1_line_le
    | exact mok_modify (fun st2 => Nat.le_refl st2.lineNumber)
    | apply mok_unexpected
    | exact mok_throwStruct
    | exact mok_throwEnum
    | apply mok_pure
    | apply mok_ite
    | apply mok_bind
    | split
    | intro h2


set_option maxHeartbeats 2000000 in
theorem mok_spacesRunBody {F : Fns} (hF : FnsOk F) :
    MOk (spacesRunBody F) := by
  unfold spacesRunBody
  try simp only [pmBind_eq, pmPure_eq]
  repeat' first
    | apply hF.next
    | apply hF.nextLoop
    | exact hF.spacesRun
    | exact hF.skipSpaces
    | apply hF.lookahead
    | apply hF.consume
    | exact hF.parseComment
    | apply hF.cBlockLoop
    | apply hF.cLineLoop
    | apply hF.parseIdentifier
    | apply hF.identLoop
    | apply hF.parseNumber
    | apply hF.numLoop
    | exact hF.parseEscape
    | apply hF.parseString
    | apply hF.strLoop
    | exact hF.parseLiteral
    | apply hF.commaExprGo
    | apply hF.idxGo
    | exact hF.parseUnary
    | exact hF.scanBinaryOperator
    | apply hF.parseBinary
    | apply hF.binOuter
    | apply hF.binInner
    | apply hF.parseExpression
    | exact hF.declarationIncoming
    | apply hF.parseDeclaration
    | apply hF.modsLoop
    | apply hF.parseDefinition
    | apply hF.bracketGo
    | exact hF.parseParameters
    | apply hF.paramsGo
    | apply hF.parseFunction
    | apply hF.parseBody
    | apply hF.blockGo
    | exact hF.parseStatement
    | exact hF.parseInclude
    | apply hF.incLoop1
    | apply hF.incLoop2
    | exact hF.parsePredefine
    | exact hF.parse
    | apply hF.parseGo
    | apply mok_lookGo hF.next
    | apply mok_consumeGo hF.next
    | apply mok_scanGo hF.lookahead
    | apply mok_declIncGo hF.lookahead
    | apply mok_modsPass hF.lookahead
    | apply mok_namesGo hF.lookahead
    | apply mok_flushComments
    | apply mok_flushCommentsJ
    | exact mok_getS
    | exact mok_modify advance1_line_le
    | exact mok_modify (fun st2 => Nat.le_refl st2.lineNumber)
    | apply mok_unexpected
    | exact mok_throwStruct
    | exact mok_throwEnum
    | apply mok_pure
    | apply mok_ite
    | apply mok_bind
    | split
    | intro h2


set_option maxHeartbeats 2000000 in
theorem mok_skipSpacesBody {F : Fns} (hF : FnsOk F) :
    MOk (skipSpacesBody F) := by
  unfold skipSpacesBody
  try simp only [pmBind_eq, pmPure_eq]
  repeat' first
    | apply hF.next
    | apply hF.nextLoop
    | exact hF.spacesRun
    | exact hF.skipSpaces
    | apply hF.lookahead
    | apply hF.consume
    | exact hF.parseComment
    | apply hF.cBlockLoop
    | apply hF.cLineLoop
    | apply hF.parseIdentifier
    | apply hF.identLoop
    | apply hF.parseNumber
    | apply hF.numLoop
    | exact hF.parseEscape
    | apply hF.parseString
    | apply hF.strLoop
    | exact hF.parseLiteral
    | apply hF.commaExprGo
    | apply hF.idxGo
    | exact hF.parseUnary
    | exact hF.scanBinaryOperator
    | apply hF.parseBinary
    | apply hF.binOuter
    | apply hF.binInner
    | apply hF.parseExpression
    | exact hF.declarationIncoming
    | apply hF.parseDeclaration
    | apply hF.modsLoop
    | apply hF.parseDefinition
    | apply hF.bracketGo
    | exact hF.parseParameters
    | apply hF.paramsGo
    | apply hF.parseFunction
    | apply hF.parseBody
    | apply hF.blockGo
    | exact hF.parseStatement
    | exact hF.parseInclude
    | apply hF.incLoop1
    | apply hF.incLoop2
    | exact hF.parsePredefine
    | exact hF.parse
    | apply hF.parseGo
    | apply mok_lookGo hF.next
    | apply mok_consumeGo hF.next
    | apply mok_scanGo hF.lookahead
    | apply mok_declIncGo hF.lookahead
    | apply mok_modsPass hF.lookahead
    | apply mok_namesGo hF.lookahead
    | apply mok_flushComments
    | apply mok_flushCommentsJ
    | exact mok_getS
    | exact mok_modify advance1_line_le
    | exact mok_modify (fun st2 => Nat.le_refl st2.lineNumber)
    | apply mok_unexpected
    | exact mok_throwStruct
    | exact mok_throwEnum
    | apply mok_pure
    | apply mok_ite
    | apply mok_bind
    | split
    | intro h2


set_option maxHeartbeats 2000000 in
theorem mok_lookaheadBody {F : Fns} (hF : FnsOk F) (s : String) (k : Bool) :
    MOk (lookaheadBody F s k) := by
  unfold lookaheadBody
  try simp only [pmBind_eq, pmPure_eq]
  repeat' first
    | apply hF.next
    | apply hF.nextLoop
    | exact hF.spacesRun
    | exact hF.skipSpaces
    | apply hF.lookahead
    | apply hF.consume
    | exact hF.parseComment
    | apply hF.cBlockLoop
    | apply hF.cLineLoop
    | apply hF.parseIdentifier
    | apply hF.identLoop
    | apply hF.parseNumber
    | apply hF.numLoop
    | exact hF.parseEscape
    | apply hF.parseString
    | apply hF.strLoop
    | exact hF.parseLiteral
    | apply hF.commaExprGo
    | apply hF.idxGo
    | exact hF.parseUnary
    | exact hF.scanBinaryOperator
    | apply hF.parseBinary
    | apply hF.binOuter
    | apply hF.binInner
    | apply hF.parseExpression
    | exact hF.declarationIncoming
    | apply hF.parseDeclaration
    | apply hF.modsLoop
    | apply hF.parseDefinition
    | apply hF.bracketGo
    | exact hF.parseParameters
    | apply hF.paramsGo
    | apply hF.parseFunction
    | apply hF.parseBody
    | apply hF.blockGo
    | exact hF.parseStatement
    | exact hF.parseInclude
    | apply hF.incLoop1
    | apply hF.incLoop2
    | exact hF.parsePredefine
    | exact hF.parse
    | apply hF.parseGo
    | apply mok_lookGo hF.next
    | apply mok_consumeGo hF.next
    | apply mok_scanGo hF.lookahead
    | apply mok_declIncGo hF.lookahead
    | apply mok_modsPass hF.lookahead
    | apply mok_namesGo hF.lookahead
    | apply mok_flushComments
    | apply mok_flushCommentsJ
    | exact mok_getS
    | exact mok_modify advance1_line_le
    | exact mok_modify (fun st2 => Nat.le_refl st2.lineNumber)
    | apply mok_unexpected
    | exact mok_throwStruct
    | exact mok_throwEnum
    | apply mok_pure
    | apply mok_ite
    | apply mok_bind
    | split
    | intro h2


set_option maxHeartbeats 2000000 in
theorem mok_consumeBody {F : Fns} (hF : FnsOk F) (s : String) :
    MOk (consumeBody F s) := by
  unfold consumeBody
  try simp only [pmBind_eq, pmPure_eq]
  repeat' first
    | apply hF.next
    | apply hF.nextLoop
    | exact hF.spacesRun
    | exact hF.skipSpaces
    | apply hF.lookahead
    | apply hF.consume
    | exact hF.parseComment
    | apply hF.cBlockLoop
    | apply hF.cLineLoop
    | apply hF.parseIdentifier
    | apply hF.identLoop
    | apply hF.parseNumber
    | apply hF.numLoop
    | exact hF.parseEscape
    | apply hF.parseString
    | apply hF.strLoop
    | exact hF.parseLiteral
    | apply hF.commaExprGo
    | apply hF.idxGo
    | exact hF.parseUnary
    | exact hF.scanBinaryOperator
    | apply hF.parseBinary
    | apply hF.binOuter
    | apply hF.binInner
    | apply hF.parseExpression
    | exact hF.declarationIncoming
    | apply hF.parseDeclaration
    | apply hF.modsLoop
    | apply hF.parseDefinition
    | apply hF.bracketGo
    | exact hF.parseParameters
    | apply hF.paramsGo
    | apply hF.parseFunction
    | apply hF.parseBody
    | apply hF.blockGo
    | exact hF.parseStatement
    | exact hF.parseInclude
    | apply hF.incLoop1
    | apply hF.incLoop2
    | exact hF.parsePredefine
    | exact hF.parse
    | apply hF.parseGo
    | apply mok_lookGo hF.next
    | apply mok_consumeGo hF.next
    | apply mok_scanGo hF.lookahead
    | apply mok_declIncGo hF.lookahead
    | apply mok_modsPass hF.lookahead
    | apply mok_namesGo hF.lookahead
    | apply mok_flushComments
    | apply mok_flushCommentsJ
    | exact mok_getS
    | exact mok_modify advance1_line_le
    | exact mok_modify (fun st2 => Nat.le_refl st2.lineNumber)
    | apply mok_unexpected
    | exact mok_throwStruct
    | exact mok_throwEnum
    | apply mok_pure
    | apply mok_ite
    | apply mok_bind
    | split
    | intro h2


set_option maxHeartbeats 2000000 in
theorem mok_parseCommentBody {F : Fns} (hF : FnsOk F) :
    MOk (parseCommentBody F) := by
  unfold parseCommentBody
  try simp only [pmBind_eq, pmPure_eq]
  repeat' first
    | apply hF.next
    | apply hF.nextLoop
    | exact hF.spacesRun
    | exact hF.skipSpaces
    | apply hF.lookahead
    | apply hF.consume
    | exact hF.parseComment
    | apply hF.cBlockLoop
    | apply hF.cLineLoop
    | apply hF.parseIdentifier
    | apply hF.identLoop
    | apply hF.parseNumber
    | apply hF.numLoop
    | exact hF.parseEscape
    | apply hF.parseString
    | apply hF.strLoop
    | exact hF.parseLiteral
    | apply hF.commaExprGo
    | apply hF.idxGo
    | exact hF.parseUnary
    | exact hF.scanBinaryOperator
    | apply hF.parseBinary
    | apply hF.binOuter
    | apply hF.binInner
    | apply hF.parseExpression
    | exact hF.declarationIncoming
    | apply hF.parseDeclaration
    | apply hF.modsLoop
    | apply hF.parseDefinition
    | apply hF.bracketGo
    | exact hF.parseParameters
    | apply hF.paramsGo
    | apply hF.parseFunction
    | apply hF.parseBody
    | apply hF.blockGo
    | exact hF.parseStatement
    | exact hF.parseInclude
    | apply hF.incLoop1
    | apply hF.incLoop2
    | exact hF.parsePredefine
    | exact hF.parse
    | apply hF.parseGo
    | apply mok_lookGo hF.next
    | apply mok_consumeGo hF.next
    | apply mok_scanGo hF.lookahead
    | apply mok_declIncGo hF.lookahead
    | apply mok_modsPass hF.lookahead
    | apply mok_namesGo hF.lookahead
    | apply mok_flushComments
    | apply mok_flushCommentsJ
    | exact mok_getS
    | exact mok_modify advance1_line_le
    | exact mok_modify (fun st2 => Nat.le_refl st2.lineNumber)
    | apply mok_unexpected
    | exact mok_throwStruct
    | exact mok_throwEnum
    | apply mok_pure
    | apply mok_ite
    | apply mok_bind
    | split
    | intro h2


set_option maxHeartbeats 2000000 in
theorem mok_cBlockLoopBody {F : Fns} (hF : FnsOk F) (a : List Char) :
    MOk (cBlockLoopBody F a) := by
  unfold cBlockLoopBody
  try simp only [pmBind_eq, pmPure_eq]
  repeat' first
    | apply hF.next
    | apply hF.nextLoop
    | exact hF.spacesRun
    | exact hF.skipSpaces
    | apply hF.lookahead
    | apply hF.consume
    | exact hF.parseComment
    | apply hF.cBlockLoop
    | apply hF.cLineLoop
    | apply hF.parseIdentifier
    | apply hF.identLoop
    | apply hF.parseNumber
    | apply hF.numLoop
    | exact hF.parseEscape
    | apply hF.parseString
    | apply hF.strLoop
    | exact hF.parseLiteral
    | apply hF.commaExprGo
    | apply hF.idxGo
    | exact hF.parseUnary
    | exact hF.scanBinaryOperator
    | apply hF.parseBinary
    | apply hF.binOuter
    | apply hF.binInner
    | apply hF.parseExpression
    | exact hF.declarationIncoming
    | apply hF.parseDeclaration
    | apply hF.modsLoop
    | apply hF.parseDefinition
    | apply hF.bracketGo
    | exact hF.parseParameters
    | apply hF.paramsGo
    | apply hF.parseFunction
    | apply hF.parseBody
    | apply hF.blockGo
    | exact hF.parseStatement
    | exact hF.parseInclude
    | apply hF.incLoop1
    | apply hF.incLoop2
    | exact hF.parsePredefine
    | exact hF.parse
    | apply hF.parseGo
    | apply mok_lookGo hF.next
    | apply mok_consumeGo hF.next
    | apply mok_scanGo hF.lookahead
    | apply mok_declIncGo hF.lookahead
    | apply mok_modsPass hF.lookahead
    | apply mok_namesGo hF.lookahead
    | apply mok_flushComments
    | apply mok_flushCommentsJ
    | exact mok_getS
    | exact mok_modify advance1_line_le
    | exact mok_modify (fun st2 => Nat.le_refl st2.lineNumber)
    | apply mok_unexpected
    | exact mok_throwStruct
    | exact mok_throwEnum
    | apply mok_pure
    | apply mok_ite
    | apply mok_bind
    | split
    | intro h2


set_option maxHeartbeats 2000000 in
theorem mok_cLineLoopBody {F : Fns} (hF : FnsOk F) (a : List Char) :
    MOk (cLineLoopBody F a) := by
  unfold cLineLoopBody
  try simp only [pmBind_eq, pmPure_eq]
  repeat' first
    | apply hF.next
    | apply hF.nextLoop
    | exact hF.spacesRun
    | exact hF.skipSpaces
    | apply hF.lookahead
    | apply hF.consume
    | exact hF.parseComment
    | apply hF.cBlockLoop
    | apply hF.cLineLoop
    | apply hF.parseIdentifier
    | apply hF.identLoop
    | apply hF.parseNumber
    | apply hF.numLoop
    | exact hF.parseEscape
    | apply hF.parseString
    | apply hF.strLoop
    | exact hF.parseLiteral
    | apply hF.commaExprGo
    | apply hF.idxGo
    | exact hF.parseUnary
    | exact hF.scanBinaryOperator
    | apply hF.parseBinary
    | apply hF.binOuter
    | apply hF.binInner
    | apply hF.parseExpression
    | exact hF.declarationIncoming
    | apply hF.parseDeclaration
    | apply hF.modsLoop
    | apply hF.parseDefinition
    | apply hF.bracketGo
    | exact hF.parseParameters
    | apply hF.paramsGo
    | apply hF.parseFunction
    | apply hF.parseBody
    | apply hF.blockGo
    | exact hF.parseStatement
    | exact hF.parseInclude
    | apply hF.incLoop1
    | apply hF.incLoop2
    | exact hF.parsePredefine
    | exact hF.parse
    | apply hF.parseGo
    | apply mok_lookGo hF.next
    | apply mok_consumeGo hF.next
    | apply mok_scanGo hF.lookahead
    | apply mok_declIncGo hF.lookahead
    | apply mok_modsPass hF.lookahead
    | apply mok_namesGo hF.lookahead
    | apply mok_flushComments
    | apply mok_flushCommentsJ
    | exact mok_getS
    | exact mok_modify advance1_line_le
    | exact mok_modify (fun st2 => Nat.le_refl st2.lineNumber)
    | apply mok_unexpected
    | exact mok_throwStruct
    | exact mok_throwEnum
    | apply mok_pure
    | apply mok_ite
    | apply mok_bind
    | split
    | intro h2


set_option maxHeartbeats 2000000 in
theorem mok_parseIdentifierBody {F : Fns} (hF : FnsOk F) (k : Bool) :
    MOk (parseIdentifierBody F k) := by
  unfold parseIdentifierBody
  try simp only [pmBind_eq, pmPure_eq]
  repeat' first
    | apply hF.next
    | apply hF.nextLoop
    | exact hF.spacesRun
    | exact hF.skipSpaces
    | apply hF.lookahead
    | apply hF.consume
    | exact hF.parseComment
    | apply hF.cBlockLoop
    | apply hF.cLineLoop
    | apply hF.parseIdentifier
    | apply hF.identLoop
    | apply hF.parseNumber
    | apply hF.numLoop
    | exact hF.parseEscape
    | apply hF.parseString
    | apply hF.strLoop
    | exact hF.parseLiteral
    | apply hF.commaExprGo
    | apply hF.idxGo
    | exact hF.parseUnary
    | exact hF.scanBinaryOperator
    | apply hF.parseBinary
    | apply hF.binOuter
    | apply hF.binInner
    | apply hF.parseExpression
    | exact hF.declarationIncoming
    | apply hF.parseDeclaration
    | apply hF.modsLoop
    | apply hF.parseDefinition
    | apply hF.bracketGo
    | exact hF.parseParameters
    | apply hF.paramsGo
    | apply hF.parseFunction
    | apply hF.parseBody
    | apply hF.blockGo
    | exact hF.parseStatement
    | exact hF.parseInclude
    | apply hF.incLoop1
    | apply hF.incLoop2
    | exact hF.parsePredefine
    | exact hF.parse
    | apply hF.parseGo
    | apply mok_lookGo hF.next
    | apply mok_consumeGo hF.next
    | apply mok_scanGo hF.lookahead
    | apply mok_declIncGo hF.lookahead
    | apply mok_modsPass hF.lookahead
    | apply mok_namesGo hF.lookahead
    | apply mok_flushComments
    | apply mok_flushCommentsJ
    | exact mok_getS
    | exact mok_modify advance1_line_le
    | exact mok_modify (fun st2 => Nat.le_refl st2.lineNumber)
    | apply mok_unexpected
    | exact mok_throwStruct
    | exact mok_throwEnum
    | apply mok_pure
    | apply mok_ite
    | apply mok_bind
    | split
    | intro h2


set_option maxHeartbeats 2000000 in
theorem mok_identLoopBody {F : Fns} (hF : FnsOk F) (a : List Char) :
    MOk (identLoopBody F a) := by
  unfold identLoopBody
  try simp only [pmBind_eq, pmPure_eq]
  repeat' first
    | apply hF.next
    | apply hF.nextLoop
    | exact hF.spacesRun
    | exact hF.skipSpaces
    | apply hF.lookahead
    | apply hF.consume
    | exact hF.parseComment
    | apply hF.cBlockLoop
    | apply hF.cLineLoop
    | apply hF.parseIdentifier
    | apply hF.identLoop
    | apply hF.parseNumber
    | apply hF.numLoop
    | exact hF.parseEscape
    | apply hF.parseString
    | apply hF.strLoop
    | exact hF.parseLiteral
    | apply hF.commaExprGo
    | apply hF.idxGo
    | exact hF.parseUnary
    | exact hF.scanBinaryOperator
    | apply hF.parseBinary
    | apply hF.binOuter
    | apply hF.binInner
    | apply hF.parseExpression
    | exact hF.declarationIncoming
    | apply hF.parseDeclaration
    | apply hF.modsLoop
    | apply hF.parseDefinition
    | apply hF.bracketGo
    | exact hF.parseParameters
    | apply hF.paramsGo
    | apply hF.parseFunction
    | apply hF.parseBody
    | apply hF.blockGo
    | exact hF.parseStatement
    | exact hF.parseInclude
    | apply hF.incLoop1
    | apply hF.incLoop2
    | exact hF.parsePredefine
    | exact hF.parse
    | apply hF.parseGo
    | apply mok_lookGo hF.next
    | apply mok_consumeGo hF.next
    | apply mok_scanGo hF.lookahead
    | apply mok_declIncGo hF.lookahead
    | apply mok_modsPass hF.lookahead
    | apply mok_namesGo hF.lookahead
    | apply mok_flushComments
    | apply mok_flushCommentsJ
    | exact mok_getS
    | exact mok_modify advance1_line_le
    | exact mok_modify (fun st2 => Nat.le_refl st2.lineNumber)
    | apply mok_unexpected
    | exact mok_throwStruct
    | exact mok_throwEnum
    | apply mok_pure
    | apply mok_ite
    | apply mok_bind
    | split
    | intro h2


set_option maxHeartbeats 8000000 in
theorem mok_parseNumberBody {F : Fns} (hF : FnsOk F) (d : Nat) :
    MOk (parseNumberBody F d) := by
  unfold parseNumberBody
  try simp only [pmBind_eq, pmPure_eq]
  repeat' first
    | apply hF.next
    | apply hF.nextLoop
    | exact hF.spacesRun
    | exact hF.skipSpaces
    | apply hF.lookahead
    | apply hF.consume
    | exact hF.parseComment
    | apply hF.cBlockLoop
    | apply hF.cLineLoop
    | apply hF.parseIdentifier
    | apply hF.identLoop
    | apply hF.parseNumber
    | apply hF.numLoop
    | exact hF.parseEscape
    | apply hF.parseString
    | apply hF.strLoop
    | exact hF.parseLiteral
    | apply hF.commaExprGo
    | apply hF.idxGo
    | exact hF.parseUnary
    | exact hF.scanBinaryOperator
    | apply hF.parseBinary
    | apply hF.binOuter
    | apply hF.binInner
    | apply hF.parseExpression
    | exact hF.declarationIncoming
    | apply hF.parseDeclaration
    | apply hF.modsLoop
    | apply hF.parseDefinition
    | apply hF.bracketGo
    | exact hF.parseParameters
    | apply hF.paramsGo
    | apply hF.parseFunction
    | apply hF.parseBody
    | apply hF.blockGo
    | exact hF.parseStatement
    | exact hF.parseInclude
    | apply hF.incLoop1
    | apply hF.incLoop2
    | exact hF.parsePredefine
    | exact hF.parse
    | apply hF.parseGo
    | apply mok_lookGo hF.next
    | apply mok_consumeGo hF.next
    | apply mok_scanGo hF.lookahead
    | apply mok_declIncGo hF.lookahead
    | apply mok_modsPass hF.lookahead
    | apply mok_namesGo hF.lookahead
    | apply mok_flushComments
    | apply mok_flushCommentsJ
    | exact mok_getS
    | exact mok_modify advance1_line_le
    | exact mok_modify (fun st2 => Nat.le_refl st2.lineNumber)
    | apply mok_unexpected
    | exact mok_throwStruct
    | exact mok_throwEnum
    | apply mok_pure
    | apply mok_ite
    | apply mok_bind
    | split
    | intro h2


set_option maxHeartbeats 2000000 in
theorem mok_numLoopBody {F : Fns} (hF : FnsOk F) (d : Nat) (v : List Char) (t : String) :
    MOk (numLoopBody F d v t) := by
  unfold numLoopBody
  try simp only [pmBind_eq, pmPure_eq]
  repeat' first
    | apply hF.next
    | apply hF.nextLoop
    | exact hF.spacesRun
    | exact hF.skipSpaces
    | apply hF.lookahead
    | apply hF.consume
    | exact hF.parseComment
    | apply hF.cBlockLoop
    | apply hF.cLineLoop
    | apply hF.parseIdentifier
    | apply hF.identLoop
    | apply hF.parseNumber
    | apply hF.numLoop
    | exact hF.parseEscape
    | apply hF.parseString
    | apply hF.strLoop
    | exact hF.parseLiteral
    | apply hF.commaExprGo
    | apply hF.idxGo
    | exact hF.parseUnary
    | exact hF.scanBinaryOperator
    | apply hF.parseBinary
    | apply hF.binOuter
    | apply hF.binInner
    | apply hF.parseExpression
    | exact hF.declarationIncoming
    | apply hF.parseDeclaration
    | apply hF.modsLoop
    | apply hF.parseDefinition
    | apply hF.bracketGo
    | exact hF.parseParameters
    | apply hF.paramsGo
    | apply hF.parseFunction
    | apply hF.parseBody
    | apply hF.blockGo
    | exact hF.parseStatement
    | exact hF.parseInclude
    | apply hF.incLoop1
    | apply hF.incLoop2
    | exact hF.parsePredefine
    | exact hF.parse
    | apply hF.parseGo
    | apply mok_lookGo hF.next
    | apply mok_consumeGo hF.next
    | apply mok_scanGo hF.lookahead
    | apply mok_declIncGo hF.lookahead
    | apply mok_modsPass hF.lookahead
    | apply mok_namesGo hF.lookahead
    | apply mok_flushComments
    | apply mok_flushCommentsJ
    | exact mok_getS
    | exact mok_modify advance1_line_le
    | exact mok_modify (fun st2 => Nat.le_refl st2.lineNumber)
    | apply mok_unexpected
    | exact mok_throwStruct
    | exact mok_throwEnum
    | apply mok_pure
    | apply mok_ite
    | apply mok_bind
    | split
    | intro h2


set_option maxHeartbeats 2000000 in
theorem mok_parseEscapeBody {F : Fns} (hF : FnsOk F) :
    MOk (parseEscapeBody F) := by
  unfold parseEscapeBody
  try simp only [pmBind_eq, pmPure_eq]
  repeat' first
    | apply hF.next
    | apply hF.nextLoop
    | exact hF.spacesRun
    | exact hF.skipSpaces
    | apply hF.lookahead
    | apply hF.consume
    | exact hF.parseComment
    | apply hF.cBlockLoop
    | apply hF.cLineLoop
    | apply hF.parseIdentifier
    | apply hF.identLoop
    | apply hF.parseNumber
    | apply hF.numLoop
    | exact hF.parseEscape
    | apply hF.parseString
    | apply hF.strLoop
    | exact hF.parseLiteral
    | apply hF.commaExprGo
    | apply hF.idxGo
    | exact hF.parseUnary
    | exact hF.scanBinaryOperator
    | apply hF.parseBinary
    | apply hF.binOuter
    | apply hF.binInner
    | apply hF.parseExpression
    | exact hF.declarationIncoming
    | apply hF.parseDeclaration
    | apply hF.modsLoop
    | apply hF.parseDefinition
    | apply hF.bracketGo
    | exact hF.parseParameters
    | apply hF.paramsGo
    | apply hF.parseFunction
    | apply hF.parseBody
    | apply hF.blockGo
    | exact hF.parseStatement
    | exact hF.parseInclude
    | apply hF.incLoop1
    | apply hF.incLoop2
    | exact hF.parsePredefine
    | exact hF.parse
    | apply hF.parseGo
    | apply mok_lookGo hF.next
    | apply mok_consumeGo hF.next
    | apply mok_scanGo hF.lookahead
    | apply mok_declIncGo hF.lookahead
    | apply mok_modsPass hF.lookahead
    | apply mok_namesGo hF.lookahead
    | apply mok_flushComments
    | apply mok_flushCommentsJ
    | exact mok_getS
    | exact mok_modify advance1_line_le
    | exact mok_modify (fun st2 => Nat.le_refl st2.lineNumber)
    | apply mok_unexpected
    | exact mok_throwStruct
    | exact mok_throwEnum
    | apply mok_pure
    | apply mok_ite
    | apply mok_bind
    | split
    | intro h2


set_option maxHeartbeats 2000000 in
theorem mok_parseStringBody {F : Fns} (hF : FnsOk F) (k : Bool) :
    MOk (parseStringBody F k) := by
  unfold parseStringBody
  try simp only [pmBind_eq, pmPure_eq]
  repeat' first
    | apply hF.next
    | apply hF.nextLoop
    | exact hF.spacesRun
    | exact hF.skipSpaces
    | apply hF.lookahead
    | apply hF.consume
    | exact hF.parseComment
    | apply hF.cBlockLoop
    | apply hF.cLineLoop
    | apply hF.parseIdentifier
    | apply hF.identLoop
    | apply hF.parseNumber
    | apply hF.numLoop
    | exact hF.parseEscape
    | apply hF.parseString
    | apply hF.strLoop
    | exact hF.parseLiteral
    | apply hF.commaExprGo
    | apply hF.idxGo
    | exact hF.parseUnary
    | exact hF.scanBinaryOperator
    | apply hF.parseBinary
    | apply hF.binOuter
    | apply hF.binInner
    | apply hF.parseExpression
    | exact hF.declarationIncoming
    | apply hF.parseDeclaration
    | apply hF.modsLoop
    | apply hF.parseDefinition
    | apply hF.bracketGo
    | exact hF.parseParameters
    | apply hF.paramsGo
    | apply hF.parseFunction
    | apply hF.parseBody
    | apply hF.blockGo
    | exact hF.parseStatement
    | exact hF.parseInclude
    | apply hF.incLoop1
    | apply hF.incLoop2
    | exact hF.parsePredefine
    | exact hF.parse
    | apply hF.parseGo
    | apply mok_lookGo hF.next
    | apply mok_consumeGo hF.next
    | apply mok_scanGo hF.lookahead
    | apply mok_declIncGo hF.lookahead
    | apply mok_modsPass hF.lookahead
    | apply mok_namesGo hF.lookahead
    | apply mok_flushComments
    | apply mok_flushCommentsJ
    | exact mok_getS
    | exact mok_modify advance1_line_le
    | exact mok_modify (fun st2 => Nat.le_refl st2.lineNumber)
    | apply mok_unexpected
    | exact mok_throwStruct
    | exact mok_throwEnum
    | apply mok_pure
    | apply mok_ite
    | apply mok_bind
    | split
    | intro h2


set_option maxHeartbeats 2000000 in
theorem mok_strLoopBody {F : Fns} (hF : FnsOk F) (a : List Char) :
    MOk (strLoopBody F a) := by
  unfold strLoopBody
  try simp only [pmBind_eq, pmPure_eq]
  repeat' first
    | apply hF.next
    | apply hF.nextLoop
    | exact hF.spacesRun
    | exact hF.skipSpaces
    | apply hF.lookahead
    | apply hF.consume
    | exact hF.parseComment
    | apply hF.cBlockLoop
    | apply hF.cLineLoop
    | apply hF.parseIdentifier
    | apply hF.identLoop
    | apply hF.parseNumber
    | apply hF.numLoop
    | exact hF.parseEscape
    | apply hF.parseString
    | apply hF.strLoop
    | exact hF.parseLiteral
    | apply hF.commaExprGo
    | apply hF.idxGo
    | exact hF.parseUnary
    | exact hF.scanBinaryOperator
    | apply hF.parseBinary
    | apply hF.binOuter
    | apply hF.binInner
    | apply hF.parseExpression
    | exact hF.declarationIncoming
    | apply hF.parseDeclaration
    | apply hF.modsLoop
    | apply hF.parseDefinition
    | apply hF.bracketGo
    | exact hF.parseParameters
    | apply hF.paramsGo
    | apply hF.parseFunction
    | apply hF.parseBody
    | apply hF.blockGo
    | exact hF.parseStatement
    | exact hF.parseInclude
    | apply hF.incLoop1
    | apply hF.incLoop2
    | exact hF.parsePredefine
    | exact hF.parse
    | apply hF.parseGo
    | apply mok_lookGo hF.next
    | apply mok_consumeGo hF.next
    | apply mok_scanGo hF.lookahead
    | apply mok_declIncGo hF.lookahead
    | apply mok_modsPass hF.lookahead
    | apply mok_namesGo hF.lookahead
    | apply mok_flushComments
    | apply mok_flushCommentsJ
    | exact mok_getS
    | exact mok_modify advance1_line_le
    | exact mok_modify (fun st2 => Nat.le_refl st2.lineNumber)
    | apply mok_unexpected
    | exact mok_throwStruct
    | exact mok_throwEnum
    | apply mok_pure
    | apply mok_ite
    | apply mok_bind
    | split
    | intro h2


set_option maxHeartbeats 2000000 in
theorem mok_parseLiteralBody {F : Fns} (hF : FnsOk F) :
    MOk (parseLiteralBody F) := by
  unfold parseLiteralBody
  try simp only [pmBind_eq, pmPure_eq]
  repeat' first
    | apply hF.next
    | apply hF.nextLoop
    | exact hF.spacesRun
    | exact hF.skipSpaces
    | apply hF.lookahead
    | apply hF.consume
    | exact hF.parseComment
    | apply hF.cBlockLoop
    | apply hF.cLineLoop
    | apply hF.parseIdentifier
    | apply hF.identLoop
    | apply hF.parseNumber
    | apply hF.numLoop
    | exact hF.parseEscape
    | apply hF.parseString
    | apply hF.strLoop
    | exact hF.parseLiteral
    | apply hF.commaExprGo
    | apply hF.idxGo
    | exact hF.parseUnary
    | exact hF.scanBinaryOperator
    | apply hF.parseBinary
    | apply hF.binOuter
    | apply hF.binInner
    | apply hF.parseExpression
    | exact hF.declarationIncoming
    | apply hF.parseDeclaration
    | apply hF.modsLoop
    | apply hF.parseDefinition
    | apply hF.bracketGo
    | exact hF.parseParameters
    | apply hF.paramsGo
    | apply hF.parseFunction
    | apply hF.parseBody
    | apply hF.blockGo
    | exact hF.parseStatement
    | exact hF.parseInclude
    | apply hF.incLoop1
    | apply hF.incLoop2
    | exact hF.parsePredefine
    | exact hF.parse
    | apply hF.parseGo
    | apply mok_lookGo hF.next
    | apply mok_consumeGo hF.next
    | apply mok_scanGo hF.lookahead
    | apply mok_declIncGo hF.lookahead
    | apply mok_modsPass hF.lookahead
    | apply mok_namesGo hF.lookahead
    | apply mok_flushComments
    | apply mok_flushCommentsJ
    | exact mok_getS
    | exact mok_modify advance1_line_le
    | exact mok_modify (fun st2 => Nat.le_refl st2.lineNumber)
    | apply mok_unexpected
    | exact mok_throwStruct
    | exact mok_throwEnum
    | apply mok_pure
    | apply mok_ite
    | apply mok_bind
    | split
    | intro h2


set_option maxHeartbeats 2000000 in
theorem mok_commaExprGoBody {F : Fns} (hF : FnsOk F) (a : J) :
    MOk (commaExprGoBody F a) := by
  unfold commaExprGoBody
  try simp only [pmBind_eq, pmPure_eq]
  repeat' first
    | apply hF.next
    | apply hF.nextLoop
    | exact hF.spacesRun
    | exact hF.skipSpaces
    | apply hF.lookahead
    | apply hF.consume
    | exact hF.parseComment
    | apply hF.cBlockLoop
    | apply hF.cLineLoop
    | apply hF.parseIdentifier
    | apply hF.identLoop
    | apply hF.parseNumber
    | apply hF.numLoop
    | exact hF.parseEscape
    | apply hF.parseString
    | apply hF.strLoop
    | exact hF.parseLiteral
    | apply hF.commaExprGo
    | apply hF.idxGo
    | exact hF.parseUnary
    | exact hF.scanBinaryOperator
    | apply hF.parseBinary
    | apply hF.binOuter
    | apply hF.binInner
    | apply hF.parseExpression
    | exact hF.declarationIncoming
    | apply hF.parseDeclaration
    | apply hF.modsLoop
    | apply hF.parseDefinition
    | apply hF.bracketGo
    | exact hF.parseParameters
    | apply hF.paramsGo
    | apply hF.parseFunction
    | apply hF.parseBody
    | apply hF.blockGo
    | exact hF.parseStatement
    | exact hF.parseInclude
    | apply hF.incLoop1
    | apply hF.incLoop2
    | exact hF.parsePredefine
    | exact hF.parse
    | apply hF.parseGo
    | apply mok_lookGo hF.next
    | apply mok_consumeGo hF.next
    | apply mok_scanGo hF.lookahead
    | apply mok_declIncGo hF.lookahead
    | apply mok_modsPass hF.lookahead
    | apply mok_namesGo hF.lookahead
    | apply mok_flushComments
    | apply mok_flushCommentsJ
    | exact mok_getS
    | exact mok_modify advance1_line_le
    | exact mok_modify (fun st2 => Nat.le_refl st2.lineNumber)
    | apply mok_unexpected
    | exact mok_throwStruct
    | exact mok_throwEnum
    | apply mok_pure
    | apply mok_ite
    | apply mok_bind
    | split
    | intro h2


set_option maxHeartbeats 2000000 in
theorem mok_idxGoBody {F : Fns} (hF : FnsOk F) (a : J) :
    MOk (idxGoBody F a) := by
  unfold idxGoBody
  try simp only [pmBind_eq, pmPure_eq]
  repeat' first
    | apply hF.next
    | apply hF.nextLoop
    | exact hF.spacesRun
    | exact hF.skipSpaces
    | apply hF.lookahead
    | apply hF.consume
    | exact hF.parseComment
    | apply hF.cBlockLoop
    | apply hF.cLineLoop
    | apply hF.parseIdentifier
    | apply hF.identLoop
    | apply hF.parseNumber
    | apply hF.numLoop
    | exact hF.parseEscape
    | apply hF.parseString
    | apply hF.strLoop
    | exact hF.parseLiteral
    | apply hF.commaExprGo
    | apply hF.idxGo
    | exact hF.parseUnary
    | exact hF.scanBinaryOperator
    | apply hF.parseBinary
    | apply hF.binOuter
    | apply hF.binInner
    | apply hF.parseExpression
    | exact hF.declarationIncoming
    | apply hF.parseDeclaration
    | apply hF.modsLoop
    | apply hF.parseDefinition
    | apply hF.bracketGo
    | exact hF.parseParameters
    | apply hF.paramsGo
    | apply hF.parseFunction
    | apply hF.parseBody
    | apply hF.blockGo
    | exact hF.parseStatement
    | exact hF.parseInclude
    | apply hF.incLoop1
    | apply hF.incLoop2
    | exact hF.parsePredefine
    | exact hF.parse
    | apply hF.parseGo
    | apply mok_lookGo hF.next
    | apply mok_consumeGo hF.next
    | apply mok_scanGo hF.lookahead
    | apply mok_declIncGo hF.lookahead
    | apply mok_modsPass hF.lookahead
    | apply mok_namesGo hF.lookahead
    | apply mok_flushComments
    | apply mok_flushCommentsJ
    | exact mok_getS
    | exact mok_modify advance1_line_le
    | exact mok_modify (fun st2 => Nat.le_refl st2.lineNumber)
    | apply mok_unexpected
    | exact mok_throwStruct
    | exact mok_throwEnum
    | apply mok_pure
    | apply mok_ite
    | apply mok_bind
    | split
    | intro h2


set_option maxHeartbeats 2000000 in
theorem mok_parseUnaryBody {F : Fns} (hF : FnsOk F) :
    MOk (parseUnaryBody F) := by
  unfold parseUnaryBody
  try simp only [pmBind_eq, pmPure_eq]
  repeat' first
    | apply hF.next
    | apply hF.nextLoop
    | exact hF.spacesRun
    | exact hF.skipSpaces
    | apply hF.lookahead
    | apply hF.consume
    | exact hF.parseComment
    | apply hF.cBlockLoop
    | apply hF.cLineLoop
    | apply hF.parseIdentifier
    | apply hF.identLoop
    | apply hF.parseNumber
    | apply hF.numLoop
    | exact hF.parseEscape
    | apply hF.parseString
    | apply hF.strLoop
    | exact hF.parseLiteral
    | apply hF.commaExprGo
    | apply hF.idxGo
    | exact hF.parseUnary
    | exact hF.scanBinaryOperator
    | apply hF.parseBinary
    | apply hF.binOuter
    | apply hF.binInner
    | apply hF.parseExpression
    | exact hF.declarationIncoming
    | apply hF.parseDeclaration
    | apply hF.modsLoop
    | apply hF.parseDefinition
    | apply hF.bracketGo
    | exact hF.parseParameters
    | apply hF.paramsGo
    | apply hF.parseFunction
    | apply hF.parseBody
    | apply hF.blockGo
    | exact hF.parseStatement
    | exact hF.parseInclude
    | apply hF.incLoop1
    | apply hF.incLoop2
    | exact hF.parsePredefine
    | exact hF.parse
    | apply hF.parseGo
    | apply mok_lookGo hF.next
    | apply mok_consumeGo hF.next
    | apply mok_scanGo hF.lookahead
    | apply mok_declIncGo hF.lookahead
    | apply mok_modsPass hF.lookahead
    | apply mok_namesGo hF.lookahead
    | apply mok_flushComments
    | apply mok_flushCommentsJ
    | exact mok_getS
    | exact mok_modify advance1_line_le
    | exact mok_modify (fun st2 => Nat.le_refl st2.lineNumber)
    | apply mok_unexpected
    | exact mok_throwStruct
    | exact mok_throwEnum
    | apply mok_pure
    | apply mok_ite
    | apply mok_bind
    | split
    | intro h2


set_option maxHeartbeats 2000000 in
theorem mok_scanBinaryOperatorBody {F : Fns} (hF : FnsOk F) :
    MOk (scanBinaryOperatorBody F) := by
  unfold scanBinaryOperatorBody
  try simp only [pmBind_eq, pmPure_eq]
  repeat' first
    | apply hF.next
    | apply hF.nextLoop
    | exact hF.spacesRun
    | exact hF.skipSpaces
    | apply hF.lookahead
    | apply hF.consume
    | exact hF.parseComment
    | apply hF.cBlockLoop
    | apply hF.cLineLoop
    | apply hF.parseIdentifier
    | apply hF.identLoop
    | apply hF.parseNumber
    | apply hF.numLoop
    | exact hF.parseEscape
    | apply hF.parseString
    | apply hF.strLoop
    | exact hF.parseLiteral
    | apply hF.commaExprGo
    | apply hF.idxGo
    | exact hF.parseUnary
    | exact hF.scanBinaryOperator
    | apply hF.parseBinary
    | apply hF.binOuter
    | apply hF.binInner
    | apply hF.parseExpression
    | exact hF.declarationIncoming
    | apply hF.parseDeclaration
    | apply hF.modsLoop
    | apply hF.parseDefinition
    | apply hF.bracketGo
    | exact hF.parseParameters
    | apply hF.paramsGo
    | apply hF.parseFunction
    | apply hF.parseBody
    | apply hF.blockGo
    | exact hF.parseStatement
    | exact hF.parseInclude
    | apply hF.incLoop1
    | apply hF.incLoop2
    | exact hF.parsePredefine
    | exact hF.parse
    | apply hF.parseGo
    | apply mok_lookGo hF.next
    | apply mok_consumeGo hF.next
    | apply mok_scanGo hF.lookahead
    | apply mok_declIncGo hF.lookahead
    | apply mok_modsPass hF.lookahead
    | apply mok_namesGo hF.lookahead
    | apply mok_flushComments
    | apply mok_flushCommentsJ
    | exact mok_getS
    | exact mok_modify advance1_line_le
    | exact mok_modify (fun st2 => Nat.le_refl st2.lineNumber)
    | apply mok_unexpected
    | exact mok_throwStruct
    | exact mok_throwEnum
    | apply mok_pure
    | apply mok_ite
    | apply mok_bind
    | split
    | intro h2


set_option maxHeartbeats 2000000 in
theorem mok_parseBinaryBody {F : Fns} (hF : FnsOk F) (l : J) (p : Nat) :
    MOk (parseBinaryBody F l p) := by
  unfold parseBinaryBody
  try simp only [pmBind_eq, pmPure_eq]
  repeat' first
    | apply hF.next
    | apply hF.nextLoop
    | exact hF.spacesRun
    | exact hF.skipSpaces
    | apply hF.lookahead
    | apply hF.consume
    | exact hF.parseComment
    | apply hF.cBlockLoop
    | apply hF.cLineLoop
    | apply hF.parseIdentifier
    | apply hF.identLoop
    | apply hF.parseNumber
    | apply hF.numLoop
    | exact hF.parseEscape
    | apply hF.parseString
    | apply hF.strLoop
    | exact hF.parseLiteral
    | apply hF.commaExprGo
    | apply hF.idxGo
    | exact hF.parseUnary
    | exact hF.scanBinaryOperator
    | apply hF.parseBinary
    | apply hF.binOuter
    | apply hF.binInner
    | apply hF.parseExpression
    | exact hF.declarationIncoming
    | apply hF.parseDeclaration
    | apply hF.modsLoop
    | apply hF.parseDefinition
    | apply hF.bracketGo
    | exact hF.parseParameters
    | apply hF.paramsGo
    | apply hF.parseFunction
    | apply hF.parseBody
    | apply hF.blockGo
    | exact hF.parseStatement
    | exact hF.parseInclude
    | apply hF.incLoop1
    | apply hF.incLoop2
    | exact hF.parsePredefine
    | exact hF.parse
    | apply hF.parseGo
    | apply mok_lookGo hF.next
    | apply mok_consumeGo hF.next
    | apply mok_scanGo hF.lookahead
    | apply mok_declIncGo hF.lookahead
    | apply mok_modsPass hF.lookahead
    | apply mok_namesGo hF.lookahead
    | apply mok_flushComments
    | apply mok_flushCommentsJ
    | exact mok_getS
    | exact mok_modify advance1_line_le
    | exact mok_modify (fun st2 => Nat.le_refl st2.lineNumber)
    | apply mok_unexpected
    | exact mok_throwStruct
    | exact mok_throwEnum
    | apply mok_pure
    | apply mok_ite
    | apply mok_bind
    | split
    | intro h2


set_option maxHeartbeats 2000000 in
theorem mok_binOuterBody {F : Fns} (hF : FnsOk F) (l : J) (p : Nat) (a : String) :
    MOk (binOuterBody F l p a) := by
  unfold binOuterBody
  try simp only [pmBind_eq, pmPure_eq]
  repeat' first
    | apply hF.next
    | apply hF.nextLoop
    | exact hF.spacesRun
    | exact hF.skipSpaces
    | apply hF.lookahead
    | apply hF.consume
    | exact hF.parseComment
    | apply hF.cBlockLoop
    | apply hF.cLineLoop
    | apply hF.parseIdentifier
    | apply hF.identLoop
    | apply hF.parseNumber
    | apply hF.numLoop
    | exact hF.parseEscape
    | apply hF.parseString
    | apply hF.strLoop
    | exact hF.parseLiteral
    | apply hF.commaExprGo
    | apply hF.idxGo
    | exact hF.parseUnary
    | exact hF.scanBinaryOperator
    | apply hF.parseBinary
    | apply hF.binOuter
    | apply hF.binInner
    | apply hF.parseExpression
    | exact hF.declarationIncoming
    | apply hF.parseDeclaration
    | apply hF.modsLoop
    | apply hF.parseDefinition
    | apply hF.bracketGo
    | exact hF.parseParameters
    | apply hF.paramsGo
    | apply hF.parseFunction
    | apply hF.parseBody
    | apply hF.blockGo
    | exact hF.parseStatement
    | exact hF.parseInclude
    | apply hF.incLoop1
    | apply hF.incLoop2
    | exact hF.parsePredefine
    | exact hF.parse
    | apply hF.parseGo
    | apply mok_lookGo hF.next
    | apply mok_consumeGo hF.next
    | apply mok_scanGo hF.lookahead
    | apply mok_declIncGo hF.lookahead
    | apply mok_modsPass hF.lookahead
    | apply mok_namesGo hF.lookahead
    | apply mok_flushComments
    | apply mok_flushCommentsJ
    | exact mok_getS
    | exact mok_modify advance1_line_le
    | exact mok_modify (fun st2 => Nat.le_refl st2.lineNumber)
    | apply mok_unexpected
    | exact mok_throwStruct
    | exact mok_throwEnum
    | apply mok_pure
    | apply mok_ite
    | apply mok_bind
    | split
    | intro h2


set_option maxHeartbeats 2000000 in
theorem mok_binInnerBody {F : Fns} (hF : FnsOk F) (r : J) (o : String) (a : String) :
    MOk (binInnerBody F r o a) := by
  unfold binInnerBody
  try simp only [pmBind_eq, pmPure_eq]
  repeat' first
    | apply hF.next
    | apply hF.nextLoop
    | exact hF.spacesRun
    | exact hF.skipSpaces
    | apply hF.lookahead
    | apply hF.consume
    | exact hF.parseComment
    | apply hF.cBlockLoop
    | apply hF.cLineLoop
    | apply hF.parseIdentifier
    | apply hF.identLoop
    | apply hF.parseNumber
    | apply hF.numLoop
    | exact hF.parseEscape
    | apply hF.parseString
    | apply hF.strLoop
    | exact hF.parseLiteral
    | apply hF.commaExprGo
    | apply hF.idxGo
    | exact hF.parseUnary
    | exact hF.scanBinaryOperator
    | apply hF.parseBinary
    | apply hF.binOuter
    | apply hF.binInner
    | apply hF.parseExpression
    | exact hF.declarationIncoming
    | apply hF.parseDeclaration
    | apply hF.modsLoop
    | apply hF.parseDefinition
    | apply hF.bracketGo
    | exact hF.parseParameters
    | apply hF.paramsGo
    | apply hF.parseFunction
    | apply hF.parseBody
    | apply hF.blockGo
    | exact hF.parseStatement
    | exact hF.parseInclude
    | apply hF.incLoop1
    | apply hF.incLoop2
    | exact hF.parsePredefine
    | exact hF.parse
    | apply hF.parseGo
    | apply mok_lookGo hF.next
    | apply mok_consumeGo hF.next
    | apply mok_scanGo hF.lookahead
    | apply mok_declIncGo hF.lookahead
    | apply mok_modsPass hF.lookahead
    | apply mok_namesGo hF.lookahead
    | apply mok_flushComments
    | apply mok_flushCommentsJ
    | exact mok_getS
    | exact mok_modify advance1_line_le
    | exact mok_modify (fun st2 => Nat.le_refl st2.lineNumber)
    | apply mok_unexpected
    | exact mok_throwStruct
    | exact mok_throwEnum
    | apply mok_pure
    | apply mok_ite
    | apply mok_bind
    | split
    | intro h2


set_option maxHeartbeats 2000000 in
theorem mok_parseExpressionBody {F : Fns} (hF : FnsOk F) (e : String) :
    MOk (parseExpressionBody F e) := by
  unfold parseExpressionBody
  try simp only [pmBind_eq, pmPure_eq]
  repeat' first
    | apply hF.next
    | apply hF.nextLoop
    | exact hF.spacesRun
    | exact hF.skipSpaces
    | apply hF.lookahead
    | apply hF.consume
    | exact hF.parseComment
    | apply hF.cBlockLoop
    | apply hF.cLineLoop
    | apply hF.parseIdentifier
    | apply hF.identLoop
    | apply hF.parseNumber
    | apply hF.numLoop
    | exact hF.parseEscape
    | apply hF.parseString
    | apply hF.strLoop
    | exact hF.parseLiteral
    | apply hF.commaExprGo
    | apply hF.idxGo
    | exact hF.parseUnary
    | exact hF.scanBinaryOperator
    | apply hF.parseBinary
    | apply hF.binOuter
    | apply hF.binInner
    | apply hF.parseExpression
    | exact hF.declarationIncoming
    | apply hF.parseDeclaration
    | apply hF.modsLoop
    | apply hF.parseDefinition
    | apply hF.bracketGo
    | exact hF.parseParameters
    | apply hF.paramsGo
    | apply hF.parseFunction
    | apply hF.parseBody
    | apply hF.blockGo
    | exact hF.parseStatement
    | exact hF.parseInclude
    | apply hF.incLoop1
    | apply hF.incLoop2
    | exact hF.parsePredefine
    | exact hF.parse
    | apply hF.parseGo
    | apply mok_lookGo hF.next
    | apply mok_consumeGo hF.next
    | apply mok_scanGo hF.lookahead
    | apply mok_declIncGo hF.lookahead
    | apply mok_modsPass hF.lookahead
    | apply mok_namesGo hF.lookahead
    | apply mok_flushComments
    | apply mok_flushCommentsJ
    | exact mok_getS
    | exact mok_modify advance1_line_le
    | exact mok_modify (fun st2 => Nat.le_refl st2.lineNumber)
    | apply mok_unexpected
    | exact mok_throwStruct
    | exact mok_throwEnum
    | apply mok_pure
    | apply mok_ite
    | apply mok_bind
    | split
    | intro h2


set_option maxHeartbeats 2000000 in
theorem mok_declarationIncomingBody {F : Fns} (hF : FnsOk F) :
    MOk (declarationIncomingBody F) := by
  unfold declarationIncomingBody
  try simp only [pmBind_eq, pmPure_eq]
  repeat' first
    | apply hF.next
    | apply hF.nextLoop
    | exact hF.spacesRun
    | exact hF.skipSpaces
    | apply hF.lookahead
    | apply hF.consume
    | exact hF.parseComment
    | apply hF.cBlockLoop
    | apply hF.cLineLoop
    | apply hF.parseIdentifier
    | apply hF.identLoop
    | apply hF.parseNumber
    | apply hF.numLoop
    | exact hF.parseEscape
    | apply hF.parseString
    | apply hF.strLoop
    | exact hF.parseLiteral
    | apply hF.commaExprGo
    | apply hF.idxGo
    | exact hF.parseUnary
    | exact hF.scanBinaryOperator
    | apply hF.parseBinary
    | apply hF.binOuter
    | apply hF.binInner
    | apply hF.parseExpression
    | exact hF.declarationIncoming
    | apply hF.parseDeclaration
    | apply hF.modsLoop
    | apply hF.parseDefinition
    | apply hF.bracketGo
    | exact hF.parseParameters
    | apply hF.paramsGo
    | apply hF.parseFunction
    | apply hF.parseBody
    | apply hF.blockGo
    | exact hF.parseStatement
    | exact hF.parseInclude
    | apply hF.incLoop1
    | apply hF.incLoop2
    | exact hF.parsePredefine
    | exact hF.parse
    | apply hF.parseGo
    | apply mok_lookGo hF.next
    | apply mok_consumeGo hF.next
    | apply mok_scanGo hF.lookahead
    | apply mok_declIncGo hF.lookahead
    | apply mok_modsPass hF.lookahead
    | apply mok_namesGo hF.lookahead
    | apply mok_flushComments
    | apply mok_flushCommentsJ
    | exact mok_getS
    | exact mok_modify advance1_line_le
    | exact mok_modify (fun st2 => Nat.le_refl st2.lineNumber)
    | apply mok_unexpected
    | exact mok_throwStruct
    | exact mok_throwEnum
    | apply mok_pure
    | apply mok_ite
    | apply mok_bind
    | split
    | intro h2


set_option maxHeartbeats 2000000 in
theorem mok_parseDeclarationBody {F : Fns} (hF : FnsOk F) (k : String) :
    MOk (parseDeclarationBody F k) := by
  unfold parseDeclarationBody
  try simp only [pmBind_eq, pmPure_eq]
  repeat' first
    | apply hF.next
    | apply hF.nextLoop
    | exact hF.spacesRun
    | exact hF.skipSpaces
    | apply hF.lookahead
    | apply hF.consume
    | exact hF.parseComment
    | apply hF.cBlockLoop
    | apply hF.cLineLoop
    | apply hF.parseIdentifier
    | apply hF.identLoop
    | apply hF.parseNumber
    | apply hF.numLoop
    | exact hF.parseEscape
    | apply hF.parseString
    | apply hF.strLoop
    | exact hF.parseLiteral
    | apply hF.commaExprGo
    | apply hF.idxGo
    | exact hF.parseUnary
    | exact hF.scanBinaryOperator
    | apply hF.parseBinary
    | apply hF.binOuter
    | apply hF.binInner
    | apply hF.parseExpression
    | exact hF.declarationIncoming
    | apply hF.parseDeclaration
    | apply hF.modsLoop
    | apply hF.parseDefinition
    | apply hF.bracketGo
    | exact hF.parseParameters
    | apply hF.paramsGo
    | apply hF.parseFunction
    | apply hF.parseBody
    | apply hF.blockGo
    | exact hF.parseStatement
    | exact hF.parseInclude
    | apply hF.incLoop1
    | apply hF.incLoop2
    | exact hF.parsePredefine
    | exact hF.parse
    | apply hF.parseGo
    | apply mok_lookGo hF.next
    | apply mok_consumeGo hF.next
    | apply mok_scanGo hF.lookahead
    | apply mok_declIncGo hF.lookahead
    | apply mok_modsPass hF.lookahead
    | apply mok_namesGo hF.lookahead
    | apply mok_flushComments
    | apply mok_flushCommentsJ
    | exact mok_getS
    | exact mok_modify advance1_line_le
    | exact mok_modify (fun st2 => Nat.le_refl st2.lineNumber)
    | apply mok_unexpected
    | exact mok_throwStruct
    | exact mok_throwEnum
    | apply mok_pure
    | apply mok_ite
    | apply mok_bind
    | split
    | intro h2


set_option maxHeartbeats 2000000 in
theorem mok_modsLoopBody {F : Fns} (hF : FnsOk F) (m : List String) :
    MOk (modsLoopBody F m) := by
  unfold modsLoopBody
  try simp only [pmBind_eq, pmPure_eq]
  repeat' first
    | apply hF.next
    | apply hF.nextLoop
    | exact hF.spacesRun
    | exact hF.skipSpaces
    | apply hF.lookahead
    | apply hF.consume
    | exact hF.parseComment
    | apply hF.cBlockLoop
    | apply hF.cLineLoop
    | apply hF.parseIdentifier
    | apply hF.identLoop
    | apply hF.parseNumber
    | apply hF.numLoop
    | exact hF.parseEscape
    | apply hF.parseString
    | apply hF.strLoop
    | exact hF.parseLiteral
    | apply hF.commaExprGo
    | apply hF.idxGo
    | exact hF.parseUnary
    | exact hF.scanBinaryOperator
    | apply hF.parseBinary
    | apply hF.binOuter
    | apply hF.binInner
    | apply hF.parseExpression
    | exact hF.declarationIncoming
    | apply hF.parseDeclaration
    | apply hF.modsLoop
    | apply hF.parseDefinition
    | apply hF.bracketGo
    | exact hF.parseParameters
    | apply hF.paramsGo
    | apply hF.parseFunction
    | apply hF.parseBody
    | apply hF.blockGo
    | exact hF.parseStatement
    | exact hF.parseInclude
    | apply hF.incLoop1
    | apply hF.incLoop2
    | exact hF.parsePredefine
    | exact hF.parse
    | apply hF.parseGo
    | apply mok_lookGo hF.next
    | apply mok_consumeGo hF.next
    | apply mok_scanGo hF.lookahead
    | apply mok_declIncGo hF.lookahead
    | apply mok_modsPass hF.lookahead
    | apply mok_namesGo hF.lookahead
    | apply mok_flushComments
    | apply mok_flushCommentsJ
    | exact mok_getS
    | exact mok_modify advance1_line_le
    | exact mok_modify (fun st2 => Nat.le_refl st2.lineNumber)
    | apply mok_unexpected
    | exact mok_throwStruct
    | exact mok_throwEnum
    | apply mok_pure
    | apply mok_ite
    | apply mok_bind
    | split
    | intro h2


set_option maxHeartbeats 2000000 in
theorem mok_parseDefinitionBody {F : Fns} (hF : FnsOk F) (d : Decl) (g : Bool) :
    MOk (parseDefinitionBody F d g) := by
  unfold parseDefinitionBody
  try simp only [pmBind_eq, pmPure_eq]
  repeat' first
    | apply hF.next
    | apply hF.nextLoop
    | exact hF.spacesRun
    | exact hF.skipSpaces
    | apply hF.lookahead
    | apply hF.consume
    | exact hF.parseComment
    | apply hF.cBlockLoop
    | apply hF.cLineLoop
    | apply hF.parseIdentifier
    | apply hF.identLoop
    | apply hF.parseNumber
    | apply hF.numLoop
    | exact hF.parseEscape
    | apply hF.parseString
    | apply hF.strLoop
    | exact hF.parseLiteral
    | apply hF.commaExprGo
    | apply hF.idxGo
    | exact hF.parseUnary
    | exact hF.scanBinaryOperator
    | apply hF.parseBinary
    | apply hF.binOuter
    | apply hF.binInner
    | apply hF.parseExpression
    | exact hF.declarationIncoming
    | apply hF.parseDeclaration
    | apply hF.modsLoop
    | apply hF.parseDefinition
    | apply hF.bracketGo
    | exact hF.parseParameters
    | apply hF.paramsGo
    | apply hF.parseFunction
    | apply hF.parseBody
    | apply hF.blockGo
    | exact hF.parseStatement
    | exact hF.parseInclude
    | apply hF.incLoop1
    | apply hF.incLoop2
    | exact hF.parsePredefine
    | exact hF.parse
    | apply hF.parseGo
    | apply mok_lookGo hF.next
    | apply mok_consumeGo hF.next
    | apply mok_scanGo hF.lookahead
    | apply mok_declIncGo hF.lookahead
    | apply mok_modsPass hF.lookahead
    | apply mok_namesGo hF.lookahead
    | apply mok_flushComments
    | apply mok_flushCommentsJ
    | exact mok_getS
    | exact mok_modify advance1_line_le
    | exact mok_modify (fun st2 => Nat.le_refl st2.lineNumber)
    | apply mok_unexpected
    | exact mok_throwStruct
    | exact mok_throwEnum
    | apply mok_pure
    | apply mok_ite
    | apply mok_bind
    | split
    | intro h2


set_option maxHeartbeats 2000000 in
theorem mok_bracketGoBody {F : Fns} (hF : FnsOk F) (l : J) (a : Bool) :
    MOk (bracketGoBody F l a) := by
  unfold bracketGoBody
  try simp only [pmBind_eq, pmPure_eq]
  repeat' first
    | apply hF.next
    | apply hF.nextLoop
    | exact hF.spacesRun
    | exact hF.skipSpaces
    | apply hF.lookahead
    | apply hF.consume
    | exact hF.parseComment
    | apply hF.cBlockLoop
    | apply hF.cLineLoop
    | apply hF.parseIdentifier
    | apply hF.identLoop
    | apply hF.parseNumber
    | apply hF.numLoop
    | exact hF.parseEscape
    | apply hF.parseString
    | apply hF.strLoop
    | exact hF.parseLiteral
    | apply hF.commaExprGo
    | apply hF.idxGo
    | exact hF.parseUnary
    | exact hF.scanBinaryOperator
    | apply hF.parseBinary
    | apply hF.binOuter
    | apply hF.binInner
    | apply hF.parseExpression
    | exact hF.declarationIncoming
    | apply hF.parseDeclaration
    | apply hF.modsLoop
    | apply hF.parseDefinition
    | apply hF.bracketGo
    | exact hF.parseParameters
    | apply hF.paramsGo
    | apply hF.parseFunction
    | apply hF.parseBody
    | apply hF.blockGo
    | exact hF.parseStatement
    | exact hF.parseInclude
    | apply hF.incLoop1
    | apply hF.incLoop2
    | exact hF.parsePredefine
    | exact hF.parse
    | apply hF.parseGo
    | apply mok_lookGo hF.next
    | apply mok_consumeGo hF.next
    | apply mok_scanGo hF.lookahead
    | apply mok_declIncGo hF.lookahead
    | apply mok_modsPass hF.lookahead
    | apply mok_namesGo hF.lookahead
    | apply mok_flushComments
    | apply mok_flushCommentsJ
    | exact mok_getS
    | exact mok_modify advance1_line_le
    | exact mok_modify (fun st2 => Nat.le_refl st2.lineNumber)
    | apply mok_unexpected
    | exact mok_throwStruct
    | exact mok_throwEnum
    | apply mok_pure
    | apply mok_ite
    | apply mok_bind
    | split
    | intro h2


set_option maxHeartbeats 2000000 in
theorem mok_parseParametersBody {F : Fns} (hF : FnsOk F) :
    MOk (parseParametersBody F) := by
  unfold parseParametersBody
  try simp only [pmBind_eq, pmPure_eq]
  repeat' first
    | apply hF.next
    | apply hF.nextLoop
    | exact hF.spacesRun
    | exact hF.skipSpaces
    | apply hF.lookahead
    | apply hF.consume
    | exact hF.parseComment
    | apply hF.cBlockLoop
    | apply hF.cLineLoop
    | apply hF.parseIdentifier
    | apply hF.identLoop
    | apply hF.parseNumber
    | apply hF.numLoop
    | exact hF.parseEscape
    | apply hF.parseString
    | apply hF.strLoop
    | exact hF.parseLiteral
    | apply hF.commaExprGo
    | apply hF.idxGo
    | exact hF.parseUnary
    | exact hF.scanBinaryOperator
    | apply hF.parseBinary
    | apply hF.binOuter
    | apply hF.binInner
    | apply hF.parseExpression
    | exact hF.declarationIncoming
    | apply hF.parseDeclaration
    | apply hF.modsLoop
    | apply hF.parseDefinition
    | apply hF.bracketGo
    | exact hF.parseParameters
    | apply hF.paramsGo
    | apply hF.parseFunction
    | apply hF.parseBody
    | apply hF.blockGo
    | exact hF.parseStatement
    | exact hF.parseInclude
    | apply hF.incLoop1
    | apply hF.incLoop2
    | exact hF.parsePredefine
    | exact hF.parse
    | apply hF.parseGo
    | apply mok_lookGo hF.next
    | apply mok_consumeGo hF.next
    | apply mok_scanGo hF.lookahead
    | apply mok_declIncGo hF.lookahead
    | apply mok_modsPass hF.lookahead
    | apply mok_namesGo hF.lookahead
    | apply mok_flushComments
    | apply mok_flushCommentsJ
    | exact mok_getS
    | exact mok_modify advance1_line_le
    | exact mok_modify (fun st2 => Nat.le_refl st2.lineNumber)
    | apply mok_unexpected
    | exact mok_throwStruct
    | exact mok_throwEnum
    | apply mok_pure
    | apply mok_ite
    | apply mok_bind
    | split
    | intro h2


set_option maxHeartbeats 2000000 in
theorem mok_paramsGoBody {F : Fns} (hF : FnsOk F) (p : J) :
    MOk (paramsGoBody F p) := by
  unfold paramsGoBody
  try simp only [pmBind_eq, pmPure_eq]
  repeat' first
    | apply hF.next
    | apply hF.nextLoop
    | exact hF.spacesRun
    | exact hF.skipSpaces
    | apply hF.lookahead
    | apply hF.consume
    | exact hF.parseComment
    | apply hF.cBlockLoop
    | apply hF.cLineLoop
    | apply hF.parseIdentifier
    | apply hF.identLoop
    | apply hF.parseNumber
    | apply hF.numLoop
    | exact hF.parseEscape
    | apply hF.parseString
    | apply hF.strLoop
    | exact hF.parseLiteral
    | apply hF.commaExprGo
    | apply hF.idxGo
    | exact hF.parseUnary
    | exact hF.scanBinaryOperator
    | apply hF.parseBinary
    | apply hF.binOuter
    | apply hF.binInner
    | apply hF.parseExpression
    | exact hF.declarationIncoming
    | apply hF.parseDeclaration
    | apply hF.modsLoop
    | apply hF.parseDefinition
    | apply hF.bracketGo
    | exact hF.parseParameters
    | apply hF.paramsGo
    | apply hF.parseFunction
    | apply hF.parseBody
    | apply hF.blockGo
    | exact hF.parseStatement
    | exact hF.parseInclude
    | apply hF.incLoop1
    | apply hF.incLoop2
    | exact hF.parsePredefine
    | exact hF.parse
    | apply hF.parseGo
    | apply mok_lookGo hF.next
    | apply mok_consumeGo hF.next
    | apply mok_scanGo hF.lookahead
    | apply mok_declIncGo hF.lookahead
    | apply mok_modsPass hF.lookahead
    | apply mok_namesGo hF.lookahead
    | apply mok_flushComments
    | apply mok_flushCommentsJ
    | exact mok_getS
    | exact mok_modify advance1_line_le
    | exact mok_modify (fun st2 => Nat.le_refl st2.lineNumber)
    | apply mok_unexpected
    | exact mok_throwStruct
    | exact mok_throwEnum
    | apply mok_pure
    | apply mok_ite
    | apply mok_bind
    | split
    | intro h2


set_option maxHeartbeats 2000000 in
theorem mok_parseFunctionBody {F : Fns} (hF : FnsOk F) (d : Decl) :
    MOk (parseFunctionBody F d) := by
  unfold parseFunctionBody
  try simp only [pmBind_eq, pmPure_eq]
  repeat' first
    | apply hF.next
    | apply hF.nextLoop
    | exact hF.spacesRun
    | exact hF.skipSpaces
    | apply hF.lookahead
    | apply hF.consume
    | exact hF.parseComment
    | apply hF.cBlockLoop
    | apply hF.cLineLoop
    | apply hF.parseIdentifier
    | apply hF.identLoop
    | apply hF.parseNumber
    | apply hF.numLoop
    | exact hF.parseEscape
    | apply hF.parseString
    | apply hF.strLoop
    | exact hF.parseLiteral
    | apply hF.commaExprGo
    | apply hF.idxGo
    | exact hF.parseUnary
    | exact hF.scanBinaryOperator
    | apply hF.parseBinary
    | apply hF.binOuter
    | apply hF.binInner
    | apply hF.parseExpression
    | exact hF.declarationIncoming
    | apply hF.parseDeclaration
    | apply hF.modsLoop
    | apply hF.parseDefinition
    | apply hF.bracketGo
    | exact hF.parseParameters
    | apply hF.paramsGo
    | apply hF.parseFunction
    | apply hF.parseBody
    | apply hF.blockGo
    | exact hF.parseStatement
    | exact hF.parseInclude
    | apply hF.incLoop1
    | apply hF.incLoop2
    | exact hF.parsePredefine
    | exact hF.parse
    | apply hF.parseGo
    | apply mok_lookGo hF.next
    | apply mok_consumeGo hF.next
    | apply mok_scanGo hF.lookahead
    | apply mok_declIncGo hF.lookahead
    | apply mok_modsPass hF.lookahead
    | apply mok_namesGo hF.lookahead
    | apply mok_flushComments
    | apply mok_flushCommentsJ
    | exact mok_getS
    | exact mok_modify advance1_line_le
    | exact mok_modify (fun st2 => Nat.le_refl st2.lineNumber)
    | apply mok_unexpected
    | exact mok_throwStruct
    | exact mok_throwEnum
    | apply mok_pure
    | apply mok_ite
    | apply mok_bind
    | split
    | intro h2


set_option maxHeartbeats 2000000 in
theorem mok_parseBodyBody {F : Fns} (hF : FnsOk F) (b : Bool) :
    MOk (parseBodyBody F b) := by
  unfold parseBodyBody
  try simp only [pmBind_eq, pmPure_eq]
  repeat' first
    | apply hF.next
    | apply hF.nextLoop
    | exact hF.spacesRun
    | exact hF.skipSpaces
    | apply hF.lookahead
    | apply hF.consume
    | exact hF.parseComment
    | apply hF.cBlockLoop
    | apply hF.cLineLoop
    | apply hF.parseIdentifier
    | apply hF.identLoop
    | apply hF.parseNumber
    | apply hF.numLoop
    | exact hF.parseEscape
    | apply hF.parseString
    | apply hF.strLoop
    | exact hF.parseLiteral
    | apply hF.commaExprGo
    | apply hF.idxGo
    | exact hF.parseUnary
    | exact hF.scanBinaryOperator
    | apply hF.parseBinary
    | apply hF.binOuter
    | apply hF.binInner
    | apply hF.parseExpression
    | exact hF.declarationIncoming
    | apply hF.parseDeclaration
    | apply hF.modsLoop
    | apply hF.parseDefinition
    | apply hF.bracketGo
    | exact hF.parseParameters
    | apply hF.paramsGo
    | apply hF.parseFunction
    | apply hF.parseBody
    | apply hF.blockGo
    | exact hF.parseStatement
    | exact hF.parseInclude
    | apply hF.incLoop1
    | apply hF.incLoop2
    | exact hF.parsePredefine
    | exact hF.parse
    | apply hF.parseGo
    | apply mok_lookGo hF.next
    | apply mok_consumeGo hF.next
    | apply mok_scanGo hF.lookahead
    | apply mok_declIncGo hF.lookahead
    | apply mok_modsPass hF.lookahead
    | apply mok_namesGo hF.lookahead
    | apply mok_flushComments
    | apply mok_flushCommentsJ
    | exact mok_getS
    | exact mok_modify advance1_line_le
    | exact mok_modify (fun st2 => Nat.le_refl st2.lineNumber)
    | apply mok_unexpected
    | exact mok_throwStruct
    | exact mok_throwEnum
    | apply mok_pure
    | apply mok_ite
    | apply mok_bind
    | split
    | intro h2


set_option maxHeartbeats 2000000 in
theorem mok_blockGoBody {F : Fns} (hF : FnsOk F) (s : List J) :
    MOk (blockGoBody F s) := by
  unfold blockGoBody
  try simp only [pmBind_eq, pmPure_eq]
  repeat' first
    | apply hF.next
    | apply hF.nextLoop
    | exact hF.spacesRun
    | exact hF.skipSpaces
    | apply hF.lookahead
    | apply hF.consume
    | exact hF.parseComment
    | apply hF.cBlockLoop
    | apply hF.cLineLoop
    | apply hF.parseIdentifier
    | apply hF.identLoop
    | apply hF.parseNumber
    | apply hF.numLoop
    | exact hF.parseEscape
    | apply hF.parseString
    | apply hF.strLoop
    | exact hF.parseLiteral
    | apply hF.commaExprGo
    | apply hF.idxGo
    | exact hF.parseUnary
    | exact hF.scanBinaryOperator
    | apply hF.parseBinary
    | apply hF.binOuter
    | apply hF.binInner
    | apply hF.parseExpression
    | exact hF.declarationIncoming
    | apply hF.parseDeclaration
    | apply hF.modsLoop
    | apply hF.parseDefinition
    | apply hF.bracketGo
    | exact hF.parseParameters
    | apply hF.paramsGo
    | apply hF.parseFunction
    | apply hF.parseBody
    | apply hF.blockGo
    | exact hF.parseStatement
    | exact hF.parseInclude
    | apply hF.incLoop1
    | apply hF.incLoop2
    | exact hF.parsePredefine
    | exact hF.parse
    | apply hF.parseGo
    | apply mok_lookGo hF.next
    | apply mok_consumeGo hF.next
    | apply mok_scanGo hF.lookahead
    | apply mok_declIncGo hF.lookahead
    | apply mok_modsPass hF.lookahead
    | apply mok_namesGo hF.lookahead
    | apply mok_flushComments
    | apply mok_flushCommentsJ
    | exact mok_getS
    | exact mok_modify advance1_line_le
    | exact mok_modify (fun st2 => Nat.le_refl st2.lineNumber)
    | apply mok_unexpected
    | exact mok_throwStruct
    | exact mok_throwEnum
    | apply mok_pure
    | apply mok_ite
    | apply mok_bind
    | split
    | intro h2


set_option maxHeartbeats 2000000 in
theorem mok_parseStatementBody {F : Fns} (hF : FnsOk F) :
    MOk (parseStatementBody F) := by
  unfold parseStatementBody
  try simp only [pmBind_eq, pmPure_eq]
  repeat' first
    | apply hF.next
    | apply hF.nextLoop
    | exact hF.spacesRun
    | exact hF.skipSpaces
    | apply hF.lookahead
    | apply hF.consume
    | exact hF.parseComment
    | apply hF.cBlockLoop
    | apply hF.cLineLoop
    | apply hF.parseIdentifier
    | apply hF.identLoop
    | apply hF.parseNumber
    | apply hF.numLoop
    | exact hF.parseEscape
    | apply hF.parseString
    | apply hF.strLoop
    | exact hF.parseLiteral
    | apply hF.commaExprGo
    | apply hF.idxGo
    | exact hF.parseUnary
    | exact hF.scanBinaryOperator
    | apply hF.parseBinary
    | apply hF.binOuter
    | apply hF.binInner
    | apply hF.parseExpression
    | exact hF.declarationIncoming
    | apply hF.parseDeclaration
    | apply hF.modsLoop
    | apply hF.parseDefinition
    | apply hF.bracketGo
    | exact hF.parseParameters
    | apply hF.paramsGo
    | apply hF.parseFunction
    | apply hF.parseBody
    | apply hF.blockGo
    | exact hF.parseStatement
    | exact hF.parseInclude
    | apply hF.incLoop1
    | apply hF.incLoop2
    | exact hF.parsePredefine
    | exact hF.parse
    | apply hF.parseGo
    | apply mok_lookGo hF.next
    | apply mok_consumeGo hF.next
    | apply mok_scanGo hF.lookahead
    | apply mok_declIncGo hF.lookahead
    | apply mok_modsPass hF.lookahead
    | apply mok_namesGo hF.lookahead
    | apply mok_flushComments
    | apply mok_flushCommentsJ
    | exact mok_getS
    | exact mok_modify advance1_line_le
    | exact mok_modify (fun st2 => Nat.le_refl st2.lineNumber)
    | apply mok_unexpected
    | exact mok_throwStruct
    | exact mok_throwEnum
    | apply mok_pure
    | apply mok_ite
    | apply mok_bind
    | split
    | intro h2


set_option maxHeartbeats 2000000 in
theorem mok_parseIncludeBody {F : Fns} (hF : FnsOk F) :
    MOk (parseIncludeBody F) := by
  unfold parseIncludeBody
  try simp only [pmBind_eq, pmPure_eq]
  repeat' first
    | apply hF.next
    | apply hF.nextLoop
    | exact hF.spacesRun
    | exact hF.skipSpaces
    | apply hF.lookahead
    | apply hF.consume
    | exact hF.parseComment
    | apply hF.cBlockLoop
    | apply hF.cLineLoop
    | apply hF.parseIdentifier
    | apply hF.identLoop
    | apply hF.parseNumber
    | apply hF.numLoop
    | exact hF.parseEscape
    | apply hF.parseString
    | apply hF.strLoop
    | exact hF.parseLiteral
    | apply hF.commaExprGo
    | apply hF.idxGo
    | exact hF.parseUnary
    | exact hF.scanBinaryOperator
    | apply hF.parseBinary
    | apply hF.binOuter
    | apply hF.binInner
    | apply hF.parseExpression
    | exact hF.declarationIncoming
    | apply hF.parseDeclaration
    | apply hF.modsLoop
    | apply hF.parseDefinition
    | apply hF.bracketGo
    | exact hF.parseParameters
    | apply hF.paramsGo
    | apply hF.parseFunction
    | apply hF.parseBody
    | apply hF.blockGo
    | exact hF.parseStatement
    | exact hF.parseInclude
    | apply hF.incLoop1
    | apply hF.incLoop2
    | exact hF.parsePredefine
    | exact hF.parse
    | apply hF.parseGo
    | apply mok_lookGo hF.next
    | apply mok_consumeGo hF.next
    | apply mok_scanGo hF.lookahead
    | apply mok_declIncGo hF.lookahead
    | apply mok_modsPass hF.lookahead
    | apply mok_namesGo hF.lookahead
    | apply mok_flushComments
    | apply mok_flushCommentsJ
    | exact mok_getS
    | exact mok_modify advance1_line_le
    | exact mok_modify (fun st2 => Nat.le_refl st2.lineNumber)
    | apply mok_unexpected
    | exact mok_throwStruct
    | exact mok_throwEnum
    | apply mok_pure
    | apply mok_ite
    | apply mok_bind
    | split
    | intro h2


set_option maxHeartbeats 2000000 in
theorem mok_incLoop1Body {F : Fns} (hF : FnsOk F) (a : List Char) :
    MOk (incLoop1Body F a) := by
  unfold incLoop1Body
  try simp only [pmBind_eq, pmPure_eq]
  repeat' first
    | apply hF.next
    | apply hF.nextLoop
    | exact hF.spacesRun
    | exact hF.skipSpaces
    | apply hF.lookahead
    | apply hF.consume
    | exact hF.parseComment
    | apply hF.cBlockLoop
    | apply hF.cLineLoop
    | apply hF.parseIdentifier
    | apply hF.identLoop
    | apply hF.parseNumber
    | apply hF.numLoop
    | exact hF.parseEscape
    | apply hF.parseString
    | apply hF.strLoop
    | exact hF.parseLiteral
    | apply hF.commaExprGo
    | apply hF.idxGo
    | exact hF.parseUnary
    | exact hF.scanBinaryOperator
    | apply hF.parseBinary
    | apply hF.binOuter
    | apply hF.binInner
    | apply hF.parseExpression
    | exact hF.declarationIncoming
    | apply hF.parseDeclaration
    | apply hF.modsLoop
    | apply hF.parseDefinition
    | apply hF.bracketGo
    | exact hF.parseParameters
    | apply hF.paramsGo
    | apply hF.parseFunction
    | apply hF.parseBody
    | apply hF.blockGo
    | exact hF.parseStatement
    | exact hF.parseInclude
    | apply hF.incLoop1
    | apply hF.incLoop2
    | exact hF.parsePredefine
    | exact hF.parse
    | apply hF.parseGo
    | apply mok_lookGo hF.next
    | apply mok_consumeGo hF.next
    | apply mok_scanGo hF.lookahead
    | apply mok_declIncGo hF.lookahead
    | apply mok_modsPass hF.lookahead
    | apply mok_namesGo hF.lookahead
    | apply mok_flushComments
    | apply mok_flushCommentsJ
    | exact mok_getS
    | exact mok_modify advance1_line_le
    | exact mok_modify (fun st2 => Nat.le_refl st2.lineNumber)
    | apply mok_unexpected
    | exact mok_throwStruct
    | exact mok_throwEnum
    | apply mok_pure
    | apply mok_ite
    | apply mok_bind
    | split
    | intro h2


set_option maxHeartbeats 2000000 in
theorem mok_incLoop2Body {F : Fns} (hF : FnsOk F) (a : List Char) :
    MOk (incLoop2Body F a) := by
  unfold incLoop2Body
  try simp only [pmBind_eq, pmPure_eq]
  repeat' first
    | apply hF.next
    | apply hF.nextLoop
    | exact hF.spacesRun
    | exact hF.skipSpaces
    | apply hF.lookahead
    | apply hF.consume
    | exact hF.parseComment
    | apply hF.cBlockLoop
    | apply hF.cLineLoop
    | apply hF.parseIdentifier
    | apply hF.identLoop
    | apply hF.parseNumber
    | apply hF.numLoop
    | exact hF.parseEscape
    | apply hF.parseString
    | apply hF.strLoop
    | exact hF.parseLiteral
    | apply hF.commaExprGo
    | apply hF.idxGo
    | exact hF.parseUnary
    | exact hF.scanBinaryOperator
    | apply hF.parseBinary
    | apply hF.binOuter
    | apply hF.binInner
    | apply hF.parseExpression
    | exact hF.declarationIncoming
    | apply hF.parseDeclaration
    | apply hF.modsLoop
    | apply hF.parseDefinition
    | apply hF.bracketGo
    | exact hF.parseParameters
    | apply hF.paramsGo
    | apply hF.parseFunction
    | apply hF.parseBody
    | apply hF.blockGo
    | exact hF.parseStatement
    | exact hF.parseInclude
    | apply hF.incLoop1
    | apply hF.incLoop2
    | exact hF.parsePredefine
    | exact hF.parse
    | apply hF.parseGo
    | apply mok_lookGo hF.next
    | apply mok_consumeGo hF.next
    | apply mok_scanGo hF.lookahead
    | apply mok_declIncGo hF.lookahead
    | apply mok_modsPass hF.lookahead
    | apply mok_namesGo hF.lookahead
    | apply mok_flushComments
    | apply mok_flushCommentsJ
    | exact mok_getS
    | exact mok_modify advance1_line_le
    | exact mok_modify (fun st2 => Nat.le_refl st2.lineNumber)
    | apply mok_unexpected
    | exact mok_throwStruct
    | exact mok_throwEnum
    | apply mok_pure
    | apply mok_ite
    | apply mok_bind
    | split
    | intro h2


set_option maxHeartbeats 2000000 in
theorem mok_parsePredefineBody {F : Fns} (hF : FnsOk F) :
    MOk (parsePredefineBody F) := by
  unfold parsePredefineBody
  try simp only [pmBind_eq, pmPure_eq]
  repeat' first
    | apply hF.next
    | apply hF.nextLoop
    | exact hF.spacesRun
    | exact hF.skipSpaces
    | apply hF.lookahead
    | apply hF.consume
    | exact hF.parseComment
    | apply hF.cBlockLoop
    | apply hF.cLineLoop
    | apply hF.parseIdentifier
    | apply hF.identLoop
    | apply hF.parseNumber
    | apply hF.numLoop
    | exact hF.parseEscape
    | apply hF.parseString
    | apply hF.strLoop
    | exact hF.parseLiteral
    | apply hF.commaExprGo
    | apply hF.idxGo
    | exact hF.parseUnary
    | exact hF.scanBinaryOperator
    | apply hF.parseBinary
    | apply hF.binOuter
    | apply hF.binInner
    | apply hF.parseExpression
    | exact hF.declarationIncoming
    | apply hF.parseDeclaration
    | apply hF.modsLoop
    | apply hF.parseDefinition
    | apply hF.bracketGo
    | exact hF.parseParameters
    | apply hF.paramsGo
    | apply hF.parseFunction
    | apply hF.parseBody
    | apply hF.blockGo
    | exact hF.parseStatement
    | exact hF.parseInclude
    | apply hF.incLoop1
    | apply hF.incLoop2
    | exact hF.parsePredefine
    | exact hF.parse
    | apply hF.parseGo
    | apply mok_lookGo hF.next
    | apply mok_consumeGo hF.next
    | apply mok_scanGo hF.lookahead
    | apply mok_declIncGo hF.lookahead
    | apply mok_modsPass hF.lookahead
    | apply mok_namesGo hF.lookahead
    | apply mok_flushComments
    | apply mok_flushCommentsJ
    | exact mok_getS
    | exact mok_modify advance1_line_le
    | exact mok_modify (fun st2 => Nat.le_refl st2.lineNumber)
    | apply mok_unexpected
    | exact mok_throwStruct
    | exact mok_throwEnum
    | apply mok_pure
    | apply mok_ite
    | apply mok_bind
    | split
    | intro h2


set_option maxHeartbeats 2000000 in
theorem mok_parseTopBody {F : Fns} (hF : FnsOk F) :
    MOk (parseTopBody F) := by
  unfold parseTopBody
  try simp only [pmBind_eq, pmPure_eq]
  repeat' first
    | apply hF.next
    | apply hF.nextLoop
    | exact hF.spacesRun
    | exact hF.skipSpaces
    | apply hF.lookahead
    | apply hF.consume
    | exact hF.parseComment
    | apply hF.cBlockLoop
    | apply hF.cLineLoop
    | apply hF.parseIdentifier
    | apply hF.identLoop
    | apply hF.parseNumber
    | apply hF.numLoop
    | exact hF.parseEscape
    | apply hF.parseString
    | apply hF.strLoop
    | exact hF.parseLiteral
    | apply hF.commaExprGo
    | apply hF.idxGo
    | exact hF.parseUnary
    | exact hF.scanBinaryOperator
    | apply hF.parseBinary
    | apply hF.binOuter
    | apply hF.binInner
    | apply hF.parseExpression
    | exact hF.declarationIncoming
    | apply hF.parseDeclaration
    | apply hF.modsLoop
    | apply hF.parseDefinition
    | apply hF.bracketGo
    | exact hF.parseParameters
    | apply hF.paramsGo
    | apply hF.parseFunction
    | apply hF.parseBody
    | apply hF.blockGo
    | exact hF.parseStatement
    | exact hF.parseInclude
    | apply hF.incLoop1
    | apply hF.incLoop2
    | exact hF.parsePredefine
    | exact hF.parse
    | apply hF.parseGo
    | apply mok_lookGo hF.next
    | apply mok_consumeGo hF.next
    | apply mok_scanGo hF.lookahead
    | apply mok_declIncGo hF.lookahead
    | apply mok_modsPass hF.lookahead
    | apply mok_namesGo hF.lookahead
    | apply mok_flushComments
    | apply mok_flushCommentsJ
    | exact mok_getS
    | exact mok_modify advance1_line_le
    | exact mok_modify (fun st2 => Nat.le_refl st2.lineNumber)
    | apply mok_unexpected
    | exact mok_throwStruct
    | exact mok_throwEnum
    | apply mok_pure
    | apply mok_ite
    | apply mok_bind
    | split
    | intro h2


set_option maxHeartbeats 2000000 in
theorem mok_parseGoBody {F : Fns} (hF : FnsOk F) (s : J) :
    MOk (parseGoBody F s) := by
  unfold parseGoBody
  try simp only [pmBind_eq, pmPure_eq]
  repeat' first
    | apply hF.next
    | apply hF.nextLoop
    | exact hF.spacesRun
    | exact hF.skipSpaces
    | apply hF.lookahead
    | apply hF.consume
    | exact hF.parseComment
    | apply hF.cBlockLoop
    | apply hF.cLineLoop
    | apply hF.parseIdentifier
    | apply hF.identLoop
    | apply hF.parseNumber
    | apply hF.numLoop
    | exact hF.parseEscape
    | apply hF.parseString
    | apply hF.strLoop
    | exact hF.parseLiteral
    | apply hF.commaExprGo
    | apply hF.idxGo
    | exact hF.parseUnary
    | exact hF.scanBinaryOperator
    | apply hF.parseBinary
    | apply hF.binOuter
    | apply hF.binInner
    | apply hF.parseExpression
    | exact hF.declarationIncoming
    | apply hF.parseDeclaration
    | apply hF.modsLoop
    | apply hF.parseDefinition
    | apply hF.bracketGo
    | exact hF.parseParameters
    | apply hF.paramsGo
    | apply hF.parseFunction
    | apply hF.parseBody
    | apply hF.blockGo
    | exact hF.parseStatement
    | exact hF.parseInclude
    | apply hF.incLoop1
    | apply hF.incLoop2
    | exact hF.parsePredefine
    | exact hF.parse
    | apply hF.parseGo
    | apply mok_lookGo hF.next
    | apply mok_consumeGo hF.next
    | apply mok_scanGo hF.lookahead
    | apply mok_declIncGo hF.lookahead
    | apply mok_modsPass hF.lookahead
    | apply mok_namesGo hF.lookahead
    | apply mok_flushComments
    | apply mok_flushCommentsJ
    | exact mok_getS
    | exact mok_modify advance1_line_le
    | exact mok_modify (fun st2 => Nat.le_refl st2.lineNumber)
    | apply mok_unexpected
    | exact mok_throwStruct
    | exact mok_throwEnum
    | apply mok_pure
    | apply mok_ite
    | apply mok_bind
    | split
    | intro h2

theorem fnsOk_bottom : FnsOk Fns.bottom := by
  constructor <;> (intros; exact fun _ => trivial)

theorem fnsOk_mk {F : Fns} (hF : FnsOk F) : FnsOk (mkFns F) :=
  ⟨mok_nextBody hF, mok_nextLoopBody hF, mok_spacesRunBody hF, mok_skipSpacesBody hF,
   mok_lookaheadBody hF, mok_consumeBody hF, mok_parseCommentBody hF, mok_cBlockLoopBody hF,
   mok_cLineLoopBody hF, mok_parseIdentifierBody hF, mok_identLoopBody hF,
   mok_parseNumberBody hF, mok_numLoopBody hF, mok_parseEscapeBody hF, mok_parseStringBody hF,
   mok_strLoopBody hF, mok_parseLiteralBody hF, mok_commaExprGoBody hF, mok_idxGoBody hF,
   mok_parseUnaryBody hF, mok_scanBinaryOperatorBody hF, mok_parseBinaryBody hF,
   mok_binOuterBody hF, mok_binInnerBody hF, mok_parseExpressionBody hF,
   mok_declarationIncomingBody hF, mok_parseDeclarationBody hF, mok_modsLoopBody hF,
   mok_parseDefinitionBody hF, mok_bracketGoBody hF, mok_parseParametersBody hF,
   mok_paramsGoBody hF, mok_parseFunctionBody hF, mok_parseBodyBody hF, mok_blockGoBody hF,
   mok_parseStatementBody hF, mok_parseIncludeBody hF, mok_incLoop1Body hF,
   mok_incLoop2Body hF, mok_parsePredefineBody hF, mok_parseTopBody hF, mok_parseGoBody hF⟩

theorem fnsOk : ∀ f : Nat, FnsOk (fnsAux f) := by
  intro f
  induction f with
  | zero => exact fnsOk_bottom
  | succ g ih => exact fnsOk_mk ih

/-- C8: every error outcome of a `parse()` run is a `runtime_error` whose
message is either `Line number N: Expect X` with `N` the line number recorded
by the state carried at the throw site, or one of the two
unsupported-construct messages (`struct`/`enum`); since no exception is ever
caught, this holds of the final result of the whole run, for every fuel and
source. -/
theorem c8_theorem :
    ∀ (fuel : Nat) (src : String),
      match parseRun fuel src with
      | .err e st => goodErrFmt e st
      | _ => True := by
  intro fuel src
  have h := (fnsOk fuel).parse (initState src)
  unfold parseRun
  cases hr : (fnsAux fuel).parse (initState src) with
  | ok j st => exact trivial
  | err e st =>
      rw [hr] at h
      have h2 : goodErrFmt e st ∧ (initState src).lineNumber ≤ st.lineNumber := h
      exact h2.1
  | fuel => exact trivial

/-- C10 (amended): a failed `lookahead` restores `index` exactly and re-reads
`curr` from the buffer at that index (hence `curr` is restored exactly
whenever it agreed with `source[index]` before the call); the source buffer
and `typeNames` are untouched, the old comment queue is a prefix of the new
one, and the line number never decreases. -/
theorem c10_theorem :
    ∀ (f : Nat) (s : String) (k : Bool) (st st' : PState),
      (fnsAux f).lookahead s k st = .ok false st' →
      st'.index = st.index ∧
      st'.curr = getc st'.source st.index ∧
      (st.curr = getc st.source st.index → st'.curr = st.curr) ∧
      st'.source = st.source ∧ st'.typeNames = st.typeNames ∧
      (∃ t, st'.comments = st.comments ++ t) ∧
      st.lineNumber ≤ st'.lineNumber := by
  intro f s k st st' h
  obtain ⟨hi, hc, hfr⟩ := lookahead_false f s k st false st' h rfl
  obtain ⟨hsrc, htn, hcom, hline⟩ := hfr
  refine ⟨hi, hc, ?_, hsrc, htn, hcom, hline⟩
  intro hsync
  rw [hc, hsrc, ← hsync]

/-- Witness for `c10_theorem`: a failed `lookahead("int")` at the start of
`abc` returns the state unchanged, and the theorem applies to it. -/
theorem c10_witness :
    ((fnsAux 50).lookahead "int" false
        { source := "abc".data, index := 0, curr := 'a', lineNumber := 1,
          comments := [], typeNames := [] } =
      PResult.ok false
        { source := "abc".data, index := 0, curr := 'a', lineNumber := 1,
          comments := [], typeNames := [] }) ∧
    (1 : Nat) ≤ 1 :=
  ⟨rfl, (c10_theorem 50 "int" false
      { source := "abc".data, index := 0, curr := 'a', lineNumber := 1,
        comments := [], typeNames := [] }
      { source := "abc".data, index := 0, curr := 'a', lineNumber := 1,
        comments := [], typeNames := [] } rfl).2.2.2.2.2.2⟩
